import Mathlib

/-!
# Little-CMS fast-float plug-in: interpolation and curve evaluators

A shallow embedding of the evaluators and optimizers of `plugins/fast_float/src`
(`fast_float_tethra.c`, `fast_float_cmyk.c`, `fast_float_curves.c`,
`fast_float_internal.h`), of the dispatcher of `fast_float_sup.c`, of the
bit packing of `PixelFormat` in `testbed/lcms3.hpp`, of the 5-6-5 formatters of
`testbed/testplugin.c`, and of `M16`, `M16_inv`, `adapt` and `unadapt` of
`src/cmscam16.c`.

Conventions of the embedding.

* `cmsFloat32Number` arithmetic is modelled by exact arithmetic in a linearly
  ordered field `α` with a floor function (the rationals for evaluation, the
  reals for the general statements).  Constants are the values the compiler
  gives them: `1.0e-9f` is `9007199 * 2^-53`.  There is no NaN in such a field,
  so the `isnan` disjunct of `fclamp` and `flerp` is vacuous and left out; the
  two clamps, the comparisons and the derivation of the fractions `rx`, `ry`,
  `rz` are given a second time on numbers extended by NaN, in `WithNaN`.
* The rounding of the float32 operations is modelled on the rationals by
  `round32` (round to nearest, ties to even, gradual underflow, no overflow,
  one rounding per operation, no fused multiply-add).  The definitions whose
  names end in `32` are the evaluators and tests with every floating-point
  operation rounded.
* `cmsUInt32Number` fields are natural numbers, `int` locals are integers; no
  wrap-around is modelled, the index computations stay below the table length.
* A table in memory is a total function from integer offsets to samples; the
  evaluators report, next to the value they compute, the offsets they load.
* A pixel buffer is a list of pixels; the byte offsets and increments that
  `_cmsComputeComponentIncrements` derives from the formats are not modelled,
  except in the evaluators named `_formatted`, which take the starting order
  as an argument.
* An optimizer maps the pointees of its seven arguments to a return value and
  the new pointees; the lcms2 functions it calls are not part of the sources
  and are a parameter (`Lcms2Calls`).  A call whose behaviour is undefined, or
  depends on lcms2 code that is not at hand, has no outcome (`none`).
-/

namespace FastFloat

variable {α : Type} [LinearOrderedField α]

/-! ## fast_float_internal.h -/

/-- Number of nodes of a composite curve: `#define MAX_NODES_IN_CURVE 0x8001`. -/
def MAX_NODES_IN_CURVE : Nat := 0x8001

/-- Clamp to the unit interval: `fclamp`,
`((v < 1.0e-9f) || isnan(v)) ? 0.0f : (v > 1.0f ? 1.0f : v)`.  The constant
`1.0e-9f` is the float32 nearest to `10^-9`, which is `9007199 * 2^-53`
(bits `0x3089705F`), a little less than `10^-9`. -/
def fclamp (v : α) : α :=
  if v < 9007199 / 9007199254740992 then 0 else (if v > 1 then 1 else v)

/-- Modelled from the spec: `_cmsQuickFloor` is declared in the lcms2 internal
headers, which are not part of the sources at hand; the spec describes the
cell computation as `cell = floor(x*(N-1))`, so it is the floor function. -/
def _cmsQuickFloor [FloorRing α] (v : α) : Int := Int.floor v

/-- Sampled curve evaluation `flerp`: the value returned together with the
table offsets loaded, in program order. -/
def flerp [FloorRing α] (LutTable : Int → α) (v : α) : α × List Int :=
  if v < 9007199 / 9007199254740992 then
    (LutTable 0, [0])
  else if v ≥ 1 then
    (LutTable ((MAX_NODES_IN_CURVE : Int) - 1), [(MAX_NODES_IN_CURVE : Int) - 1])
  else
    let v := v * (((MAX_NODES_IN_CURVE - 1 : Nat) : Int) : α)
    let cell0 : Int := _cmsQuickFloor v
    let cell1 : Int := Int.ceil v
    let rest : α := v - (cell0 : α)
    let y0 := LutTable cell0
    let y1 := LutTable cell1
    (y0 + (y1 - y0) * rest, [cell0, cell1])

/-! ## Interpolation parameters -/

/-- The fields of `cmsInterpParams` that the evaluators use: the number of
output channels, `Domain[]` (grid points minus one per input), the strides
`opta[]` and the sample table. -/
structure cmsInterpParams (α : Type) where
  nOutputs : Nat
  Domain : Nat → Nat
  opta : Nat → Nat
  Table : Int → α

/-- The six-way tetrahedral selection shared by `FloatCLUTEval` and by both
passes of `FloatCMYKCLUTEval`: the body of one `OutChan` iteration, with
`DENS(i,j,k) = LutTable[(i)+(j)+(k)+OutChan]` and `LutTable = Table + base`.
Returns `c0 + c1*rx + c2*ry + c3*rz` and the absolute table offsets loaded. -/
def tetra (Table : Int → α) (base : Int) (X0 Y0 Z0 X1 Y1 Z1 : Int)
    (rx ry rz : α) (OutChan : Nat) : α × List Int :=
  let IDX : Int → Int → Int → Int := fun i j k => base + (i + j + k + (OutChan : Int))
  let DENS : Int → Int → Int → α := fun i j k => Table (IDX i j k)
  let c0 := DENS X0 Y0 Z0
  let sel : (α × α × α) × List Int :=
    if rx ≥ ry ∧ ry ≥ rz then
      ((DENS X1 Y0 Z0 - c0,
        DENS X1 Y1 Z0 - DENS X1 Y0 Z0,
        DENS X1 Y1 Z1 - DENS X1 Y1 Z0),
       [IDX X1 Y0 Z0, IDX X1 Y1 Z0, IDX X1 Y1 Z1])
    else if rx ≥ rz ∧ rz ≥ ry then
      ((DENS X1 Y0 Z0 - c0,
        DENS X1 Y1 Z1 - DENS X1 Y0 Z1,
        DENS X1 Y0 Z1 - DENS X1 Y0 Z0),
       [IDX X1 Y0 Z0, IDX X1 Y1 Z1, IDX X1 Y0 Z1])
    else if rz ≥ rx ∧ rx ≥ ry then
      ((DENS X1 Y0 Z1 - DENS X0 Y0 Z1,
        DENS X1 Y1 Z1 - DENS X1 Y0 Z1,
        DENS X0 Y0 Z1 - c0),
       [IDX X1 Y0 Z1, IDX X0 Y0 Z1, IDX X1 Y1 Z1])
    else if ry ≥ rx ∧ rx ≥ rz then
      ((DENS X1 Y1 Z0 - DENS X0 Y1 Z0,
        DENS X0 Y1 Z0 - c0,
        DENS X1 Y1 Z1 - DENS X1 Y1 Z0),
       [IDX X1 Y1 Z0, IDX X0 Y1 Z0, IDX X1 Y1 Z1])
    else if ry ≥ rz ∧ rz ≥ rx then
      ((DENS X1 Y1 Z1 - DENS X0 Y1 Z1,
        DENS X0 Y1 Z0 - c0,
        DENS X0 Y1 Z1 - DENS X0 Y1 Z0),
       [IDX X1 Y1 Z1, IDX X0 Y1 Z1, IDX X0 Y1 Z0])
    else if rz ≥ ry ∧ ry ≥ rx then
      ((DENS X1 Y1 Z1 - DENS X0 Y1 Z1,
        DENS X0 Y1 Z1 - DENS X0 Y0 Z1,
        DENS X0 Y0 Z1 - c0),
       [IDX X1 Y1 Z1, IDX X0 Y1 Z1, IDX X0 Y0 Z1])
    else
      ((0, 0, 0), [])
  let c1 := sel.1.1
  let c2 := sel.1.2.1
  let c3 := sel.1.2.2
  (c0 + c1 * rx + c2 * ry + c3 * rz, IDX X0 Y0 Z0 :: sel.2)

/-! ## fast_float_tethra.c -/

/-- One iteration of the pixel loop of `FloatCLUTEval` for one output channel:
the value stored to `out[OutChan]` and the table offsets loaded. -/
def FloatCLUTEval_chan [FloorRing α] (p : cmsInterpParams α) (rin gin bin : α) (OutChan : Nat) :
    α × List Int :=
  let r := fclamp rin
  let g := fclamp gin
  let b := fclamp bin
  let px := r * (p.Domain 0 : α)
  let py := g * (p.Domain 1 : α)
  let pz := b * (p.Domain 2 : α)
  let x0 : Int := _cmsQuickFloor px
  let rx := px - (x0 : α)
  let y0 : Int := _cmsQuickFloor py
  let ry := py - (y0 : α)
  let z0 : Int := _cmsQuickFloor pz
  let rz := pz - (z0 : α)
  let X0 : Int := (p.opta 2 : Int) * x0
  let X1 : Int := X0 + (if r ≥ 1 then 0 else (p.opta 2 : Int))
  let Y0 : Int := (p.opta 1 : Int) * y0
  let Y1 : Int := Y0 + (if g ≥ 1 then 0 else (p.opta 1 : Int))
  let Z0 : Int := (p.opta 0 : Int) * z0
  let Z1 : Int := Z0 + (if b ≥ 1 then 0 else (p.opta 0 : Int))
  tetra p.Table 0 X0 Y0 Z0 X1 Y1 Z1 rx ry rz OutChan

/-- The evaluator `FloatCLUTEval` over a buffer of `len` RGB pixels: for each
pixel the list of the `nOutputs` samples written. -/
def FloatCLUTEval [FloorRing α] (p : cmsInterpParams α) (Input : List (α × α × α)) : List (List α) :=
  Input.map (fun px =>
    (List.range p.nOutputs).map (fun OutChan =>
      (FloatCLUTEval_chan p px.1 px.2.1 px.2.2 OutChan).1))

/-- All table offsets `FloatCLUTEval` loads during one call, in program order. -/
def FloatCLUTEval_reads [FloorRing α] (p : cmsInterpParams α) (Input : List (α × α × α)) :
    List Int :=
  Input.flatMap (fun px =>
    (List.range p.nOutputs).flatMap (fun OutChan =>
      (FloatCLUTEval_chan p px.1 px.2.1 px.2.2 OutChan).2))

/-! ## fast_float_cmyk.c -/

/-- Linear blend `LinearInterpInt`: `(h - l) * a + l`. -/
def LinearInterpInt (a l h : α) : α := (h - l) * a + l

/-- Clamp to `[0, 100]`: `fclamp100`,
`v < 0.0f ? 0.0f : (v > 100.0f ? 100.0f : v)`. -/
def fclamp100 (v : α) : α :=
  if v < 0 then 0 else (if v > 100 then 100 else v)

/-- The grid quantities one iteration of the pixel loop of `FloatCMYKCLUTEval`
derives from a pixel. -/
structure CMYKCell (α : Type) where
  K0 : Int
  K1 : Int
  X0 : Int
  X1 : Int
  Y0 : Int
  Y1 : Int
  Z0 : Int
  Z1 : Int
  rk : α
  rx : α
  ry : α
  rz : α

/-- Lines 130-162 of `FloatCMYKCLUTEval`: clamp, scale by `Domain[]`, split
into cell and fraction, scale by the strides. -/
def FloatCMYKCLUTEval_cell [FloorRing α] (p : cmsInterpParams α) (cin min yin kin : α) : CMYKCell α :=
  let c := fclamp100 cin / 100
  let m := fclamp100 min / 100
  let y := fclamp100 yin / 100
  let k := fclamp100 kin / 100
  let pk := c * (p.Domain 0 : α)
  let px := m * (p.Domain 1 : α)
  let py := y * (p.Domain 2 : α)
  let pz := k * (p.Domain 3 : α)
  let k0 : Int := _cmsQuickFloor pk
  let x0 : Int := _cmsQuickFloor px
  let y0 : Int := _cmsQuickFloor py
  let z0 : Int := _cmsQuickFloor pz
  let K0 : Int := (p.opta 3 : Int) * k0
  let X0 : Int := (p.opta 2 : Int) * x0
  let Y0 : Int := (p.opta 1 : Int) * y0
  let Z0 : Int := (p.opta 0 : Int) * z0
  { K0 := K0
    K1 := K0 + (if c ≥ 1 then 0 else (p.opta 3 : Int))
    X0 := X0
    X1 := X0 + (if m ≥ 1 then 0 else (p.opta 2 : Int))
    Y0 := Y0
    Y1 := Y0 + (if y ≥ 1 then 0 else (p.opta 1 : Int))
    Z0 := Z0
    Z1 := Z0 + (if k ≥ 1 then 0 else (p.opta 0 : Int))
    rk := pk - (k0 : α)
    rx := px - (x0 : α)
    ry := py - (y0 : α)
    rz := pz - (z0 : α) }

/-- One iteration of the pixel loop of `FloatCMYKCLUTEval` for one output
channel.  `LutTable` is the offset (relative to `p->Table`) that the local
pointer `LutTable` holds when the iteration starts: the first pass reads
through it as it stands, then the pointer is reset to `p->Table + K1` for the
second pass.  Returns the value stored to `out[OutChan]` and the offsets
loaded. -/
def FloatCMYKCLUTEval_chan [FloorRing α] (p : cmsInterpParams α) (LutTable : Int)
    (cin min yin kin : α) (OutChan : Nat) : α × List Int :=
  let q := FloatCMYKCLUTEval_cell p cin min yin kin
  let Tmp1 := tetra p.Table LutTable q.X0 q.Y0 q.Z0 q.X1 q.Y1 q.Z1 q.rx q.ry q.rz OutChan
  let Tmp2 := tetra p.Table q.K1 q.X0 q.Y0 q.Z0 q.X1 q.Y1 q.Z1 q.rx q.ry q.rz OutChan
  (LinearInterpInt q.rk Tmp1.1 Tmp2.1, Tmp1.2 ++ Tmp2.2)

/-- The pixel loop of `FloatCMYKCLUTEval`, started with the pointer `LutTable`
at offset `LutTable` from `p->Table`; every iteration leaves the pointer at
`p->Table + K1`. -/
def FloatCMYKCLUTEval_loop [FloorRing α] (p : cmsInterpParams α) :
    Int → List (α × α × α × α) → List (List α)
  | _, [] => []
  | LutTable, px :: rest =>
    (List.range p.nOutputs).map (fun OutChan =>
      (FloatCMYKCLUTEval_chan p LutTable px.1 px.2.1 px.2.2.1 px.2.2.2 OutChan).1)
    :: FloatCMYKCLUTEval_loop p (FloatCMYKCLUTEval_cell p px.1 px.2.1 px.2.2.1 px.2.2.2).K1 rest

/-- The evaluator `FloatCMYKCLUTEval` over a buffer of `len` CMYK pixels: the
local `LutTable` is initialised to `p->Table` before the loop. -/
def FloatCMYKCLUTEval [FloorRing α] (p : cmsInterpParams α) (Input : List (α × α × α × α)) :
    List (List α) :=
  FloatCMYKCLUTEval_loop p 0 Input

/-- The blend the spec describes for four inputs, as a comparison for
`FloatCMYKCLUTEval_chan`: the 3-D tetrahedral evaluation taken on the floor
slice `K0` and on the ceil slice `K1` of the outer axis, blended linearly by
the fraction of that axis. -/
def CMYKSliceBlend [FloorRing α] (p : cmsInterpParams α) (cin min yin kin : α)
    (OutChan : Nat) : α :=
  let q := FloatCMYKCLUTEval_cell p cin min yin kin
  let T_floor := tetra p.Table q.K0 q.X0 q.Y0 q.Z0 q.X1 q.Y1 q.Z1 q.rx q.ry q.rz OutChan
  let T_ceil := tetra p.Table q.K1 q.X0 q.Y0 q.Z0 q.X1 q.Y1 q.Z1 q.rx q.ry q.rz OutChan
  LinearInterpInt q.rk T_floor.1 T_ceil.1

/-! ## fast_float_curves.c -/

/-- The composite curves `CurvesFloatData`: three tables of
`MAX_NODES_IN_CURVE` samples (the bookkeeping pointer `real_ptr` is left
out). -/
structure CurvesFloatData (α : Type) where
  CurveR : Int → α
  CurveG : Int → α
  CurveB : Int → α

/-- The tolerance `#define LINEAR_CURVES_EPSILON 0.00001`. -/
def LINEAR_CURVES_EPSILON : α := 1 / 100000

/-- The value `expected` of the linearity tests:
`(cmsFloat32Number)j / (cmsFloat32Number)(MAX_NODES_IN_CURVE - 1)`. -/
def expected (j : Nat) : α := (j : α) / ((MAX_NODES_IN_CURVE - 1 : Nat) : α)

/-- The test `AllRGBCurvesAreLinear`: the loop over `j < MAX_NODES_IN_CURVE`
returns FALSE at the first node where one of the three curves is further than
`LINEAR_CURVES_EPSILON` from `expected`, TRUE when there is none. -/
def AllRGBCurvesAreLinear (data : CurvesFloatData α) : Bool :=
  (List.range MAX_NODES_IN_CURVE).all (fun j =>
    !(decide (|data.CurveR (j : Int) - expected j| > LINEAR_CURVES_EPSILON ∨
              |data.CurveG (j : Int) - expected j| > LINEAR_CURVES_EPSILON ∨
              |data.CurveB (j : Int) - expected j| > LINEAR_CURVES_EPSILON)))

/-- The test `KCurveIsLinear`: as `AllRGBCurvesAreLinear`, on `CurveR` only. -/
def KCurveIsLinear (data : CurvesFloatData α) : Bool :=
  (List.range MAX_NODES_IN_CURVE).all (fun j =>
    !(decide (|data.CurveR (j : Int) - expected j| > LINEAR_CURVES_EPSILON)))

/-- A stage of a pipeline, by its type signature (`cmsStageType`). -/
inductive cmsStageSignature where
  | cmsSigCurveSetElemType
  | cmsSigMatrixElemType
  | cmsSigCLutElemType
  | cmsSigNamedColorElemType
  | cmsSigIdentityElemType
  deriving DecidableEq, Repr

/-- A pipeline `cmsPipeline` as the optimizers see it: the types of its stages
in order (`cmsPipelineGetPtrToFirstStage`, `cmsStageNext`, `cmsStageType`) and
its evaluation `cmsPipelineEvalFloat`, a function from the input samples to
the output samples.  Both belong to lcms2 proper and are parameters here. -/
structure cmsPipeline (α : Type) where
  stages : List cmsStageSignature
  eval : List α → List α

/-- The tables `ComputeCompositeCurves` fills when the allocation succeeded:
for every node `i < MAX_NODES_IN_CURVE` the pipeline is evaluated on `nChan`
copies of `i / (MAX_NODES_IN_CURVE-1)`; `CurveR[i]` receives `OutFloat[0]`,
and unless `nChan == 1` `CurveG[i]` and `CurveB[i]` receive `OutFloat[1]` and
`OutFloat[2]`, which otherwise keep the zero of `_cmsMallocZero`.  Offsets
outside `0 .. MAX_NODES_IN_CURVE-1` are not part of the tables; the functions
below follow the same formula there. -/
def ComputeCompositeCurves (nChan : Nat) (Src : cmsPipeline α) : CurvesFloatData α :=
  let OutFloat : Int → List α := fun i =>
    Src.eval (List.replicate nChan ((i : α) / ((MAX_NODES_IN_CURVE - 1 : Nat) : α)))
  { CurveR := fun i => (OutFloat i).getD 0 0
    CurveG := fun i => if nChan = 1 then 0 else (OutFloat i).getD 1 0
    CurveB := fun i => if nChan = 1 then 0 else (OutFloat i).getD 2 0 }

/-- The evaluator `FastEvaluateFloatRGBCurves` over a buffer of RGB pixels:
each channel goes through `flerp` on its own curve. -/
def FastEvaluateFloatRGBCurves [FloorRing α] (Data : CurvesFloatData α)
    (Input : List (α × α × α)) : List (List α) :=
  Input.map (fun px =>
    [(flerp Data.CurveR px.1).1, (flerp Data.CurveG px.2.1).1, (flerp Data.CurveB px.2.2).1])

/-- The evaluator `FastFloatRGBIdentity`: `memmove` of the three 4-byte samples
of every pixel. -/
def FastFloatRGBIdentity (Input : List (α × α × α)) : List (List α) :=
  Input.map (fun px => [px.1, px.2.1, px.2.2])

/-- The evaluator `FastEvaluateFloatGrayCurves` over a buffer of one-channel
pixels: `flerp` on `CurveR`. -/
def FastEvaluateFloatGrayCurves [FloorRing α] (Data : CurvesFloatData α)
    (Input : List α) : List (List α) :=
  Input.map (fun k => [(flerp Data.CurveR k).1])

/-- The evaluator `FastFloatGrayIdentity`: `memmove` of the 4-byte sample of
every pixel. -/
def FastFloatGrayIdentity (Input : List α) : List (List α) :=
  Input.map (fun k => [k])

/-- The curve of colour channel `c` in the composite data: `CurveR`, `CurveG`,
`CurveB` for `c = 0, 1, 2`. -/
def CurvesFloatData.curve (d : CurvesFloatData α) (c : Nat) : Int → α :=
  match c with
  | 0 => d.CurveR
  | 1 => d.CurveG
  | _ => d.CurveB

/-- A pixel format as the optimizers look at it.  The macros `T_FLOAT`,
`T_BYTES`, `T_CHANNELS` and `T_COLORSPACE` belong to `lcms2.h`, which is not
part of the sources at hand; a format is represented by the values they
extract from it. -/
structure cmsFormat where
  T_FLOAT : Bool
  T_BYTES : Nat
  T_CHANNELS : Nat
  T_COLORSPACE : Nat
  deriving DecidableEq, Repr

/-- The transform functions an optimizer of the plug-in can install;
`caller n` stands for whatever `*TransformFn` held before the call. -/
inductive TransformFn where
  | FastEvaluateFloatRGBCurves
  | FastFloatRGBIdentity
  | FastEvaluateFloatGrayCurves
  | FastFloatGrayIdentity
  | FloatCLUTEval
  | FloatCMYKCLUTEval
  | caller (n : Nat)
  deriving DecidableEq, Repr

/-- The private data an optimizer can install in `*UserData`; `caller n`
stands for whatever the pointer held before the call. -/
inductive UserData (α : Type) where
  | curves (Data : CurvesFloatData α)
  | clut (p : cmsInterpParams α)
  | caller (n : Nat)

/-- The deallocators an optimizer can install in `*FreeUserData`. -/
inductive FreeUserDataFn where
  | free_aligned
  | _cmsFree
  | caller (n : Nat)
  deriving DecidableEq, Repr

/-- What the seven pointer arguments of an optimizer point to. -/
structure OptimizerArgs (α : Type) where
  TransformFn : TransformFn
  UserData : UserData α
  FreeUserData : FreeUserDataFn
  Lut : Option (cmsPipeline α)
  InputFormat : cmsFormat
  OutputFormat : cmsFormat
  dwFlags : Nat

/-- The flag `#define cmsFLAGS_CAN_CHANGE_FORMATTER 0x02000000`. -/
def cmsFLAGS_CAN_CHANGE_FORMATTER : Nat := 0x02000000

/-- The optimizer `OptimizeFloatByJoiningCurves`.  The result is `none` when
the C code runs into undefined behaviour: `cmsPipelineGetPtrToFirstStage`
on a null `*Lut`, or a failed `_cmsMallocZero`, after which `malloc_aligned`
stores through the misaligned null pointer.  Otherwise it is the value
returned and the contents of the seven arguments on return.  `mallocOk` tells
whether the allocation succeeds; `cmsFLAGS_NOCACHE` is the value of that
macro of `lcms2.h`. -/
def OptimizeFloatByJoiningCurves (mallocOk : Bool) (cmsFLAGS_NOCACHE : Nat)
    (a : OptimizerArgs α) : Option (Bool × OptimizerArgs α) :=
  if !a.InputFormat.T_FLOAT || !a.OutputFormat.T_FLOAT then some (false, a)
  else if a.InputFormat.T_BYTES ≠ 4 ∨ a.OutputFormat.T_BYTES ≠ 4 then some (false, a)
  else
    let nChans := a.InputFormat.T_CHANNELS
    if nChans ≠ a.OutputFormat.T_CHANNELS then some (false, a)
    else if nChans ≠ 1 ∧ nChans ≠ 3 then some (false, a)
    else
      match a.Lut with
      | none => none
      | some Src =>
        if Src.stages.any (fun mpe => decide (mpe ≠ cmsStageSignature.cmsSigCurveSetElemType)) then
          some (false, a)
        else if !mallocOk then none
        else
          let Data := ComputeCompositeCurves nChans Src
          let dwFlags := a.dwFlags ||| cmsFLAGS_NOCACHE
          let dwFlags := dwFlags &&& (0xFFFFFFFF ^^^ cmsFLAGS_CAN_CHANGE_FORMATTER)
          some (true,
            { a with
              dwFlags := dwFlags
              UserData := UserData.curves Data
              FreeUserData := FreeUserDataFn.free_aligned
              TransformFn :=
                if nChans = 1 then
                  (if KCurveIsLinear Data then TransformFn.FastFloatGrayIdentity
                   else TransformFn.FastEvaluateFloatGrayCurves)
                else
                  (if AllRGBCurvesAreLinear Data then TransformFn.FastFloatRGBIdentity
                   else TransformFn.FastEvaluateFloatRGBCurves) })

/-! ## The full-CLUT optimizers of fast_float_tethra.c and fast_float_cmyk.c -/

/-- The colour space code `PT_RGB` of a format; the macro belongs to `lcms2.h`,
which is not part of the sources at hand, where its value is 4. -/
def PT_RGB : Nat := 4

/-- The colour space code `PT_CMYK` of a format; the macro belongs to
`lcms2.h`, where its value is 6. -/
def PT_CMYK : Nat := 6

/-- Colour space signatures handed to the grid-point heuristic. -/
inductive cmsColorSpaceSignature where
  | cmsSigRgbData
  | cmsSigCmykData
  | cmsSigLabData
  | cmsSigGrayData
  deriving DecidableEq, Repr

/-- What lcms2 proper contributes to a call of a full-CLUT optimizer; none of
these functions is part of the sources at hand, so their outcomes are
parameters.
* `cmsPipelineAllocOk`: `cmsPipelineAlloc` returns a pipeline, not NULL;
* `cmsStageAllocCLutFloatOk`: `cmsStageAllocCLutFloat` returns a stage;
* `cmsStageSampleCLutFloat grid nIn nOut lut`: the interpolation parameters
  of the new stage once `lut` has been resampled on `grid` points per axis,
  or `none` when the sampling returns FALSE;
* `_cmsMallocZeroOk`: the allocation inside `FloatCLUTAlloc` or
  `FloatCMYKAlloc` succeeds;
* `_cmsReasonableGridpointsByColorspace`: the grid-point heuristic;
* `cmsPipelineOutputChannels`: output channels of a pipeline;
* `clutEval`: evaluation of the one-stage pipeline built on a sampled table. -/
structure Lcms2Calls (α : Type) where
  cmsPipelineAllocOk : Bool
  cmsStageAllocCLutFloatOk : Bool
  cmsStageSampleCLutFloat : Nat → Nat → Nat → cmsPipeline α → Option (cmsInterpParams α)
  _cmsMallocZeroOk : Bool
  _cmsReasonableGridpointsByColorspace : cmsColorSpaceSignature → Nat → Nat
  cmsPipelineOutputChannels : cmsPipeline α → Nat
  clutEval : cmsInterpParams α → List α → List α

/-- What a full-CLUT optimizer leaves behind: the value returned, the contents
of the seven arguments, whether `cmsPipelineFree(OriginalLut)` ran and whether
`cmsPipelineFree(OptimizedLUT)` ran. -/
structure OptimizeOutcome (α : Type) where
  ret : Bool
  args : OptimizerArgs α
  freedOriginal : Bool
  freedOptimized : Bool

/-- The optimizer `OptimizeCLUTRGBTransform`.  The result is `none` when
`cmsStageAllocCLutFloat` returns NULL: the code hands the null stage on to
`cmsPipelineInsertStage` and `cmsStageSampleCLutFloat` unchecked, and what
these do with it is not settled by the sources at hand. -/
def OptimizeCLUTRGBTransform (env : Lcms2Calls α) (a : OptimizerArgs α) :
    Option (OptimizeOutcome α) :=
  match a.Lut with
  | none => some ⟨false, a, false, false⟩
  | some OriginalLut =>
    if !a.InputFormat.T_FLOAT || !a.OutputFormat.T_FLOAT then some ⟨false, a, false, false⟩
    else if a.InputFormat.T_BYTES ≠ 4 ∨ a.OutputFormat.T_BYTES ≠ 4 then
      some ⟨false, a, false, false⟩
    else if a.InputFormat.T_COLORSPACE ≠ PT_RGB then some ⟨false, a, false, false⟩
    else if a.OutputFormat.T_COLORSPACE ≠ PT_RGB then some ⟨false, a, false, false⟩
    else if OriginalLut.stages.any
        (fun mpe => decide (mpe = cmsStageSignature.cmsSigNamedColorElemType)) then
      some ⟨false, a, false, false⟩
    else
      let nGridPoints := env._cmsReasonableGridpointsByColorspace
        cmsColorSpaceSignature.cmsSigRgbData a.dwFlags
      if !env.cmsPipelineAllocOk then some ⟨false, a, false, false⟩
      else if !env.cmsStageAllocCLutFloatOk then none
      else
        match env.cmsStageSampleCLutFloat nGridPoints 3
            (env.cmsPipelineOutputChannels OriginalLut) OriginalLut with
        | none => some ⟨false, a, false, true⟩
        | some Params =>
          if !env._cmsMallocZeroOk then some ⟨false, a, false, false⟩
          else
            some ⟨true,
              { a with
                Lut := some { stages := [cmsStageSignature.cmsSigCLutElemType]
                              eval := env.clutEval Params }
                TransformFn := TransformFn.FloatCLUTEval
                UserData := UserData.clut Params
                FreeUserData := FreeUserDataFn._cmsFree
                dwFlags := a.dwFlags &&& (0xFFFFFFFF ^^^ cmsFLAGS_CAN_CHANGE_FORMATTER) },
              true, false⟩

/-- The optimizer `OptimizeCLUTCMYKTransform`; `none` as for
`OptimizeCLUTRGBTransform`.  Only the colour space of the input format is
tested, and the grid-point heuristic is called with `cmsSigRgbData`, as in the
source. -/
def OptimizeCLUTCMYKTransform (env : Lcms2Calls α) (a : OptimizerArgs α) :
    Option (OptimizeOutcome α) :=
  match a.Lut with
  | none => some ⟨false, a, false, false⟩
  | some OriginalLut =>
    if !a.InputFormat.T_FLOAT || !a.OutputFormat.T_FLOAT then some ⟨false, a, false, false⟩
    else if a.InputFormat.T_BYTES ≠ 4 ∨ a.OutputFormat.T_BYTES ≠ 4 then
      some ⟨false, a, false, false⟩
    else if a.InputFormat.T_COLORSPACE ≠ PT_CMYK then some ⟨false, a, false, false⟩
    else if OriginalLut.stages.any
        (fun mpe => decide (mpe = cmsStageSignature.cmsSigNamedColorElemType)) then
      some ⟨false, a, false, false⟩
    else
      let nGridPoints := env._cmsReasonableGridpointsByColorspace
        cmsColorSpaceSignature.cmsSigRgbData a.dwFlags
      if !env.cmsPipelineAllocOk then some ⟨false, a, false, false⟩
      else if !env.cmsStageAllocCLutFloatOk then none
      else
        match env.cmsStageSampleCLutFloat nGridPoints 4
            (env.cmsPipelineOutputChannels OriginalLut) OriginalLut with
        | none => some ⟨false, a, false, true⟩
        | some Params =>
          if !env._cmsMallocZeroOk then some ⟨false, a, false, false⟩
          else
            some ⟨true,
              { a with
                Lut := some { stages := [cmsStageSignature.cmsSigCLutElemType]
                              eval := env.clutEval Params }
                TransformFn := TransformFn.FloatCMYKCLUTEval
                UserData := UserData.clut Params
                FreeUserData := FreeUserDataFn._cmsFree
                dwFlags := a.dwFlags &&& (0xFFFFFFFF ^^^ cmsFLAGS_CAN_CHANGE_FORMATTER) },
              true, false⟩

/-! ## fast_float_sup.c -/

/-- The matchers `Floating_Point_Transforms_Dispatcher` calls. -/
inductive Matcher where
  | OptimizeMatrixShaper15
  | Optimize8ByJoiningCurves
  | Optimize8MatrixShaperSSE
  | Optimize8MatrixShaper
  | OptimizeFloatByJoiningCurves
  | OptimizeFloatMatrixShaper
  | Optimize8BitRGBTransform
  | Optimize16BitRGBTransform
  | OptimizeCLUTRGBTransform
  | OptimizeCLUTCMYKTransform
  | OptimizeCLUTLabTransform
  deriving DecidableEq, Repr

/-- The three kinds of matcher. -/
inductive MatcherKind where
  | matrixShaper
  | joinCurves
  | clutResampling
  deriving DecidableEq, Repr

/-- The kind of each matcher, as the comment above its call in the dispatcher
names it: "a set of curves plus a matrix plus a set of curves", "by joining
curves", "prelinearization plus tetrahedral" (and "Lab float as input" for the
last CLUT matcher). -/
def Matcher.kind : Matcher → MatcherKind
  | .OptimizeMatrixShaper15 => .matrixShaper
  | .Optimize8ByJoiningCurves => .joinCurves
  | .Optimize8MatrixShaperSSE => .matrixShaper
  | .Optimize8MatrixShaper => .matrixShaper
  | .OptimizeFloatByJoiningCurves => .joinCurves
  | .OptimizeFloatMatrixShaper => .matrixShaper
  | .Optimize8BitRGBTransform => .clutResampling
  | .Optimize16BitRGBTransform => .clutResampling
  | .OptimizeCLUTRGBTransform => .clutResampling
  | .OptimizeCLUTCMYKTransform => .clutResampling
  | .OptimizeCLUTLabTransform => .clutResampling

/-- The calls of `Floating_Point_Transforms_Dispatcher` in source order (lines
38 to 69); the call of `Optimize8MatrixShaperSSE` is compiled in unless
`CMS_DONT_USE_SSE2` is defined. -/
def matchersInSourceOrder (CMS_DONT_USE_SSE2 : Bool) : List Matcher :=
  [Matcher.OptimizeMatrixShaper15, Matcher.Optimize8ByJoiningCurves]
  ++ (if CMS_DONT_USE_SSE2 then [] else [Matcher.Optimize8MatrixShaperSSE])
  ++ [Matcher.Optimize8MatrixShaper,
      Matcher.OptimizeFloatByJoiningCurves,
      Matcher.OptimizeFloatMatrixShaper,
      Matcher.Optimize8BitRGBTransform,
      Matcher.Optimize16BitRGBTransform,
      Matcher.OptimizeCLUTRGBTransform,
      Matcher.OptimizeCLUTCMYKTransform,
      Matcher.OptimizeCLUTLabTransform]

/-- One call of a matcher by the dispatcher: which matcher, what the seven
arguments pointed to when it was called, and what it returned. -/
structure Invocation (α : Type) where
  matcher : Matcher
  args : OptimizerArgs α
  ret : Bool

/-- What a call of the dispatcher amounts to: the value returned, the contents
of the seven arguments on return, and the calls made, in order. -/
structure DispatchResult (α : Type) where
  ret : Bool
  args : OptimizerArgs α
  invoked : List (Invocation α)

/-- The chain `if (M1(..)) return TRUE; if (M2(..)) return TRUE; ... return
FALSE;` over a list of matchers.  Every matcher receives the same seven
pointers; `run m` maps what they point to when `m` is entered to the value `m`
returns and what they point to when it returns. -/
def tryMatchers (run : Matcher → OptimizerArgs α → Bool × OptimizerArgs α) :
    List Matcher → OptimizerArgs α → DispatchResult α
  | [], a => ⟨false, a, []⟩
  | m :: rest, a =>
    if (run m a).1 then ⟨true, (run m a).2, [⟨m, a, true⟩]⟩
    else
      let d := tryMatchers run rest (run m a).2
      ⟨d.ret, d.args, ⟨m, a, false⟩ :: d.invoked⟩

/-- The dispatcher `Floating_Point_Transforms_Dispatcher`. -/
def Floating_Point_Transforms_Dispatcher (CMS_DONT_USE_SSE2 : Bool)
    (run : Matcher → OptimizerArgs α → Bool × OptimizerArgs α) (a : OptimizerArgs α) :
    DispatchResult α :=
  tryMatchers run (matchersInSourceOrder CMS_DONT_USE_SSE2) a

/-- Matcher `m1` is tried before matcher `m2`: both are called in the chain,
`m1` at an earlier position. -/
def triedBefore (CMS_DONT_USE_SSE2 : Bool) (m1 m2 : Matcher) : Prop :=
  m1 ∈ matchersInSourceOrder CMS_DONT_USE_SSE2 ∧ m2 ∈ matchersInSourceOrder CMS_DONT_USE_SSE2 ∧
  (matchersInSourceOrder CMS_DONT_USE_SSE2).indexOf m1
    < (matchersInSourceOrder CMS_DONT_USE_SSE2).indexOf m2

instance (sse : Bool) (m1 m2 : Matcher) : Decidable (triedBefore sse m1 m2) := by
  unfold triedBefore
  exact inferInstance

/-! ## The evaluators on buffers with an extra channel -/

/-- The stores one pixel iteration of an evaluator makes into the output
pixel: sample `i` receives `v`, for each `(i, v)` in program order; the other
samples of the output pixel keep what the output buffer held. -/
def storeSamples (outpx : List α) : List (Nat × α) → List α
  | [] => outpx
  | w :: rest => storeSamples (outpx.set w.1 w.2) rest

/-- The evaluator `FloatCLUTEval` (lines 96 to 203) on interleaved buffers whose
pixels carry more samples than the colour channels.  A pixel is the list of its
4-byte samples; `SourceStartingOrder` and `DestStartingOrder` are the arrays
`_cmsComputeComponentIncrements` fills, in units of one sample, the increments
being one pixel.  The three inputs are loaded from `SourceStartingOrder[0..2]`
and `out[OutChan]` is stored for `OutChan < TotalOut` only; `nalpha` is not
used and `dwFlags` is not an argument of the evaluator. -/
def FloatCLUTEval_formatted [FloorRing α] (p : cmsInterpParams α)
    (SourceStartingOrder DestStartingOrder : Nat → Nat)
    (Input Output : List (List α)) : List (List α) :=
  List.zipWith (fun inpx outpx =>
    storeSamples outpx ((List.range p.nOutputs).map (fun OutChan =>
      (DestStartingOrder OutChan,
       (FloatCLUTEval_chan p (inpx.getD (SourceStartingOrder 0) 0)
          (inpx.getD (SourceStartingOrder 1) 0) (inpx.getD (SourceStartingOrder 2) 0)
          OutChan).1)))) Input Output

/-- The evaluator `FastEvaluateFloatRGBCurves` (lines 60 to 115) on interleaved
buffers, as `FloatCLUTEval_formatted`: three loads, three stores. -/
def FastEvaluateFloatRGBCurves_formatted [FloorRing α] (Data : CurvesFloatData α)
    (SourceStartingOrder DestStartingOrder : Nat → Nat)
    (Input Output : List (List α)) : List (List α) :=
  List.zipWith (fun inpx outpx =>
    storeSamples outpx
      [(DestStartingOrder 0, (flerp Data.CurveR (inpx.getD (SourceStartingOrder 0) 0)).1),
       (DestStartingOrder 1, (flerp Data.CurveG (inpx.getD (SourceStartingOrder 1) 0)).1),
       (DestStartingOrder 2, (flerp Data.CurveB (inpx.getD (SourceStartingOrder 2) 0)).1)])
    Input Output

/-- The evaluator `FastFloatRGBIdentity` (lines 118 to 171) on interleaved
buffers: three `memmove` of one sample each. -/
def FastFloatRGBIdentity_formatted (SourceStartingOrder DestStartingOrder : Nat → Nat)
    (Input Output : List (List α)) : List (List α) :=
  List.zipWith (fun inpx outpx =>
    storeSamples outpx
      [(DestStartingOrder 0, inpx.getD (SourceStartingOrder 0) 0),
       (DestStartingOrder 1, inpx.getD (SourceStartingOrder 1) 0),
       (DestStartingOrder 2, inpx.getD (SourceStartingOrder 2) 0)])
    Input Output

/-- The starting order of `TYPE_RGBA_FLT` in samples: `CheckComputeIncrements`
expects the byte offsets `0, 4, 8, 12` (red, green, blue, then the extra
channel) and the increments `16`. -/
def TYPE_RGBA_FLT_StartingOrder : Nat → Nat := fun i => i

/-- A three-channel pipeline of one curve-set stage whose curves are all the
square function. -/
def squarePipeline : cmsPipeline ℚ where
  stages := [cmsStageSignature.cmsSigCurveSetElemType]
  eval := fun xs => xs.map (fun x => x * x)

/-- A three-channel pipeline of one curve-set stage with identity curves. -/
def identityPipeline : cmsPipeline ℚ where
  stages := [cmsStageSignature.cmsSigCurveSetElemType]
  eval := fun xs => xs

/-- The float RGB format, `TYPE_RGB_FLT`: floating point, 4 bytes per sample,
3 channels, colour space `PT_RGB`. -/
def rgbFloatFormat : cmsFormat where
  T_FLOAT := true
  T_BYTES := 4
  T_CHANNELS := 3
  T_COLORSPACE := PT_RGB

/-- Arguments of an optimizer call on the identity pipeline with float RGB
formats on both sides and no flag set. -/
def identityArgs : OptimizerArgs ℚ where
  TransformFn := TransformFn.caller 0
  UserData := UserData.caller 0
  FreeUserData := FreeUserDataFn.caller 0
  Lut := some identityPipeline
  InputFormat := rgbFloatFormat
  OutputFormat := rgbFloatFormat
  dwFlags := 0

/-- Composite curves that are the identity at every node. -/
def identityCurves : CurvesFloatData ℚ where
  CurveR := fun j => (j : ℚ) / 32768
  CurveG := fun j => (j : ℚ) / 32768
  CurveB := fun j => (j : ℚ) / 32768

/-! ## Reading an output buffer, grid layout, sample tables used below -/

/-- The sample an evaluator wrote for output channel `c` of pixel `n`. -/
def written (out : List (List α)) (n c : Nat) : Option α :=
  (out[n]?).bind (fun row => row[c]?)

/-- The standard strides of a regular 3-input grid, a precondition on the
interpolation parameters (lcms2 proper sets them up, outside the sources at
hand).  With `gridSize_a = Domain[a] + 1` they are `opta[0] = nOutputs`,
`opta[1] = nOutputs*gridSize_2`, `opta[2] = nOutputs*gridSize_2*gridSize_1`. -/
def StdStrides3 (p : cmsInterpParams α) : Prop :=
  p.opta 0 = p.nOutputs ∧
  p.opta 1 = p.nOutputs * (p.Domain 2 + 1) ∧
  p.opta 2 = p.nOutputs * (p.Domain 2 + 1) * (p.Domain 1 + 1)

/-- Number of samples of a regular 3-input grid:
`nOutputs * gridSize_0 * gridSize_1 * gridSize_2`. -/
def tableLength3 (p : cmsInterpParams α) : Nat :=
  p.nOutputs * (p.Domain 0 + 1) * (p.Domain 1 + 1) * (p.Domain 2 + 1)

/-- The standard strides of a regular 4-input grid (see `StdStrides3`):
`opta[0] = nOutputs` for the last input, up to `opta[3]` for the first
input. -/
def StdStrides4 (p : cmsInterpParams α) : Prop :=
  p.opta 0 = p.nOutputs ∧
  p.opta 1 = p.nOutputs * (p.Domain 3 + 1) ∧
  p.opta 2 = p.nOutputs * (p.Domain 3 + 1) * (p.Domain 2 + 1) ∧
  p.opta 3 = p.nOutputs * (p.Domain 3 + 1) * (p.Domain 2 + 1) * (p.Domain 1 + 1)

/-- The two-point-per-axis 3-input, 3-output table `identity[]` of
`CheckInterp3DPlugin`, scaled from `0xffff` to 1: the node `(i, j, k)` stores
`(i, j, k)`. -/
def identityGrid2 : cmsInterpParams ℚ where
  nOutputs := 3
  Domain := fun _ => 1
  opta := fun a => if a = 0 then 3 else if a = 1 then 6 else 12
  Table := fun n =>
    [0, 0, 0,
     0, 0, 1,
     0, 1, 0,
     0, 1, 1,
     1, 0, 0,
     1, 0, 1,
     1, 1, 0,
     1, 1, 1].getD n.toNat 0

/-- The two-point-per-axis channel reversal `out[c] = 1 - in[2-c]`: the node
`(i, j, k)` stores `(1 - k, 1 - j, 1 - i)`. -/
def reversalGrid2 : cmsInterpParams ℚ where
  nOutputs := 3
  Domain := fun _ => 1
  opta := fun a => if a = 0 then 3 else if a = 1 then 6 else 12
  Table := fun n =>
    [1, 1, 1,
     0, 1, 1,
     1, 0, 1,
     0, 0, 1,
     1, 1, 0,
     0, 1, 0,
     1, 0, 0,
     0, 0, 0].getD n.toNat 0

/-- A one-channel 4-input grid with two points per axis, whose sample at
offset `n` is `n`. -/
def cmykGrid2 : cmsInterpParams ℚ where
  nOutputs := 1
  Domain := fun _ => 1
  opta := fun a => if a = 0 then 1 else if a = 1 then 2 else if a = 2 then 4 else 8
  Table := fun n => (n : ℚ)

/-- A pipeline without stages; its evaluation hands the input on. -/
def emptyPipeline : cmsPipeline ℚ where
  stages := []
  eval := fun xs => xs

/-- Arguments of an optimizer call on `emptyPipeline` with float RGB formats on
both sides and no flag set. -/
def emptyArgs : OptimizerArgs ℚ where
  TransformFn := TransformFn.caller 0
  UserData := UserData.caller 0
  FreeUserData := FreeUserDataFn.caller 0
  Lut := some emptyPipeline
  InputFormat := rgbFloatFormat
  OutputFormat := rgbFloatFormat
  dwFlags := 0

/-- Arguments of an optimizer call on the identity pipeline with float RGB
formats and the flags `0x02002000`: `CAN_CHANGE_FORMATTER` and one more bit. -/
def lockableArgs : OptimizerArgs ℚ where
  TransformFn := TransformFn.caller 0
  UserData := UserData.caller 0
  FreeUserData := FreeUserDataFn.caller 0
  Lut := some identityPipeline
  InputFormat := rgbFloatFormat
  OutputFormat := rgbFloatFormat
  dwFlags := 0x02002000

/-- Calls into lcms2 in which every allocation succeeds but the resampling of
the pipeline returns FALSE. -/
def samplingFails : Lcms2Calls ℚ where
  cmsPipelineAllocOk := true
  cmsStageAllocCLutFloatOk := true
  cmsStageSampleCLutFloat := fun _ _ _ _ => none
  _cmsMallocZeroOk := true
  _cmsReasonableGridpointsByColorspace := fun _ _ => 33
  cmsPipelineOutputChannels := fun _ => 3
  clutEval := fun _ xs => xs

/-- Calls into lcms2 in which everything succeeds; the resampled table is the
two-point identity grid. -/
def samplingSucceeds : Lcms2Calls ℚ where
  cmsPipelineAllocOk := true
  cmsStageAllocCLutFloatOk := true
  cmsStageSampleCLutFloat := fun _ _ _ _ => some identityGrid2
  _cmsMallocZeroOk := true
  _cmsReasonableGridpointsByColorspace := fun _ _ => 2
  cmsPipelineOutputChannels := fun _ => 3
  clutEval := fun _ xs => xs

/-- A matcher behaviour for the dispatcher: only `OptimizeFloatByJoiningCurves`
matches, and no matcher changes what the arguments point to. -/
def onlyFloatCurvesMatch : Matcher → OptimizerArgs ℚ → Bool × OptimizerArgs ℚ :=
  fun m a => (decide (m = Matcher.OptimizeFloatByJoiningCurves), a)

/-! ## The grid cell of `FloatCLUTEval`, the arms of the tetrahedral selection -/

/-- The grid quantities one iteration of the pixel loop of `FloatCLUTEval`
derives from a pixel (lines 116 to 140). -/
structure RGBCell (α : Type) where
  X0 : Int
  X1 : Int
  Y0 : Int
  Y1 : Int
  Z0 : Int
  Z1 : Int
  rx : α
  ry : α
  rz : α

/-- Lines 116 to 140 of `FloatCLUTEval`: clamp, scale by `Domain[]`, split into
cell and fraction, scale by the strides. -/
def FloatCLUTEval_cell [FloorRing α] (p : cmsInterpParams α) (rin gin bin : α) : RGBCell α :=
  let r := fclamp rin
  let g := fclamp gin
  let b := fclamp bin
  let px := r * (p.Domain 0 : α)
  let py := g * (p.Domain 1 : α)
  let pz := b * (p.Domain 2 : α)
  let x0 : Int := _cmsQuickFloor px
  let y0 : Int := _cmsQuickFloor py
  let z0 : Int := _cmsQuickFloor pz
  let X0 : Int := (p.opta 2 : Int) * x0
  let Y0 : Int := (p.opta 1 : Int) * y0
  let Z0 : Int := (p.opta 0 : Int) * z0
  { X0 := X0
    X1 := X0 + (if r ≥ 1 then 0 else (p.opta 2 : Int))
    Y0 := Y0
    Y1 := Y0 + (if g ≥ 1 then 0 else (p.opta 1 : Int))
    Z0 := Z0
    Z1 := Z0 + (if b ≥ 1 then 0 else (p.opta 0 : Int))
    rx := px - (x0 : α)
    ry := py - (y0 : α)
    rz := pz - (z0 : α) }

/-- The arm of the if-chain of `tetra` that is executed: 1 to 6 in source
order, 0 for the final `else`. -/
def tetraArmTaken (rx ry rz : α) : Nat :=
  if rx ≥ ry ∧ ry ≥ rz then 1
  else if rx ≥ rz ∧ rz ≥ ry then 2
  else if rz ≥ rx ∧ rx ≥ ry then 3
  else if ry ≥ rx ∧ rx ≥ rz then 4
  else if ry ≥ rz ∧ rz ≥ rx then 5
  else if rz ≥ ry ∧ ry ≥ rx then 6
  else 0

/-- The test that guards arm `n` of the if-chain of `tetra`. -/
def tetraTest (n : Nat) (rx ry rz : α) : Bool :=
  match n with
  | 1 => decide (rx ≥ ry ∧ ry ≥ rz)
  | 2 => decide (rx ≥ rz ∧ rz ≥ ry)
  | 3 => decide (rz ≥ rx ∧ rx ≥ ry)
  | 4 => decide (ry ≥ rx ∧ rx ≥ rz)
  | 5 => decide (ry ≥ rz ∧ rz ≥ rx)
  | 6 => decide (rz ≥ ry ∧ ry ≥ rx)
  | _ => false

/-- The value `c0 + c1*rx + c2*ry + c3*rz` with `c1`, `c2`, `c3` as arm `n` of
the if-chain of `tetra` assigns them; `dijk` stands for `DENS(Xi, Yj, Zk)`, so
`c0 = d000`.  Arm 0 is the final `else`, `c1 = c2 = c3 = 0`. -/
def tetraArm (n : Nat) (d000 d100 d010 d110 d001 d101 d011 d111 rx ry rz : α) : α :=
  match n with
  | 1 => d000 + (d100 - d000) * rx + (d110 - d100) * ry + (d111 - d110) * rz
  | 2 => d000 + (d100 - d000) * rx + (d111 - d101) * ry + (d101 - d100) * rz
  | 3 => d000 + (d101 - d001) * rx + (d111 - d101) * ry + (d001 - d000) * rz
  | 4 => d000 + (d110 - d010) * rx + (d010 - d000) * ry + (d111 - d110) * rz
  | 5 => d000 + (d111 - d011) * rx + (d010 - d000) * ry + (d011 - d010) * rz
  | 6 => d000 + (d111 - d011) * rx + (d011 - d001) * ry + (d001 - d000) * rz
  | _ => d000 + 0 * rx + 0 * ry + 0 * rz

/-! ## Clamping with NaN -/

/-- A `cmsFloat32Number` that may be NaN: the comparisons `<` and `>` are false
as soon as one operand is NaN. -/
inductive Float32OrNaN (α : Type) where
  | NaN
  | num (x : α)

namespace WithNaN

/-- The comparison `a < b` of C on floats. -/
def lt : Float32OrNaN α → Float32OrNaN α → Bool
  | .num x, .num y => decide (x < y)
  | _, _ => false

/-- The comparison `a > b` of C on floats. -/
def gt : Float32OrNaN α → Float32OrNaN α → Bool
  | .num x, .num y => decide (x > y)
  | _, _ => false

/-- The classification `isnan`. -/
def isnan : Float32OrNaN α → Bool
  | .NaN => true
  | .num _ => false

/-- The clamp `fclamp` with its `isnan` disjunct:
`((v < 1.0e-9f) || isnan(v)) ? 0.0f : (v > 1.0f ? 1.0f : v)`. -/
def fclamp (v : Float32OrNaN α) : Float32OrNaN α :=
  if lt v (.num (9007199 / 9007199254740992)) || isnan v then .num 0
  else (if gt v (.num 1) then .num 1 else v)

/-- The clamp `fclamp100`, which has no `isnan` disjunct:
`v < 0.0f ? 0.0f : (v > 100.0f ? 100.0f : v)`. -/
def fclamp100 (v : Float32OrNaN α) : Float32OrNaN α :=
  if lt v (.num 0) then .num 0 else (if gt v (.num 100) then .num 100 else v)

end WithNaN

/-! ## Sample data for the CMYK optimizer -/

/-- The float CMYK format, `TYPE_CMYK_FLT`: floating point, 4 bytes per sample,
4 channels, colour space `PT_CMYK`. -/
def cmykFloatFormat : cmsFormat where
  T_FLOAT := true
  T_BYTES := 4
  T_CHANNELS := 4
  T_COLORSPACE := PT_CMYK

/-- A pipeline of one CLUT stage that returns three zeros. -/
def clutPipeline : cmsPipeline ℚ where
  stages := [cmsStageSignature.cmsSigCLutElemType]
  eval := fun _ => [0, 0, 0]

/-- Arguments of an optimizer call on `clutPipeline` with the float CMYK format
on both sides and no flag set. -/
def cmykArgs : OptimizerArgs ℚ where
  TransformFn := TransformFn.caller 0
  UserData := UserData.caller 0
  FreeUserData := FreeUserDataFn.caller 0
  Lut := some clutPipeline
  InputFormat := cmykFloatFormat
  OutputFormat := cmykFloatFormat
  dwFlags := 0

/-- A grid-point heuristic that tells the colour spaces apart: 17 points per
axis for CMYK, 33 otherwise, whatever the flags. -/
def gridpoints17or33 : cmsColorSpaceSignature → Nat → Nat :=
  fun cs _ => if cs = cmsColorSpaceSignature.cmsSigCmykData then 17 else 33

/-- Calls into lcms2 in which everything succeeds, with the heuristic
`gridpoints17or33`; the table sampled on `n` points per axis records `n` in
`Domain[]`, which holds `n - 1` for every input. -/
def recordingCalls : Lcms2Calls ℚ where
  cmsPipelineAllocOk := true
  cmsStageAllocCLutFloatOk := true
  cmsStageSampleCLutFloat := fun nGridPoints _ outputChan _ =>
    some { nOutputs := outputChan
           Domain := fun _ => nGridPoints - 1
           opta := fun _ => 0
           Table := fun _ => 0 }
  _cmsMallocZeroOk := true
  _cmsReasonableGridpointsByColorspace := gridpoints17or33
  cmsPipelineOutputChannels := fun _ => 3
  clutEval := fun _ _ => [0, 0, 0]

/-! ## Rounding to float32 -/

/-- The integer nearest to `q`, ties to the even one. -/
def roundHalfEven (q : ℚ) : Int :=
  if q - (Int.floor q : ℚ) < 1 / 2 then Int.floor q
  else if q - (Int.floor q : ℚ) > 1 / 2 then Int.floor q + 1
  else if Int.floor q % 2 = 0 then Int.floor q else Int.floor q + 1

/-- The exponent of the last place of the float32 format at `x`: with
`2^e <= |x| < 2^(e+1)` it is `e - 23` (24 significant bits), and `-149` below
the normal range (`e < -126`). -/
def ulpExponent32 (x : ℚ) : Int := max (Int.log 2 |x|) (-126) - 23

/-- Rounding to the nearest `cmsFloat32Number`, ties to even: the result of one
float32 operation whose exact result is `x`.  Overflow is left out: the
exponent has no upper bound. -/
def round32 (x : ℚ) : ℚ :=
  if x = 0 then 0
  else (roundHalfEven (x / 2 ^ ulpExponent32 x) : ℚ) * 2 ^ ulpExponent32 x

/-! ## The evaluators and the linearity tests in float32 arithmetic -/

/-- The evaluator `flerp` with every floating-point operation rounded to
float32 (`v *= 32768`, `v - cell0`, `y1 - y0`, the product and the sum), on
float32 inputs. -/
def flerp32 (LutTable : Int → ℚ) (v : ℚ) : ℚ × List Int :=
  if v < 9007199 / 9007199254740992 then
    (LutTable 0, [0])
  else if v ≥ 1 then
    (LutTable ((MAX_NODES_IN_CURVE : Int) - 1), [(MAX_NODES_IN_CURVE : Int) - 1])
  else
    let v := round32 (v * (((MAX_NODES_IN_CURVE - 1 : Nat) : Int) : ℚ))
    let cell0 : Int := _cmsQuickFloor v
    let cell1 : Int := Int.ceil v
    let rest : ℚ := round32 (v - (cell0 : ℚ))
    let y0 := LutTable cell0
    let y1 := LutTable cell1
    (round32 (y0 + round32 (round32 (y1 - y0) * rest)), [cell0, cell1])

/-- The tolerance as the comparisons of the linearity tests see it: the literal
`0.00001` has type `double`, and its value is the double nearest to `10^-5`,
`5902958103587057 * 2^-69`. -/
def LINEAR_CURVES_EPSILON64 : ℚ := 5902958103587057 / 590295810358705651712

/-- The test `AllRGBCurvesAreLinear` in float32 arithmetic: the difference
`data->CurveR[j] - expected` is rounded to float32 before `fabsf`, and the
comparison with `LINEAR_CURVES_EPSILON` is one of doubles.  The quotient
`expected` of `j < 2^24` by `2^15` is exact. -/
def AllRGBCurvesAreLinear32 (data : CurvesFloatData ℚ) : Bool :=
  (List.range MAX_NODES_IN_CURVE).all (fun j =>
    !(decide (|round32 (data.CurveR (j : Int) - expected j)| > LINEAR_CURVES_EPSILON64 ∨
              |round32 (data.CurveG (j : Int) - expected j)| > LINEAR_CURVES_EPSILON64 ∨
              |round32 (data.CurveB (j : Int) - expected j)| > LINEAR_CURVES_EPSILON64)))

/-- The test `KCurveIsLinear` in float32 arithmetic. -/
def KCurveIsLinear32 (data : CurvesFloatData ℚ) : Bool :=
  (List.range MAX_NODES_IN_CURVE).all (fun j =>
    !(decide (|round32 (data.CurveR (j : Int) - expected j)| > LINEAR_CURVES_EPSILON64)))

/-- The sum `c0 + c1 * rx + c2 * ry + c3 * rz` as float32 arithmetic evaluates
it: three products and three additions, from left to right, each rounded. -/
def tetraSum32 (c0 c1 c2 c3 rx ry rz : ℚ) : ℚ :=
  round32 (round32 (round32 (c0 + round32 (c1 * rx)) + round32 (c2 * ry)) + round32 (c3 * rz))

/-- The selection `tetra` with every floating-point operation rounded to
float32: the differences `c1`, `c2`, `c3` and the final sum. -/
def tetra32 (Table : Int → ℚ) (base : Int) (X0 Y0 Z0 X1 Y1 Z1 : Int)
    (rx ry rz : ℚ) (OutChan : Nat) : ℚ × List Int :=
  let IDX : Int → Int → Int → Int := fun i j k => base + (i + j + k + (OutChan : Int))
  let DENS : Int → Int → Int → ℚ := fun i j k => Table (IDX i j k)
  let c0 := DENS X0 Y0 Z0
  let sel : (ℚ × ℚ × ℚ) × List Int :=
    if rx ≥ ry ∧ ry ≥ rz then
      ((round32 (DENS X1 Y0 Z0 - c0),
        round32 (DENS X1 Y1 Z0 - DENS X1 Y0 Z0),
        round32 (DENS X1 Y1 Z1 - DENS X1 Y1 Z0)),
       [IDX X1 Y0 Z0, IDX X1 Y1 Z0, IDX X1 Y1 Z1])
    else if rx ≥ rz ∧ rz ≥ ry then
      ((round32 (DENS X1 Y0 Z0 - c0),
        round32 (DENS X1 Y1 Z1 - DENS X1 Y0 Z1),
        round32 (DENS X1 Y0 Z1 - DENS X1 Y0 Z0)),
       [IDX X1 Y0 Z0, IDX X1 Y1 Z1, IDX X1 Y0 Z1])
    else if rz ≥ rx ∧ rx ≥ ry then
      ((round32 (DENS X1 Y0 Z1 - DENS X0 Y0 Z1),
        round32 (DENS X1 Y1 Z1 - DENS X1 Y0 Z1),
        round32 (DENS X0 Y0 Z1 - c0)),
       [IDX X1 Y0 Z1, IDX X0 Y0 Z1, IDX X1 Y1 Z1])
    else if ry ≥ rx ∧ rx ≥ rz then
      ((round32 (DENS X1 Y1 Z0 - DENS X0 Y1 Z0),
        round32 (DENS X0 Y1 Z0 - c0),
        round32 (DENS X1 Y1 Z1 - DENS X1 Y1 Z0)),
       [IDX X1 Y1 Z0, IDX X0 Y1 Z0, IDX X1 Y1 Z1])
    else if ry ≥ rz ∧ rz ≥ rx then
      ((round32 (DENS X1 Y1 Z1 - DENS X0 Y1 Z1),
        round32 (DENS X0 Y1 Z0 - c0),
        round32 (DENS X0 Y1 Z1 - DENS X0 Y1 Z0)),
       [IDX X1 Y1 Z1, IDX X0 Y1 Z1, IDX X0 Y1 Z0])
    else if rz ≥ ry ∧ ry ≥ rx then
      ((round32 (DENS X1 Y1 Z1 - DENS X0 Y1 Z1),
        round32 (DENS X0 Y1 Z1 - DENS X0 Y0 Z1),
        round32 (DENS X0 Y0 Z1 - c0)),
       [IDX X1 Y1 Z1, IDX X0 Y1 Z1, IDX X0 Y0 Z1])
    else
      ((0, 0, 0), [])
  let c1 := sel.1.1
  let c2 := sel.1.2.1
  let c3 := sel.1.2.2
  (tetraSum32 c0 c1 c2 c3 rx ry rz, IDX X0 Y0 Z0 :: sel.2)

/-- Lines 116 to 140 of `FloatCLUTEval` in float32: the conversion of
`Domain[]` to float, the products `r * Domain` and the differences `px - x0`
are rounded; the conversion of `x0` to float is exact, because `x0` is the
floor of the float `px`. -/
def FloatCLUTEval_cell32 (p : cmsInterpParams ℚ) (rin gin bin : ℚ) : RGBCell ℚ :=
  let r := fclamp rin
  let g := fclamp gin
  let b := fclamp bin
  let px := round32 (r * round32 (p.Domain 0 : ℚ))
  let py := round32 (g * round32 (p.Domain 1 : ℚ))
  let pz := round32 (b * round32 (p.Domain 2 : ℚ))
  let x0 : Int := _cmsQuickFloor px
  let y0 : Int := _cmsQuickFloor py
  let z0 : Int := _cmsQuickFloor pz
  let X0 : Int := (p.opta 2 : Int) * x0
  let Y0 : Int := (p.opta 1 : Int) * y0
  let Z0 : Int := (p.opta 0 : Int) * z0
  { X0 := X0
    X1 := X0 + (if r ≥ 1 then 0 else (p.opta 2 : Int))
    Y0 := Y0
    Y1 := Y0 + (if g ≥ 1 then 0 else (p.opta 1 : Int))
    Z0 := Z0
    Z1 := Z0 + (if b ≥ 1 then 0 else (p.opta 0 : Int))
    rx := round32 (px - (x0 : ℚ))
    ry := round32 (py - (y0 : ℚ))
    rz := round32 (pz - (z0 : ℚ)) }

/-- One iteration of the pixel loop of `FloatCLUTEval` for one output channel,
in float32 arithmetic. -/
def FloatCLUTEval_chan32 (p : cmsInterpParams ℚ) (rin gin bin : ℚ) (OutChan : Nat) :
    ℚ × List Int :=
  tetra32 p.Table 0 (FloatCLUTEval_cell32 p rin gin bin).X0 (FloatCLUTEval_cell32 p rin gin bin).Y0
    (FloatCLUTEval_cell32 p rin gin bin).Z0 (FloatCLUTEval_cell32 p rin gin bin).X1
    (FloatCLUTEval_cell32 p rin gin bin).Y1 (FloatCLUTEval_cell32 p rin gin bin).Z1
    (FloatCLUTEval_cell32 p rin gin bin).rx (FloatCLUTEval_cell32 p rin gin bin).ry
    (FloatCLUTEval_cell32 p rin gin bin).rz OutChan

/-- The value of arm `n` of `tetra32`, as `tetraArm` is that of `tetra`. -/
def tetraArm32 (n : Nat) (d000 d100 d010 d110 d001 d101 d011 d111 rx ry rz : ℚ) : ℚ :=
  match n with
  | 1 => tetraSum32 d000 (round32 (d100 - d000)) (round32 (d110 - d100)) (round32 (d111 - d110))
      rx ry rz
  | 2 => tetraSum32 d000 (round32 (d100 - d000)) (round32 (d111 - d101)) (round32 (d101 - d100))
      rx ry rz
  | 3 => tetraSum32 d000 (round32 (d101 - d001)) (round32 (d111 - d101)) (round32 (d001 - d000))
      rx ry rz
  | 4 => tetraSum32 d000 (round32 (d110 - d010)) (round32 (d010 - d000)) (round32 (d111 - d110))
      rx ry rz
  | 5 => tetraSum32 d000 (round32 (d111 - d011)) (round32 (d010 - d000)) (round32 (d011 - d010))
      rx ry rz
  | 6 => tetraSum32 d000 (round32 (d111 - d011)) (round32 (d011 - d001)) (round32 (d001 - d000))
      rx ry rz
  | _ => tetraSum32 d000 0 0 0 rx ry rz

/-! ## Sample tables of float32 values -/

/-- Composite curves of float32 samples that are the identity at every node
but node 0, where they hold `-10995116 * 2^-40`, the float32 nearest to
`-0.00001` (bits `0xB727C5AC`). -/
def dippedCurves : CurvesFloatData ℚ where
  CurveR := fun j => if j = 0 then -(10995116 / 1099511627776) else (j : ℚ) / 32768
  CurveG := fun j => if j = 0 then -(10995116 / 1099511627776) else (j : ℚ) / 32768
  CurveB := fun j => if j = 0 then -(10995116 / 1099511627776) else (j : ℚ) / 32768

/-- Composite curves of float32 samples that are the identity at every node
but 4095 and 4096, where they lie `1342 * 2^-27` above it: `CurveR[4095]` has
the bits `0x3DFFF53E`, `CurveR[4096]` the bits `0x3E00029F`. -/
def bumpedCurves : CurvesFloatData ℚ where
  CurveR := fun j =>
    if j = 4095 then 1 / 8 - 2754 / 134217728
    else if j = 4096 then 1 / 8 + 1342 / 134217728 else (j : ℚ) / 32768
  CurveG := fun j =>
    if j = 4095 then 1 / 8 - 2754 / 134217728
    else if j = 4096 then 1 / 8 + 1342 / 134217728 else (j : ℚ) / 32768
  CurveB := fun j =>
    if j = 4095 then 1 / 8 - 2754 / 134217728
    else if j = 4096 then 1 / 8 + 1342 / 134217728 else (j : ℚ) / 32768

/-- A one-channel two-point grid of float32 samples: `3/4 + 2^-24` (bits
`0x3F400001`) at every node but the node `(1, 0, 0)`, at offset 4, which holds
`3/4 - 2^-23` (bits `0x3F3FFFFE`). -/
def overshootGrid : cmsInterpParams ℚ where
  nOutputs := 1
  Domain := fun _ => 1
  opta := fun a => if a = 0 then 1 else if a = 1 then 2 else 4
  Table := fun n => if n = 4 then 3 / 4 - 1 / 8388608 else 3 / 4 + 1 / 16777216

/-- Arguments of an optimizer call on `clutPipeline` with the float CMYK format
on both sides and the flags `0x02002000`: `CAN_CHANGE_FORMATTER` and one more
bit. -/
def lockableCmykArgs : OptimizerArgs ℚ where
  TransformFn := TransformFn.caller 0
  UserData := UserData.caller 0
  FreeUserData := FreeUserDataFn.caller 0
  Lut := some clutPipeline
  InputFormat := cmykFloatFormat
  OutputFormat := cmykFloatFormat
  dwFlags := 0x02002000

/-! ## The tetrahedral selection with NaN -/

namespace WithNaN

/-- The comparison `a >= b` of C on floats. -/
def ge : Float32OrNaN α → Float32OrNaN α → Bool
  | .num x, .num y => decide (x ≥ y)
  | _, _ => false

/-- The product of two floats: NaN as soon as one operand is NaN. -/
def mul : Float32OrNaN α → Float32OrNaN α → Float32OrNaN α
  | .num x, .num y => .num (x * y)
  | _, _ => .NaN

/-- The difference of two floats: NaN as soon as one operand is NaN. -/
def sub : Float32OrNaN α → Float32OrNaN α → Float32OrNaN α
  | .num x, .num y => .num (x - y)
  | _, _ => .NaN

/-- The quotient of a float by a number other than zero: NaN for NaN. -/
def div : Float32OrNaN α → α → Float32OrNaN α
  | .num x, d => .num (x / d)
  | .NaN, _ => .NaN

/-- The conversion `(cmsFloat32Number)(int)_cmsQuickFloor(v)`.  C does not
define what the conversion to `int` makes of NaN; `nanFloor` stands for the
`int` that comes out, whose conversion back to a float is a number. -/
def floorToFloat [FloorRing α] (nanFloor : Int) : Float32OrNaN α → Float32OrNaN α
  | .num x => .num ((_cmsQuickFloor x : Int) : α)
  | .NaN => .num (nanFloor : α)

/-- The arm of the if-chain of the tetrahedral selection that is executed on
fractions that may be NaN: 1 to 6 in source order, 0 for the final `else`. -/
def tetraArmTaken (rx ry rz : Float32OrNaN α) : Nat :=
  if ge rx ry && ge ry rz then 1
  else if ge rx rz && ge rz ry then 2
  else if ge rz rx && ge rx ry then 3
  else if ge ry rx && ge rx rz then 4
  else if ge ry rz && ge rz rx then 5
  else if ge rz ry && ge ry rx then 6
  else 0

/-- The fractions `rx`, `ry`, `rz` of `FloatCLUTEval` (lines 116 to 131) on a
pixel whose samples may be NaN. -/
def FloatCLUTEval_fractions [FloorRing α] (nanFloor : Int) (p : cmsInterpParams α)
    (rin gin bin : Float32OrNaN α) : Float32OrNaN α × Float32OrNaN α × Float32OrNaN α :=
  let r := fclamp rin
  let g := fclamp gin
  let b := fclamp bin
  let px := mul r (.num (p.Domain 0 : α))
  let py := mul g (.num (p.Domain 1 : α))
  let pz := mul b (.num (p.Domain 2 : α))
  (sub px (floorToFloat nanFloor px), sub py (floorToFloat nanFloor py),
    sub pz (floorToFloat nanFloor pz))

/-- The arm `FloatCLUTEval` executes for every output channel of a pixel. -/
def FloatCLUTEval_armTaken [FloorRing α] (nanFloor : Int) (p : cmsInterpParams α)
    (rin gin bin : Float32OrNaN α) : Nat :=
  tetraArmTaken (FloatCLUTEval_fractions nanFloor p rin gin bin).1
    (FloatCLUTEval_fractions nanFloor p rin gin bin).2.1
    (FloatCLUTEval_fractions nanFloor p rin gin bin).2.2

/-- The fractions `rx`, `ry`, `rz` of `FloatCMYKCLUTEval` (lines 130 to 149) on
a pixel whose samples may be NaN: they come from M, Y and K. -/
def FloatCMYKCLUTEval_fractions [FloorRing α] (nanFloor : Int) (p : cmsInterpParams α)
    (min yin kin : Float32OrNaN α) : Float32OrNaN α × Float32OrNaN α × Float32OrNaN α :=
  let m := div (fclamp100 min) 100
  let y := div (fclamp100 yin) 100
  let k := div (fclamp100 kin) 100
  let px := mul m (.num (p.Domain 1 : α))
  let py := mul y (.num (p.Domain 2 : α))
  let pz := mul k (.num (p.Domain 3 : α))
  (sub px (floorToFloat nanFloor px), sub py (floorToFloat nanFloor py),
    sub pz (floorToFloat nanFloor pz))

/-- The arms the two passes of `FloatCMYKCLUTEval` execute for every output
channel of a pixel; both passes test the same `rx`, `ry`, `rz`. -/
def FloatCMYKCLUTEval_armsTaken [FloorRing α] (nanFloor : Int) (p : cmsInterpParams α)
    (min yin kin : Float32OrNaN α) : Nat × Nat :=
  (tetraArmTaken (FloatCMYKCLUTEval_fractions nanFloor p min yin kin).1
      (FloatCMYKCLUTEval_fractions nanFloor p min yin kin).2.1
      (FloatCMYKCLUTEval_fractions nanFloor p min yin kin).2.2,
   tetraArmTaken (FloatCMYKCLUTEval_fractions nanFloor p min yin kin).1
      (FloatCMYKCLUTEval_fractions nanFloor p min yin kin).2.1
      (FloatCMYKCLUTEval_fractions nanFloor p min yin kin).2.2)

end WithNaN

end FastFloat

/-! ## testbed/lcms3.hpp: the packed pixel format -/

namespace Lcms3

namespace PixelFormat

/-- The enumerator `ColorModel::RGB`, by its underlying value.  The enumerators
of `ColorModel` are `0 .. 15`, those of `ChannelLayout` are `0 .. 5`; both are
represented by their underlying values. -/
def ColorModel_RGB : Nat := 3

/-- The enumerator `ChannelLayout::Float32`. -/
def ChannelLayout_Float32 : Nat := 4

/-- The packer `ColorModelShift`: `(static_cast<uint32_t>(m) & 0xf) << 27`. -/
def ColorModelShift (m : Nat) : Nat := ((m &&& 0xf) <<< 27) % 2 ^ 32

/-- The decoder `ColorModelOf`: `(t >> 27) & 0xf`, on a non-negative `t`. -/
def ColorModelOf (t : Nat) : Nat := (t >>> 27) &&& 0xf

/-- The packer `ChannelLayoutShift`: `(static_cast<uint32_t>(m) & 0x7) << 20`. -/
def ChannelLayoutShift (m : Nat) : Nat := ((m &&& 0x7) <<< 20) % 2 ^ 32

/-- The decoder `ChannelLayoutOf`: `(t >> 20) & 0x7`. -/
def ChannelLayoutOf (t : Nat) : Nat := (t >>> 20) &&& 0x7

/-- The packer `PlanarShift`: `p ? (1 << 24) : 0`. -/
def PlanarShift (p : Bool) : Nat := if p then 1 <<< 24 else 0

/-- The decoder `PlanarOf`: `(t & (1 << 24)) ? true : false`. -/
def PlanarOf (t : Nat) : Bool := if t &&& (1 <<< 24) ≠ 0 then true else false

/-- The packer `ChannelsEndianessShift`: `p ? (1 << 23) : 0`. -/
def ChannelsEndianessShift (p : Bool) : Nat := if p then 1 <<< 23 else 0

/-- The decoder `ChannelsEndianessOf`: `(t & (1 << 23)) ? true : false`. -/
def ChannelsEndianessOf (t : Nat) : Bool := if t &&& (1 <<< 23) ≠ 0 then true else false

/-- The packer `BytesEndianessShift`: `p ? (1 << 22) : 0`. -/
def BytesEndianessShift (p : Bool) : Nat := if p then 1 <<< 22 else 0

/-- The decoder `BytesEndianessOf`: `(t & (1 << 22)) ? true : false`. -/
def BytesEndianessOf (t : Nat) : Bool := if t &&& (1 <<< 22) ≠ 0 then true else false

/-- The packer `ExtraChannelsOnEndShift`: `p ? (1 << 21) : 0`. -/
def ExtraChannelsOnEndShift (p : Bool) : Nat := if p then 1 <<< 21 else 0

/-- The decoder `ExtraChannelsOnEndOf`: `(t & (1 << 21)) ? true : false`. -/
def ExtraChannelsOnEndOf (t : Nat) : Bool := if t &&& (1 <<< 21) ≠ 0 then true else false

/-- The bitwise OR of the six packed fields. -/
def pack (m l : Nat) (p e b x : Bool) : Nat :=
  ColorModelShift m ||| ChannelLayoutShift l ||| PlanarShift p ||| ChannelsEndianessShift e
    ||| BytesEndianessShift b ||| ExtraChannelsOnEndShift x

/-- The six decoders applied to one packed word. -/
def unpack (t : Nat) : Nat × Nat × Bool × Bool × Bool × Bool :=
  (ColorModelOf t, ChannelLayoutOf t, PlanarOf t, ChannelsEndianessOf t, BytesEndianessOf t,
   ExtraChannelsOnEndOf t)

end PixelFormat

end Lcms3

/-! ## testbed/testplugin.c: the 5-6-5 formatters -/

namespace TestPlugin

/-- The unpacker `my_Unroll565` on the 16-bit word `pixel` read from `accum`:
the triple `(wIn[0], wIn[1], wIn[2])`.  The doubles are exact rationals here;
`floor(... + 0.5)` is the floor function and the cast to `cmsUInt16Number`
reduces modulo `2^16`. -/
def my_Unroll565 (pixel : Nat) : Nat × Nat × Nat :=
  let r : Int := Int.floor ((((pixel &&& 31 : Nat) : ℚ) * 65535) / 31 + 1 / 2)
  let g : Int := Int.floor (((((pixel >>> 5) &&& 63 : Nat) : ℚ) * 65535) / 63 + 1 / 2)
  let b : Int := Int.floor (((((pixel >>> 11) &&& 31 : Nat) : ℚ) * 65535) / 31 + 1 / 2)
  (b.toNat % 65536, g.toNat % 65536, r.toNat % 65536)

/-- The packer `my_Pack565` on `(wOut[0], wOut[1], wOut[2])`: the 16-bit word
stored to `output`.  The three `int` values are floors of non-negative numbers,
so they are taken as naturals before the masks. -/
def my_Pack565 (wOut : Nat × Nat × Nat) : Nat :=
  let r : Int := Int.floor (((wOut.2.2 * 31 : Nat) : ℚ) / 65535 + 1 / 2)
  let g : Int := Int.floor (((wOut.2.1 * 63 : Nat) : ℚ) / 65535 + 1 / 2)
  let b : Int := Int.floor (((wOut.1 * 31 : Nat) : ℚ) / 65535 + 1 / 2)
  ((r.toNat &&& 31) ||| ((g.toNat &&& 63) <<< 5) ||| ((b.toNat &&& 31) <<< 11)) % 65536

/-- The array `stream[]` of `CheckFormattersPlugin`. -/
def stream : List Nat := [0xffff, 0x1234, 0x0000, 0x33dd]

end TestPlugin

/-! ## src/cmscam16.c -/

namespace Cam16

/-- The sign function `sgn`. -/
def sgn {α : Type} [LinearOrderedField α] (s : α) : α :=
  if s < 0 then -1 else if s > 0 then 1 else 0

/-- The type `cmsCIEXYZ`. -/
structure cmsCIEXYZ (α : Type) where
  X : α
  Y : α
  Z : α

/-- The cone response transform `M16`: the array `RGB[0..2]` it fills. -/
def M16 {α : Type} [LinearOrderedField α] (xyz : cmsCIEXYZ α) : α × α × α :=
  (401288 / 1000000 * xyz.X + 650173 / 1000000 * xyz.Y - 51461 / 1000000 * xyz.Z,
   -(250268 / 1000000) * xyz.X + 1204414 / 1000000 * xyz.Y + 45854 / 1000000 * xyz.Z,
   -(2079 / 1000000) * xyz.X + 48952 / 1000000 * xyz.Y + 953127 / 1000000 * xyz.Z)

/-- The inverse transform `M16_inv`, with the decimal constants of the source
(`1.862067855087233e+0` is `1862067855087233 / 10^15`, and so on). -/
def M16_inv {α : Type} [LinearOrderedField α] (RGB : α × α × α) : cmsCIEXYZ α where
  X := 1862067855087233 / 1000000000000000 * RGB.1
        - 1011254630531685 / 1000000000000000 * RGB.2.1
        + 1491867754444518 / 10000000000000000 * RGB.2.2
  Y := 3875265432361372 / 10000000000000000 * RGB.1
        + 6214474419314753 / 10000000000000000 * RGB.2.1
        - 8973985167612518 / 1000000000000000000 * RGB.2.2
  Z := -(1584149884933386 / 100000000000000000) * RGB.1
        - 3412293802851557 / 100000000000000000 * RGB.2.1
        + 1049964436877850 / 1000000000000000 * RGB.2.2

/-- The compression `adapt`; `pow` is the power function of the C library,
`0.01`, `0.42` and `27.13` are the decimal constants of the source. -/
def adapt {α : Type} [LinearOrderedField α] (pow : α → α → α) (F_L component : α) : α :=
  let x := pow (F_L * |component| * (1 / 100)) (42 / 100)
  sgn component * 400 * x / (x + 2713 / 100)

/-- The expansion `unadapt`. -/
def unadapt {α : Type} [LinearOrderedField α] (pow : α → α → α) (F_L component : α) : α :=
  let exponent : α := 1 / (42 / 100)
  let constant : α := 100 / F_L * pow (2713 / 100) exponent
  let cabs := |component|
  sgn component * constant * pow (cabs / (400 - cabs)) exponent

end Cam16

namespace FastFloat

variable {α : Type} [LinearOrderedField α]

/-! # Theorems -/

/-! ## Clamping -/

theorem fclamp_nonneg (v : α) : 0 ≤ fclamp v := by
  unfold fclamp
  split_ifs with h1 h2
  · exact le_refl 0
  · exact zero_le_one
  · have h3 : (0 : α) < 9007199 / 9007199254740992 := by norm_num
    exact le_of_lt (lt_of_lt_of_le h3 (not_lt.mp h1))

theorem fclamp_le_one (v : α) : fclamp v ≤ 1 := by
  unfold fclamp
  split_ifs with h1 h2
  · exact zero_le_one
  · exact le_refl 1
  · exact not_lt.mp h2

theorem fclamp_of_one_le (v : α) (h : 1 ≤ v) : fclamp v = 1 := by
  unfold fclamp
  have h3 : (9007199 / 9007199254740992 : α) < 1 := by norm_num
  rw [if_neg (not_lt.mpr (le_trans (le_of_lt h3) h))]
  split_ifs with h2
  · rfl
  · exact le_antisymm (not_lt.mp h2) h

theorem fclamp_of_small (v : α) (h : v < 9007199 / 9007199254740992) : fclamp v = 0 := by
  unfold fclamp
  rw [if_pos h]

theorem fclamp_of_mem (v : α) (h1 : 9007199 / 9007199254740992 ≤ v) (h2 : v ≤ 1) : fclamp v = v := by
  unfold fclamp
  rw [if_neg (not_lt.mpr h1), if_neg (not_lt.mpr h2)]

theorem fclamp_zero : fclamp (0 : α) = 0 :=
  fclamp_of_small 0 (by norm_num)

/-- The clamp of the abscissa of grid node `i` on an axis with at most
`10^9` intervals, scaled back by `Domain`, is the node index itself. -/
theorem fclamp_node (D i : Nat) (hD1 : 1 ≤ D) (hD2 : D ≤ 1000000000) (hi : i ≤ D) :
    fclamp ((i : α) / (D : α)) * (D : α) = (i : α) := by
  have hDpos : (0 : α) < (D : α) := by exact_mod_cast hD1
  rcases Nat.eq_zero_or_pos i with h0 | hpos
  · subst h0
    simp [fclamp_zero]
  · have hle : (i : α) / (D : α) ≤ 1 := by
      rw [div_le_one hDpos]
      exact_mod_cast hi
    have hge' : (1 : α) / 1000000000 ≤ (i : α) / (D : α) := by
      rw [div_le_div_iff (by norm_num) hDpos]
      have h1 : (D : α) ≤ 1000000000 := by exact_mod_cast hD2
      have h2 : (1 : α) ≤ (i : α) := by exact_mod_cast hpos
      nlinarith
    have hge : (9007199 / 9007199254740992 : α) ≤ (i : α) / (D : α) :=
      le_trans (by norm_num) hge'
    rw [fclamp_of_mem _ hge hle]
    field_simp

/-! ## The tetrahedral selection -/

theorem tetra_fst_zero (T : Int → α) (base X0 Y0 Z0 X1 Y1 Z1 : Int) (c : Nat) :
    (tetra T base X0 Y0 Z0 X1 Y1 Z1 0 0 0 c).1 = T (base + (X0 + Y0 + Z0 + (c : Int))) := by
  simp [tetra]

theorem tetra_reads_mem (T : Int → α) (base X0 Y0 Z0 X1 Y1 Z1 : Int) (rx ry rz : α) (c : Nat)
    (idx : Int) (h : idx ∈ (tetra T base X0 Y0 Z0 X1 Y1 Z1 rx ry rz c).2) :
    ∃ X Y Z : Int, (X = X0 ∨ X = X1) ∧ (Y = Y0 ∨ Y = Y1) ∧ (Z = Z0 ∨ Z = Z1) ∧
      idx = base + (X + Y + Z + (c : Int)) := by
  unfold tetra at h
  simp only [List.mem_cons] at h
  rcases h with h | h
  · exact ⟨X0, Y0, Z0, Or.inl rfl, Or.inl rfl, Or.inl rfl, h⟩
  · split_ifs at h <;>
      simp only [List.mem_cons, List.mem_singleton, List.not_mem_nil, or_false] at h
    all_goals
      rcases h with h | h | h
      all_goals first
        | exact ⟨X0, Y0, Z0, Or.inl rfl, Or.inl rfl, Or.inl rfl, h⟩
        | exact ⟨X1, Y0, Z0, Or.inr rfl, Or.inl rfl, Or.inl rfl, h⟩
        | exact ⟨X0, Y1, Z0, Or.inl rfl, Or.inr rfl, Or.inl rfl, h⟩
        | exact ⟨X1, Y1, Z0, Or.inr rfl, Or.inr rfl, Or.inl rfl, h⟩
        | exact ⟨X0, Y0, Z1, Or.inl rfl, Or.inl rfl, Or.inr rfl, h⟩
        | exact ⟨X1, Y0, Z1, Or.inr rfl, Or.inl rfl, Or.inr rfl, h⟩
        | exact ⟨X0, Y1, Z1, Or.inl rfl, Or.inr rfl, Or.inr rfl, h⟩
        | exact ⟨X1, Y1, Z1, Or.inr rfl, Or.inr rfl, Or.inr rfl, h⟩

/-! ## Output buffers -/

theorem written_FloatCLUTEval [FloorRing α] (p : cmsInterpParams α)
    (Input : List (α × α × α)) (n c : Nat) (px : α × α × α)
    (hn : Input[n]? = some px) (hc : c < p.nOutputs) :
    written (FloatCLUTEval p Input) n c
      = some (FloatCLUTEval_chan p px.1 px.2.1 px.2.2 c).1 := by
  simp [written, FloatCLUTEval, List.getElem?_map, hn, List.getElem?_range hc]

/-! ## Grid nodes, 3 inputs -/

/-- When the three clamped and scaled inputs are the integers `i`, `j`, `k`,
the fractions vanish and the value written is the sample at that node. -/
theorem FloatCLUTEval_chan_at_node [FloorRing α] (p : cmsInterpParams α) (rin gin bin : α)
    (i j k c : Nat)
    (hx : fclamp rin * (p.Domain 0 : α) = (i : α))
    (hy : fclamp gin * (p.Domain 1 : α) = (j : α))
    (hz : fclamp bin * (p.Domain 2 : α) = (k : α)) :
    (FloatCLUTEval_chan p rin gin bin c).1
      = p.Table ((p.opta 2 * i + p.opta 1 * j + p.opta 0 * k + c : Nat) : Int) := by
  unfold FloatCLUTEval_chan
  simp only [_cmsQuickFloor, hx, hy, hz, Int.floor_natCast, Int.cast_natCast, sub_self]
  rw [tetra_fst_zero]
  congr 1
  push_cast
  ring

/-- A grid with at least two points per axis and at most `2^31 - 1` samples
has fewer than `10^9` intervals on every axis. -/
theorem domain_le_of_int_indexed {β : Type} (p : cmsInterpParams β)
    (hD0 : 1 ≤ p.Domain 0) (hD1 : 1 ≤ p.Domain 1) (hD2 : 1 ≤ p.Domain 2)
    (hn : 0 < p.nOutputs) (hint : tableLength3 p ≤ 2147483647) :
    p.Domain 0 ≤ 1000000000 ∧ p.Domain 1 ≤ 1000000000 ∧ p.Domain 2 ≤ 1000000000 := by
  unfold tableLength3 at hint
  generalize p.Domain 0 = a at *
  generalize p.Domain 1 = b at *
  generalize p.Domain 2 = c at *
  generalize p.nOutputs = m at *
  have h1 : (a + 1) * (b + 1) * (c + 1) ≤ m * (a + 1) * (b + 1) * (c + 1) := by
    calc (a + 1) * (b + 1) * (c + 1) = 1 * ((a + 1) * (b + 1) * (c + 1)) := (Nat.one_mul _).symm
      _ ≤ m * ((a + 1) * (b + 1) * (c + 1)) := Nat.mul_le_mul_right _ hn
      _ = m * (a + 1) * (b + 1) * (c + 1) := by ring
  have h2 : (a + 1) * (b + 1) * (c + 1) ≤ 2147483647 := le_trans h1 hint
  have ha : 2 ≤ a + 1 := by omega
  have hb : 2 ≤ b + 1 := by omega
  have hc : 2 ≤ c + 1 := by omega
  refine ⟨?_, ?_, ?_⟩
  · have : (a + 1) * 2 * 2 ≤ (a + 1) * (b + 1) * (c + 1) :=
      Nat.mul_le_mul (Nat.mul_le_mul (le_refl _) hb) hc
    omega
  · have : 2 * (b + 1) * 2 ≤ (a + 1) * (b + 1) * (c + 1) :=
      Nat.mul_le_mul (Nat.mul_le_mul ha (le_refl _)) hc
    omega
  · have : 2 * 2 * (c + 1) ≤ (a + 1) * (b + 1) * (c + 1) :=
      Nat.mul_le_mul (Nat.mul_le_mul ha hb) (le_refl _)
    omega

/-- C1: node exactness of `FloatCLUTEval` for a 3-input grid with at least two
points per axis whose samples can be indexed by an `int` (the grid has at most
`2^31 - 1` samples; the strides may be the standard ones or any others).  For
every grid node `(i, j, k)` and every output channel `c`, a pixel of the buffer
equal to `(i/Domain[0], j/Domain[1], k/Domain[2])` is written as the stored
sample `Table[opta[2]*i + opta[1]*j + opta[0]*k + c]`, in exact arithmetic. -/
theorem FloatCLUTEval_node_exact [FloorRing α] (p : cmsInterpParams α)
    (Input : List (α × α × α)) (n i j k c : Nat)
    (hD0 : 1 ≤ p.Domain 0) (hD1 : 1 ≤ p.Domain 1) (hD2 : 1 ≤ p.Domain 2)
    (hint : tableLength3 p ≤ 2147483647)
    (hi : i ≤ p.Domain 0) (hj : j ≤ p.Domain 1) (hk : k ≤ p.Domain 2)
    (hc : c < p.nOutputs)
    (hn : Input[n]? = some ((i : α) / (p.Domain 0 : α), (j : α) / (p.Domain 1 : α),
      (k : α) / (p.Domain 2 : α))) :
    written (FloatCLUTEval p Input) n c
      = some (p.Table ((p.opta 2 * i + p.opta 1 * j + p.opta 0 * k + c : Nat) : Int)) := by
  obtain ⟨b0, b1, b2⟩ := domain_le_of_int_indexed p hD0 hD1 hD2 (Nat.lt_of_le_of_lt (Nat.zero_le c) hc)
    hint
  rw [written_FloatCLUTEval p Input n c _ hn hc]
  exact congrArg some (FloatCLUTEval_chan_at_node p _ _ _ i j k c
    (fclamp_node _ i hD0 b0 hi) (fclamp_node _ j hD1 b1 hj)
    (fclamp_node _ k hD2 b2 hk))

/-- Witness for C1: the node `(1, 0, 1)` of the two-point identity grid, output
channel 2. -/
theorem FloatCLUTEval_node_exact_witness :
    written (FloatCLUTEval identityGrid2
      [(((1 : Nat) : ℚ) / (identityGrid2.Domain 0 : ℚ),
        ((0 : Nat) : ℚ) / (identityGrid2.Domain 1 : ℚ),
        ((1 : Nat) : ℚ) / (identityGrid2.Domain 2 : ℚ))]) 0 2
      = some (identityGrid2.Table
          ((identityGrid2.opta 2 * 1 + identityGrid2.opta 1 * 0 + identityGrid2.opta 0 * 1 + 2
            : Nat) : Int)) :=
  FloatCLUTEval_node_exact identityGrid2 _ 0 1 0 1 2
    (by decide) (by decide) (by decide) (by simp [tableLength3, identityGrid2])
    (by decide) (by decide) (by decide) (by decide) rfl

theorem grid_offset_bound (n D0 D1 D2 a b c ch : Int)
    (ha : 0 ≤ a) (ha2 : a ≤ D0) (hb : 0 ≤ b) (hb2 : b ≤ D1) (hc : 0 ≤ c) (hc2 : c ≤ D2)
    (hch : 0 ≤ ch) (hch2 : ch < n) :
    0 ≤ n * (D2 + 1) * (D1 + 1) * a + n * (D2 + 1) * b + n * c + ch ∧
    n * (D2 + 1) * (D1 + 1) * a + n * (D2 + 1) * b + n * c + ch
      < n * (D0 + 1) * (D1 + 1) * (D2 + 1) := by
  have hn : 0 ≤ n := le_trans hch (le_of_lt hch2)
  have hD1 : 0 ≤ D1 := le_trans hb hb2
  have hD2 : 0 ≤ D2 := le_trans hc hc2
  have h1 : (D1 + 1) * a + b ≤ (D1 + 1) * D0 + D1 :=
    add_le_add (mul_le_mul_of_nonneg_left ha2 (by linarith)) hb2
  have h2 : (D2 + 1) * ((D1 + 1) * a + b) + c ≤ (D2 + 1) * ((D1 + 1) * D0 + D1) + D2 :=
    add_le_add (mul_le_mul_of_nonneg_left h1 (by linarith)) hc2
  have h3 := mul_le_mul_of_nonneg_left h2 hn
  constructor
  · have e1 : 0 ≤ n * (D2 + 1) * (D1 + 1) * a :=
      mul_nonneg (mul_nonneg (mul_nonneg hn (by linarith)) (by linarith)) ha
    have e2 : 0 ≤ n * (D2 + 1) * b := mul_nonneg (mul_nonneg hn (by linarith)) hb
    have e3 : 0 ≤ n * c := mul_nonneg hn hc
    linarith
  · have e : n * (D2 + 1) * (D1 + 1) * a + n * (D2 + 1) * b + n * c
        = n * ((D2 + 1) * ((D1 + 1) * a + b) + c) := by ring
    have e4 : n * ((D2 + 1) * ((D1 + 1) * D0 + D1) + D2)
        = n * (D0 + 1) * (D1 + 1) * (D2 + 1) - n := by ring
    rw [e]
    linarith

/-- The cell index on one axis stays inside the grid, and so does the
neighbour the evaluator steps to. -/
theorem axis_cell [FloorRing α] (v : α) (D s : Nat) (X : Int) (hp : 1 ≤ D)
    (h : X = (s : Int) * _cmsQuickFloor (fclamp v * (D : α)) ∨
         X = (s : Int) * _cmsQuickFloor (fclamp v * (D : α))
               + (if fclamp v ≥ 1 then 0 else (s : Int))) :
    ∃ a : Int, 0 ≤ a ∧ a ≤ (D : Int) ∧ X = (s : Int) * a := by
  have h0 := fclamp_nonneg v
  have h1 := fclamp_le_one v
  have hD : (0 : α) ≤ (D : α) := Nat.cast_nonneg D
  have hfl0 : 0 ≤ _cmsQuickFloor (fclamp v * (D : α)) :=
    Int.floor_nonneg.mpr (mul_nonneg h0 hD)
  have hflD : _cmsQuickFloor (fclamp v * (D : α)) ≤ (D : Int) := by
    have : fclamp v * (D : α) ≤ ((D : Int) : α) := by
      rw [Int.cast_natCast]
      calc fclamp v * (D : α) ≤ 1 * (D : α) := mul_le_mul_of_nonneg_right h1 hD
        _ = (D : α) := one_mul _
    exact Int.floor_le_floor this |>.trans (le_of_eq (Int.floor_intCast _))
  rcases h with h | h
  · exact ⟨_, hfl0, hflD, h⟩
  · by_cases hv : fclamp v ≥ 1
    · rw [if_pos hv, add_zero] at h
      exact ⟨_, hfl0, hflD, h⟩
    · rw [if_neg hv] at h
      refine ⟨_cmsQuickFloor (fclamp v * (D : α)) + 1, by linarith, ?_, by rw [h]; ring⟩
      have hlt : fclamp v < 1 := not_le.mp hv
      have hlt2 : fclamp v * (D : α) < ((D : Int) : α) := by
        rw [Int.cast_natCast]
        calc fclamp v * (D : α) < 1 * (D : α) :=
              mul_lt_mul_of_pos_right hlt (by exact_mod_cast hp)
          _ = (D : α) := one_mul _
      have hfl := Int.floor_lt.mpr hlt2
      unfold _cmsQuickFloor
      omega

/-- Every offset one channel iteration of `FloatCLUTEval` loads lies inside a
table of the standard size. -/
theorem FloatCLUTEval_chan_reads_bound [FloorRing α] (p : cmsInterpParams α)
    (hs : StdStrides3 p) (hD0 : 1 ≤ p.Domain 0) (hD1 : 1 ≤ p.Domain 1) (hD2 : 1 ≤ p.Domain 2)
    (rin gin bin : α) (c : Nat) (hc : c < p.nOutputs) (idx : Int)
    (h : idx ∈ (FloatCLUTEval_chan p rin gin bin c).2) :
    0 ≤ idx ∧ idx < (tableLength3 p : Int) := by
  unfold FloatCLUTEval_chan at h
  obtain ⟨X, Y, Z, hX, hY, hZ, hidx⟩ := tetra_reads_mem _ _ _ _ _ _ _ _ _ _ _ _ _ h
  obtain ⟨a, ha0, ha1, hXa⟩ := axis_cell rin (p.Domain 0) (p.opta 2) X hD0 hX
  obtain ⟨b, hb0, hb1, hYb⟩ := axis_cell gin (p.Domain 1) (p.opta 1) Y hD1 hY
  obtain ⟨d, hd0, hd1, hZd⟩ := axis_cell bin (p.Domain 2) (p.opta 0) Z hD2 hZ
  obtain ⟨s0, s1, s2⟩ := hs
  have hb := grid_offset_bound (p.nOutputs : Int) (p.Domain 0) (p.Domain 1) (p.Domain 2)
    a b d (c : Int) ha0 ha1 hb0 hb1 hd0 hd1 (Int.natCast_nonneg c) (by exact_mod_cast hc)
  have e : idx = (p.nOutputs : Int) * ((p.Domain 2 : Int) + 1) * ((p.Domain 1 : Int) + 1) * a
      + (p.nOutputs : Int) * ((p.Domain 2 : Int) + 1) * b + (p.nOutputs : Int) * d + (c : Int) := by
    rw [hidx, hXa, hYb, hZd, s0, s1, s2]
    push_cast
    ring
  have e2 : (tableLength3 p : Int) = (p.nOutputs : Int) * ((p.Domain 0 : Int) + 1)
      * ((p.Domain 1 : Int) + 1) * ((p.Domain 2 : Int) + 1) := by
    unfold tableLength3
    push_cast
    ring
  rw [e, e2]
  exact hb

theorem fclamp_mul_of_one_le (v : α) (D : Nat) (h : 1 ≤ v) :
    fclamp v * (D : α) = (D : α) := by
  rw [fclamp_of_one_le v h, one_mul]

/-- C3: boundary saturation of `FloatCLUTEval`.  For a 3-input grid with the
standard strides and `Domain[a] >= 1`, whatever the input pixels are (negative,
above 1, anything), every table offset loaded during the call lies in
`[0, nOutputs*gridSize_0*gridSize_1*gridSize_2)`; and a pixel whose three
components are all at least 1 is written as the sample of the last grid node
`(Domain[0], Domain[1], Domain[2])`. -/
theorem FloatCLUTEval_boundary_saturation [FloorRing α] (p : cmsInterpParams α)
    (hs : StdStrides3 p) (hD0 : 1 ≤ p.Domain 0) (hD1 : 1 ≤ p.Domain 1) (hD2 : 1 ≤ p.Domain 2)
    (Input : List (α × α × α)) :
    (∀ idx ∈ FloatCLUTEval_reads p Input, 0 ≤ idx ∧ idx < (tableLength3 p : Int)) ∧
    (∀ (n c : Nat) (px : α × α × α), Input[n]? = some px → c < p.nOutputs →
      1 ≤ px.1 → 1 ≤ px.2.1 → 1 ≤ px.2.2 →
      written (FloatCLUTEval p Input) n c
        = some (p.Table ((p.opta 2 * p.Domain 0 + p.opta 1 * p.Domain 1
            + p.opta 0 * p.Domain 2 + c : Nat) : Int))) := by
  constructor
  · intro idx hidx
    unfold FloatCLUTEval_reads at hidx
    rw [List.mem_flatMap] at hidx
    obtain ⟨px, _, hpx⟩ := hidx
    rw [List.mem_flatMap] at hpx
    obtain ⟨c, hc, hmem⟩ := hpx
    exact FloatCLUTEval_chan_reads_bound p hs hD0 hD1 hD2 _ _ _ c (List.mem_range.mp hc) idx hmem
  · intro n c px hn hc h1 h2 h3
    rw [written_FloatCLUTEval p Input n c px hn hc]
    exact congrArg some (FloatCLUTEval_chan_at_node p _ _ _ _ _ _ c
      (fclamp_mul_of_one_le _ _ h1) (fclamp_mul_of_one_le _ _ h2) (fclamp_mul_of_one_le _ _ h3))


/-- Witness for C3: the identity grid and a buffer holding an out-of-range
pixel and a saturated one. -/
theorem FloatCLUTEval_boundary_saturation_witness :
    (∀ idx ∈ FloatCLUTEval_reads identityGrid2 [(-3, 1 / 2, 7), (1, 2, 5)],
      0 ≤ idx ∧ idx < (tableLength3 identityGrid2 : Int)) ∧
    (∀ (n c : Nat) (px : ℚ × ℚ × ℚ), [((-3 : ℚ), (1 / 2 : ℚ), (7 : ℚ)), (1, 2, 5)][n]? = some px →
      c < identityGrid2.nOutputs → 1 ≤ px.1 → 1 ≤ px.2.1 → 1 ≤ px.2.2 →
      written (FloatCLUTEval identityGrid2 [(-3, 1 / 2, 7), (1, 2, 5)]) n c
        = some (identityGrid2.Table ((identityGrid2.opta 2 * identityGrid2.Domain 0
            + identityGrid2.opta 1 * identityGrid2.Domain 1
            + identityGrid2.opta 0 * identityGrid2.Domain 2 + c : Nat) : Int))) :=
  FloatCLUTEval_boundary_saturation identityGrid2 (by simp [StdStrides3, identityGrid2])
    (by decide) (by decide) (by decide) [(-3, 1 / 2, 7), (1, 2, 5)]

theorem order_exhaustive (rx ry rz : α) :
    (rx ≥ ry ∧ ry ≥ rz) ∨ (rx ≥ rz ∧ rz ≥ ry) ∨ (rz ≥ rx ∧ rx ≥ ry) ∨
    (ry ≥ rx ∧ rx ≥ rz) ∨ (ry ≥ rz ∧ rz ≥ rx) ∨ (rz ≥ ry ∧ ry ≥ rx) := by
  rcases le_total rx ry with h1 | h1 <;> rcases le_total ry rz with h2 | h2 <;>
    rcases le_total rx rz with h3 | h3 <;> simp only [ge_iff_le] <;> tauto

/-- On a cell whose eight corner samples are `A` plus an increment per axis,
the tetrahedral formula returns `A + bx*rx + by*ry + bz*rz`. -/
theorem tetra_fst_affine (T : Int → α) (base X0 Y0 Z0 X1 Y1 Z1 : Int) (rx ry rz : α) (c : Nat)
    (A bx bY bz : α)
    (h000 : T (base + (X0 + Y0 + Z0 + (c : Int))) = A)
    (h100 : T (base + (X1 + Y0 + Z0 + (c : Int))) = A + bx)
    (h010 : T (base + (X0 + Y1 + Z0 + (c : Int))) = A + bY)
    (h001 : T (base + (X0 + Y0 + Z1 + (c : Int))) = A + bz)
    (h110 : T (base + (X1 + Y1 + Z0 + (c : Int))) = A + bx + bY)
    (h101 : T (base + (X1 + Y0 + Z1 + (c : Int))) = A + bx + bz)
    (h011 : T (base + (X0 + Y1 + Z1 + (c : Int))) = A + bY + bz)
    (h111 : T (base + (X1 + Y1 + Z1 + (c : Int))) = A + bx + bY + bz) :
    (tetra T base X0 Y0 Z0 X1 Y1 Z1 rx ry rz c).1 = A + bx * rx + bY * ry + bz * rz := by
  unfold tetra
  simp only [h000, h100, h010, h001, h110, h101, h011, h111]
  split_ifs with g1 g2 g3 g4 g5 g6
  · ring
  · ring
  · ring
  · ring
  · ring
  · ring
  · exfalso
    rcases order_exhaustive rx ry rz with h | h | h | h | h | h
    · exact g1 h
    · exact g2 h
    · exact g3 h
    · exact g4 h
    · exact g5 h
    · exact g6 h

/-- One axis of the cell computation on an in-range input: the cell and the
neighbour stepped to are grid indices, and the step times the fraction is the
fraction. -/
theorem axis_step [FloorRing α] (v : α) (D : Nat) (hD : 1 ≤ D)
    (hv : v = 0 ∨ 1 / 1000000000 ≤ v) (hv1 : v ≤ 1) :
    0 ≤ _cmsQuickFloor (fclamp v * (D : α)) ∧
    _cmsQuickFloor (fclamp v * (D : α)) + (if fclamp v ≥ 1 then 0 else 1) ≤ (D : Int) ∧
    ((if fclamp v ≥ 1 then 0 else 1 : Int) : α)
        * (fclamp v * (D : α) - (_cmsQuickFloor (fclamp v * (D : α)) : α))
      = fclamp v * (D : α) - (_cmsQuickFloor (fclamp v * (D : α)) : α) ∧
    fclamp v = v := by
  have hfc : fclamp v = v := by
    rcases hv with h | h
    · rw [h]; exact fclamp_zero
    · exact fclamp_of_mem v (le_trans (by norm_num) h) hv1
  obtain ⟨a, ha0, ha1, hXa⟩ := axis_cell v D 1 _ hD (Or.inr rfl)
  have h0 := (axis_cell v D 1 _ hD (Or.inl rfl))
  refine ⟨Int.floor_nonneg.mpr (mul_nonneg (fclamp_nonneg v) (Nat.cast_nonneg D)), ?_, ?_, hfc⟩
  · have : _cmsQuickFloor (fclamp v * (D : α)) + (if fclamp v ≥ 1 then 0 else 1) = a := by
      have e : (if fclamp v ≥ 1 then (0 : Int) else ((1 : Nat) : Int))
          = (if fclamp v ≥ 1 then 0 else 1) := by split_ifs <;> simp
      rw [e] at hXa
      simpa using hXa
    rw [this]; exact ha1
  · by_cases h1 : fclamp v ≥ 1
    · have : fclamp v = 1 := le_antisymm (fclamp_le_one v) h1
      rw [if_pos h1, this]
      simp [_cmsQuickFloor]
    · rw [if_neg h1]; simp


theorem step_eq_mul (P : Prop) [Decidable P] (s x : Int) :
    s * x + (if P then 0 else s) = s * (x + (if P then 0 else 1)) := by
  split_ifs <;> ring

theorem step_nonneg (P : Prop) [Decidable P] : (0 : Int) ≤ (if P then 0 else 1) := by
  split_ifs <;> decide

/-- Affine tables are reproduced by one channel iteration of `FloatCLUTEval`. -/
theorem FloatCLUTEval_chan_affine [FloorRing α] (p : cmsInterpParams α)
    (a b d e : Nat → α) (c : Nat)
    (hD0 : 1 ≤ p.Domain 0) (hD1 : 1 ≤ p.Domain 1) (hD2 : 1 ≤ p.Domain 2)
    (hT : ∀ i j k : Int, 0 ≤ i → i ≤ p.Domain 0 → 0 ≤ j → j ≤ p.Domain 1 →
      0 ≤ k → k ≤ p.Domain 2 →
      p.Table ((p.opta 2 : Int) * i + (p.opta 1 : Int) * j + (p.opta 0 : Int) * k + (c : Int))
        = a c + b c * (i : α) + d c * (j : α) + e c * (k : α))
    (rin gin bin : α)
    (hr : rin = 0 ∨ 1 / 1000000000 ≤ rin) (hr1 : rin ≤ 1)
    (hg : gin = 0 ∨ 1 / 1000000000 ≤ gin) (hg1 : gin ≤ 1)
    (hb : bin = 0 ∨ 1 / 1000000000 ≤ bin) (hb1 : bin ≤ 1) :
    (FloatCLUTEval_chan p rin gin bin c).1
      = a c + b c * (rin * (p.Domain 0 : α)) + d c * (gin * (p.Domain 1 : α))
          + e c * (bin * (p.Domain 2 : α)) := by
  obtain ⟨hx0, hx1, hxr, hxf⟩ := axis_step rin (p.Domain 0) hD0 hr hr1
  obtain ⟨hy0, hy1, hyr, hyf⟩ := axis_step gin (p.Domain 1) hD1 hg hg1
  obtain ⟨hz0, hz1, hzr, hzf⟩ := axis_step bin (p.Domain 2) hD2 hb hb1
  have hsx := step_nonneg (fclamp rin ≥ 1)
  have hsy := step_nonneg (fclamp gin ≥ 1)
  have hsz := step_nonneg (fclamp bin ≥ 1)
  unfold FloatCLUTEval_chan
  simp only [step_eq_mul]
  have corner : ∀ i j k : Int, 0 ≤ i → i ≤ p.Domain 0 → 0 ≤ j → j ≤ p.Domain 1 →
      0 ≤ k → k ≤ p.Domain 2 →
      p.Table (0 + ((p.opta 2 : Int) * i + (p.opta 1 : Int) * j + (p.opta 0 : Int) * k + (c : Int)))
        = a c + b c * (i : α) + d c * (j : α) + e c * (k : α) := by
    intro i j k h1 h2 h3 h4 h5 h6
    rw [zero_add]
    exact hT i j k h1 h2 h3 h4 h5 h6
  rw [tetra_fst_affine p.Table 0 _ _ _ _ _ _ _ _ _ c
    (a c + b c * ((_cmsQuickFloor (fclamp rin * (p.Domain 0 : α)) : Int) : α)
      + d c * ((_cmsQuickFloor (fclamp gin * (p.Domain 1 : α)) : Int) : α)
      + e c * ((_cmsQuickFloor (fclamp bin * (p.Domain 2 : α)) : Int) : α))
    (b c * ((if fclamp rin ≥ 1 then 0 else 1 : Int) : α))
    (d c * ((if fclamp gin ≥ 1 then 0 else 1 : Int) : α))
    (e c * ((if fclamp bin ≥ 1 then 0 else 1 : Int) : α))
    (corner _ _ _ hx0 (by linarith) hy0 (by linarith) hz0 (by linarith))
    (by rw [corner _ _ _ (by linarith) hx1 hy0 (by linarith) hz0 (by linarith)]; push_cast; ring)
    (by rw [corner _ _ _ hx0 (by linarith) (by linarith) hy1 hz0 (by linarith)]; push_cast; ring)
    (by rw [corner _ _ _ hx0 (by linarith) hy0 (by linarith) (by linarith) hz1]; push_cast; ring)
    (by rw [corner _ _ _ (by linarith) hx1 (by linarith) hy1 hz0 (by linarith)]; push_cast; ring)
    (by rw [corner _ _ _ (by linarith) hx1 hy0 (by linarith) (by linarith) hz1]; push_cast; ring)
    (by rw [corner _ _ _ hx0 (by linarith) (by linarith) hy1 (by linarith) hz1]; push_cast; ring)
    (by rw [corner _ _ _ (by linarith) hx1 (by linarith) hy1 (by linarith) hz1]; push_cast; ring)]
  rw [mul_assoc (b c), mul_assoc (d c), mul_assoc (e c), hxr, hyr, hzr, hxf, hyf, hzf]
  ring


theorem identityGrid2_affine (c : Nat) (hc : c < 3) (i j k : Int)
    (hi0 : 0 ≤ i) (hi1 : i ≤ (identityGrid2.Domain 0 : Int))
    (hj0 : 0 ≤ j) (hj1 : j ≤ (identityGrid2.Domain 1 : Int))
    (hk0 : 0 ≤ k) (hk1 : k ≤ (identityGrid2.Domain 2 : Int)) :
    identityGrid2.Table ((identityGrid2.opta 2 : Int) * i + (identityGrid2.opta 1 : Int) * j
        + (identityGrid2.opta 0 : Int) * k + (c : Int))
      = (fun _ => (0 : ℚ)) c + (fun n => if n = 0 then (1 : ℚ) else 0) c * (i : ℚ)
        + (fun n => if n = 1 then (1 : ℚ) else 0) c * (j : ℚ)
        + (fun n => if n = 2 then (1 : ℚ) else 0) c * (k : ℚ) := by
  simp only [identityGrid2, Nat.cast_one] at hi1 hj1 hk1
  interval_cases i <;> interval_cases j <;> interval_cases k <;> interval_cases c <;>
    simp [identityGrid2]

theorem reversalGrid2_affine (c : Nat) (hc : c < 3) (i j k : Int)
    (hi0 : 0 ≤ i) (hi1 : i ≤ (reversalGrid2.Domain 0 : Int))
    (hj0 : 0 ≤ j) (hj1 : j ≤ (reversalGrid2.Domain 1 : Int))
    (hk0 : 0 ≤ k) (hk1 : k ≤ (reversalGrid2.Domain 2 : Int)) :
    reversalGrid2.Table ((reversalGrid2.opta 2 : Int) * i + (reversalGrid2.opta 1 : Int) * j
        + (reversalGrid2.opta 0 : Int) * k + (c : Int))
      = (fun _ => (1 : ℚ)) c + (fun n => if n = 2 then (-1 : ℚ) else 0) c * (i : ℚ)
        + (fun n => if n = 1 then (-1 : ℚ) else 0) c * (j : ℚ)
        + (fun n => if n = 0 then (-1 : ℚ) else 0) c * (k : ℚ) := by
  simp only [reversalGrid2, Nat.cast_one] at hi1 hj1 hk1
  interval_cases i <;> interval_cases j <;> interval_cases k <;> interval_cases c <;>
    simp [reversalGrid2]

theorem FloatCLUTEval_three (p : cmsInterpParams ℚ) (h : p.nOutputs = 3) (px : ℚ × ℚ × ℚ) :
    FloatCLUTEval p [px]
      = [[(FloatCLUTEval_chan p px.1 px.2.1 px.2.2 0).1,
          (FloatCLUTEval_chan p px.1 px.2.1 px.2.2 1).1,
          (FloatCLUTEval_chan p px.1 px.2.1 px.2.2 2).1]] := by
  simp [FloatCLUTEval, h, List.range_succ]

/-- C6: tetrahedral interpolation reproduces affine tables.  If the samples of
a 3-input grid (at least two points per axis) are
`Table(i,j,k)[c] = a_c + b_c*i + d_c*j + e_c*k`, then every pixel `(r, g, b)` of
the buffer with each component in `[0, 1]` and either 0 or at least `1e-9` is
written as `a_c + b_c*r*Domain[0] + d_c*g*Domain[1] + e_c*b*Domain[2]`.  On the
two-point channel-reversal grid the query `(0x1234, 0x5678, 0x9ABC)/0xFFFF`
gives `(0xFFFF-0x9ABC, 0xFFFF-0x5678, 0xFFFF-0x1234)/0xFFFF`, and the two-point
identity grid returns every such query unchanged. -/
theorem FloatCLUTEval_reproduces_affine :
    (∀ (β : Type) [LinearOrderedField β] [FloorRing β] (p : cmsInterpParams β)
      (a b d e : Nat → β),
      1 ≤ p.Domain 0 → 1 ≤ p.Domain 1 → 1 ≤ p.Domain 2 →
      (∀ (i j k : Int) (c : Nat), 0 ≤ i → i ≤ p.Domain 0 → 0 ≤ j → j ≤ p.Domain 1 →
        0 ≤ k → k ≤ p.Domain 2 → c < p.nOutputs →
        p.Table ((p.opta 2 : Int) * i + (p.opta 1 : Int) * j + (p.opta 0 : Int) * k + (c : Int))
          = a c + b c * (i : β) + d c * (j : β) + e c * (k : β)) →
      ∀ (Input : List (β × β × β)) (n c : Nat) (px : β × β × β),
        Input[n]? = some px → c < p.nOutputs →
        (px.1 = 0 ∨ 1 / 1000000000 ≤ px.1) → px.1 ≤ 1 →
        (px.2.1 = 0 ∨ 1 / 1000000000 ≤ px.2.1) → px.2.1 ≤ 1 →
        (px.2.2 = 0 ∨ 1 / 1000000000 ≤ px.2.2) → px.2.2 ≤ 1 →
        written (FloatCLUTEval p Input) n c
          = some (a c + b c * (px.1 * (p.Domain 0 : β)) + d c * (px.2.1 * (p.Domain 1 : β))
              + e c * (px.2.2 * (p.Domain 2 : β)))) ∧
    FloatCLUTEval reversalGrid2 [((0x1234 : ℚ) / 0xFFFF, (0x5678 : ℚ) / 0xFFFF, (0x9ABC : ℚ) / 0xFFFF)]
      = [[((0xFFFF : ℚ) - 0x9ABC) / 0xFFFF, ((0xFFFF : ℚ) - 0x5678) / 0xFFFF,
          ((0xFFFF : ℚ) - 0x1234) / 0xFFFF]] ∧
    (∀ r g b : ℚ, (r = 0 ∨ 1 / 1000000000 ≤ r) → r ≤ 1 → (g = 0 ∨ 1 / 1000000000 ≤ g) → g ≤ 1 →
      (b = 0 ∨ 1 / 1000000000 ≤ b) → b ≤ 1 →
      FloatCLUTEval identityGrid2 [(r, g, b)] = [[r, g, b]]) := by
  refine ⟨?_, ?_, ?_⟩
  · intro β _ _ p a b d e hD0 hD1 hD2 hT Input n c px hn hc hr hr1 hg hg1 hb hb1
    rw [written_FloatCLUTEval p Input n c px hn hc]
    exact congrArg some (FloatCLUTEval_chan_affine p a b d e c hD0 hD1 hD2
      (fun i j k h1 h2 h3 h4 h5 h6 => hT i j k c h1 h2 h3 h4 h5 h6 hc)
      px.1 px.2.1 px.2.2 hr hr1 hg hg1 hb hb1)
  · rw [FloatCLUTEval_three reversalGrid2 rfl]
    have h := fun c hc => FloatCLUTEval_chan_affine reversalGrid2 (fun _ => (1 : ℚ))
      (fun n => if n = 2 then (-1 : ℚ) else 0) (fun n => if n = 1 then (-1 : ℚ) else 0)
      (fun n => if n = 0 then (-1 : ℚ) else 0) c
      (by decide) (by decide) (by decide) (reversalGrid2_affine c hc)
      ((0x1234 : ℚ) / 0xFFFF) ((0x5678 : ℚ) / 0xFFFF) ((0x9ABC : ℚ) / 0xFFFF)
      (Or.inr (by norm_num)) (by norm_num) (Or.inr (by norm_num)) (by norm_num)
      (Or.inr (by norm_num)) (by norm_num)
    rw [h 0 (by decide), h 1 (by decide), h 2 (by decide)]
    simp [reversalGrid2]
    norm_num
  · intro r g b hr hr1 hg hg1 hb hb1
    rw [FloatCLUTEval_three identityGrid2 rfl]
    have h := fun c hc => FloatCLUTEval_chan_affine identityGrid2 (fun _ => (0 : ℚ))
      (fun n => if n = 0 then (1 : ℚ) else 0) (fun n => if n = 1 then (1 : ℚ) else 0)
      (fun n => if n = 2 then (1 : ℚ) else 0) c
      (by decide) (by decide) (by decide) (identityGrid2_affine c hc)
      r g b hr hr1 hg hg1 hb hb1
    rw [h 0 (by decide), h 1 (by decide), h 2 (by decide)]
    simp [identityGrid2]


/-! ## The 4-input evaluator -/

theorem written_FloatCMYKCLUTEval_loop_zero [FloorRing α] (p : cmsInterpParams α) (LutTable : Int)
    (px : α × α × α × α) (rest : List (α × α × α × α)) (c : Nat) (hc : c < p.nOutputs) :
    written (FloatCMYKCLUTEval_loop p LutTable (px :: rest)) 0 c
      = some (FloatCMYKCLUTEval_chan p LutTable px.1 px.2.1 px.2.2.1 px.2.2.2 c).1 := by
  simp [written, FloatCMYKCLUTEval_loop, List.getElem?_map, List.getElem?_range hc]

theorem written_FloatCMYKCLUTEval_loop_succ [FloorRing α] (p : cmsInterpParams α) (LutTable : Int)
    (px : α × α × α × α) (rest : List (α × α × α × α)) (n c : Nat) :
    written (FloatCMYKCLUTEval_loop p LutTable (px :: rest)) (n + 1) c
      = written (FloatCMYKCLUTEval_loop p
          (FloatCMYKCLUTEval_cell p px.1 px.2.1 px.2.2.1 px.2.2.2).K1 rest) n c := by
  simp [written, FloatCMYKCLUTEval_loop]

/-- When the four clamped and scaled inputs are the integers `i0 .. i3`, one
channel iteration of `FloatCMYKCLUTEval` returns the sample at the node
`(i1, i2, i3)` of the slice the pointer `LutTable` held on entry: the first
input does not take part. -/
theorem FloatCMYKCLUTEval_chan_at_node [FloorRing α] (p : cmsInterpParams α) (LutTable : Int)
    (cin min yin kin : α) (i0 i1 i2 i3 c : Nat)
    (hk : fclamp100 cin / 100 * (p.Domain 0 : α) = (i0 : α))
    (hx : fclamp100 min / 100 * (p.Domain 1 : α) = (i1 : α))
    (hy : fclamp100 yin / 100 * (p.Domain 2 : α) = (i2 : α))
    (hz : fclamp100 kin / 100 * (p.Domain 3 : α) = (i3 : α)) :
    (FloatCMYKCLUTEval_chan p LutTable cin min yin kin c).1
      = p.Table (LutTable + ((p.opta 2 * i1 + p.opta 1 * i2 + p.opta 0 * i3 + c : Nat) : Int)) := by
  unfold FloatCMYKCLUTEval_chan FloatCMYKCLUTEval_cell LinearInterpInt
  simp only [_cmsQuickFloor, hk, hx, hy, hz, Int.floor_natCast, Int.cast_natCast, sub_self]
  simp only [tetra_fst_zero, mul_zero, zero_add]
  push_cast
  rfl

theorem FloatCMYKCLUTEval_cell_K1 [FloorRing α] (p : cmsInterpParams α)
    (cin min yin kin : α) (i0 : Nat)
    (hk : fclamp100 cin / 100 * (p.Domain 0 : α) = (i0 : α)) :
    (FloatCMYKCLUTEval_cell p cin min yin kin).K1
      = (p.opta 3 : Int) * (i0 : Int)
          + (if fclamp100 cin / 100 ≥ 1 then 0 else (p.opta 3 : Int)) := by
  unfold FloatCMYKCLUTEval_cell
  simp only [_cmsQuickFloor, hk, Int.floor_natCast]

theorem fclamp100_zero : fclamp100 (0 : α) = 0 := by
  simp [fclamp100]

theorem fclamp100_hundred : fclamp100 (100 : α) = 100 := by
  simp [fclamp100]

/-- C2 (the code at the failing input): a one-pixel call of `FloatCMYKCLUTEval`
on the two-point grid `cmykGrid2` with the pixel `(100, 0, 0, 0)`, the node
`(1, 0, 0, 0)`, writes the sample at offset 0, the node `(0, 0, 0, 0)`, and not
the sample at offset `opta[3]*1 = 8`. -/
theorem FloatCMYKCLUTEval_node_drops_first_input :
    StdStrides4 cmykGrid2 ∧
    written (FloatCMYKCLUTEval cmykGrid2
      [(100 * ((1 : Nat) : ℚ) / (cmykGrid2.Domain 0 : ℚ), 100 * ((0 : Nat) : ℚ) / (cmykGrid2.Domain 1 : ℚ),
        100 * ((0 : Nat) : ℚ) / (cmykGrid2.Domain 2 : ℚ), 100 * ((0 : Nat) : ℚ) / (cmykGrid2.Domain 3 : ℚ))]) 0 0
      = some (cmykGrid2.Table 0) ∧
    cmykGrid2.Table 0 ≠ cmykGrid2.Table ((cmykGrid2.opta 3 * 1 + cmykGrid2.opta 2 * 0
      + cmykGrid2.opta 1 * 0 + cmykGrid2.opta 0 * 0 + 0 : Nat) : Int) := by
  refine ⟨by simp [StdStrides4, cmykGrid2], ?_, by simp [cmykGrid2]⟩
  unfold FloatCMYKCLUTEval
  rw [written_FloatCMYKCLUTEval_loop_zero cmykGrid2 0 _ _ 0 (by decide)]
  have h := FloatCMYKCLUTEval_chan_at_node cmykGrid2 0
    (100 * ((1 : Nat) : ℚ) / (cmykGrid2.Domain 0 : ℚ)) (100 * ((0 : Nat) : ℚ) / (cmykGrid2.Domain 1 : ℚ))
    (100 * ((0 : Nat) : ℚ) / (cmykGrid2.Domain 2 : ℚ)) (100 * ((0 : Nat) : ℚ) / (cmykGrid2.Domain 3 : ℚ))
    1 0 0 0 0
    (by simp [cmykGrid2, fclamp100_hundred]) (by simp [cmykGrid2, fclamp100_zero])
    (by simp [cmykGrid2, fclamp100_zero]) (by simp [cmykGrid2, fclamp100_zero])
  simpa using h

theorem CMYKSliceBlend_at_node [FloorRing α] (p : cmsInterpParams α)
    (cin min yin kin : α) (i0 i1 i2 i3 c : Nat)
    (hk : fclamp100 cin / 100 * (p.Domain 0 : α) = (i0 : α))
    (hx : fclamp100 min / 100 * (p.Domain 1 : α) = (i1 : α))
    (hy : fclamp100 yin / 100 * (p.Domain 2 : α) = (i2 : α))
    (hz : fclamp100 kin / 100 * (p.Domain 3 : α) = (i3 : α)) :
    CMYKSliceBlend p cin min yin kin c
      = p.Table ((p.opta 3 * i0 + p.opta 2 * i1 + p.opta 1 * i2 + p.opta 0 * i3 + c : Nat)
          : Int) := by
  unfold CMYKSliceBlend FloatCMYKCLUTEval_cell LinearInterpInt
  simp only [_cmsQuickFloor, hk, hx, hy, hz, Int.floor_natCast, Int.cast_natCast, sub_self]
  simp only [tetra_fst_zero, mul_zero, zero_add]
  congr 1
  push_cast
  ring

/-- C4 (the code at the failing input): a one-pixel call of `FloatCMYKCLUTEval`
on `cmykGrid2` with the pixel `(100, 100, 100, 100)` writes the sample at
offset 7, taken from the slice at offset 0, whereas the blend of the floor
slice and the ceil slice of the outer axis, both at offset `K0 = K1 = 8`, is
the sample at offset 15, the one stored at the grid node `(1, 1, 1, 1)`. -/
theorem FloatCMYKCLUTEval_first_pass_off_floor_slice :
    written (FloatCMYKCLUTEval cmykGrid2 [(100, 100, 100, 100)]) 0 0 = some 7 ∧
    (FloatCMYKCLUTEval_cell cmykGrid2 100 100 100 100).K0 = 8 ∧
    (FloatCMYKCLUTEval_cell cmykGrid2 100 100 100 100).K1 = 8 ∧
    (FloatCMYKCLUTEval_cell cmykGrid2 100 100 100 100).rk = 0 ∧
    CMYKSliceBlend cmykGrid2 100 100 100 100 0 = 15 ∧
    cmykGrid2.Table ((cmykGrid2.opta 3 * 1 + cmykGrid2.opta 2 * 1 + cmykGrid2.opta 1 * 1
      + cmykGrid2.opta 0 * 1 + 0 : Nat) : Int) = 15 := by
  have e : fclamp100 (100 : ℚ) / 100 * ((1 : Nat) : ℚ) = ((1 : Nat) : ℚ) := by
    simp [fclamp100_hundred]
  refine ⟨?_, ?_, ?_, ?_, ?_, ?_⟩
  · unfold FloatCMYKCLUTEval
    rw [written_FloatCMYKCLUTEval_loop_zero cmykGrid2 0 _ _ 0 (by decide)]
    have h := FloatCMYKCLUTEval_chan_at_node cmykGrid2 0 100 100 100 100 1 1 1 1 0 e e e e
    rw [h]
    simp [cmykGrid2]
  · simp [FloatCMYKCLUTEval_cell, _cmsQuickFloor, cmykGrid2, fclamp100_hundred]
  · have h := FloatCMYKCLUTEval_cell_K1 cmykGrid2 100 100 100 100 1 e
    rw [h]
    simp [cmykGrid2, fclamp100_hundred]
  · simp [FloatCMYKCLUTEval_cell, _cmsQuickFloor, cmykGrid2, fclamp100_hundred]
  · have h := CMYKSliceBlend_at_node cmykGrid2 100 100 100 100 1 1 1 1 0 e e e e
    rw [h]
    simp [cmykGrid2]
  · simp [cmykGrid2]

/-- C5 (the code at the failing input): on `cmykGrid2`, the pixel `(0, 0, 0, 0)`
transformed alone is written as the sample at offset 0; transformed as the
second pixel of the buffer `[(100, 0, 0, 0), (0, 0, 0, 0)]` it is written as
the sample at offset 8, because the first pass reads through the pointer the
previous pixel left at `Table + K1`. -/
theorem FloatCMYKCLUTEval_depends_on_previous_pixel :
    written (FloatCMYKCLUTEval cmykGrid2 [(100, 0, 0, 0), (0, 0, 0, 0)]) 1 0 = some 8 ∧
    written (FloatCMYKCLUTEval cmykGrid2 [(0, 0, 0, 0)]) 0 0 = some 0 := by
  have e1 : fclamp100 (100 : ℚ) / 100 * ((1 : Nat) : ℚ) = ((1 : Nat) : ℚ) := by
    simp [fclamp100_hundred]
  have e0 : fclamp100 (0 : ℚ) / 100 * ((1 : Nat) : ℚ) = ((0 : Nat) : ℚ) := by
    simp [fclamp100_zero]
  constructor
  · unfold FloatCMYKCLUTEval
    rw [written_FloatCMYKCLUTEval_loop_succ,
      written_FloatCMYKCLUTEval_loop_zero cmykGrid2 _ _ _ 0 (by decide)]
    have hK := FloatCMYKCLUTEval_cell_K1 cmykGrid2 100 0 0 0 1 e1
    have h := FloatCMYKCLUTEval_chan_at_node cmykGrid2
      (FloatCMYKCLUTEval_cell cmykGrid2 100 0 0 0).K1 0 0 0 0 0 0 0 0 0 e0 e0 e0 e0
    rw [h, hK]
    simp [cmykGrid2, fclamp100_hundred]
  · unfold FloatCMYKCLUTEval
    rw [written_FloatCMYKCLUTEval_loop_zero cmykGrid2 0 _ _ 0 (by decide)]
    have h := FloatCMYKCLUTEval_chan_at_node cmykGrid2 0 0 0 0 0 0 0 0 0 0 e0 e0 e0 e0
    rw [h]
    simp [cmykGrid2]


/-! ## Rounding to float32: error and evaluation -/

theorem roundHalfEven_err (q : ℚ) : |((roundHalfEven q : Int) : ℚ) - q| ≤ 1 / 2 := by
  have h0 : 0 ≤ q - (Int.floor q : ℚ) := sub_nonneg.mpr (Int.floor_le q)
  have h1 : q - (Int.floor q : ℚ) < 1 := by linarith [Int.lt_floor_add_one q]
  unfold roundHalfEven
  rw [abs_le]
  split_ifs with a b c
  · constructor <;> linarith
  · push_cast
    constructor <;> linarith
  · have e : q - (Int.floor q : ℚ) = 1 / 2 := le_antisymm (not_lt.mp b) (not_lt.mp a)
    constructor <;> linarith
  · have e : q - (Int.floor q : ℚ) = 1 / 2 := le_antisymm (not_lt.mp b) (not_lt.mp a)
    push_cast
    constructor <;> linarith

theorem roundHalfEven_le (q : ℚ) (n : Int) (h : q ≤ (n : ℚ)) : roundHalfEven q ≤ n := by
  have hf : Int.floor q ≤ n := Int.floor_le_floor h |>.trans (le_of_eq (Int.floor_intCast n))
  rcases eq_or_lt_of_le hf with he | hlt
  · have hq : q = (n : ℚ) := le_antisymm h (by rw [← he]; exact Int.floor_le q)
    have hz : q - (Int.floor q : ℚ) < 1 / 2 := by
      rw [he, hq]
      norm_num
    unfold roundHalfEven
    rw [if_pos hz]
    exact hf
  · unfold roundHalfEven
    split_ifs <;> omega

theorem roundHalfEven_nonneg (q : ℚ) (h : 0 ≤ q) : 0 ≤ roundHalfEven q := by
  have hf : 0 ≤ Int.floor q := Int.floor_nonneg.mpr h
  unfold roundHalfEven
  split_ifs <;> omega

theorem roundHalfEven_intCast (n : Int) : roundHalfEven (n : ℚ) = n := by
  unfold roundHalfEven
  rw [Int.floor_intCast]
  simp

theorem two_zpow_pos (e : Int) : (0 : ℚ) < 2 ^ e := zpow_pos (by norm_num) e

/-- One float32 operation has a relative error of at most `2^-24`, or an
absolute error of at most `2^-150` below the normal range. -/
theorem round32_err (x : ℚ) : |round32 x - x| ≤ |x| / 16777216 + 1 / 2 ^ 150 := by
  unfold round32
  split_ifs with h0
  · subst h0
    norm_num
  · have hp := two_zpow_pos (ulpExponent32 x)
    have hx : 0 < |x| := abs_pos.mpr h0
    have e1 : (roundHalfEven (x / 2 ^ ulpExponent32 x) : ℚ) * 2 ^ ulpExponent32 x - x
        = ((roundHalfEven (x / 2 ^ ulpExponent32 x) : ℚ) - x / 2 ^ ulpExponent32 x)
          * 2 ^ ulpExponent32 x := by
      field_simp
    rw [e1, abs_mul, abs_of_pos hp]
    have h1 := roundHalfEven_err (x / 2 ^ ulpExponent32 x)
    have h2 : |(roundHalfEven (x / 2 ^ ulpExponent32 x) : ℚ) - x / 2 ^ ulpExponent32 x|
        * 2 ^ ulpExponent32 x ≤ 1 / 2 * 2 ^ ulpExponent32 x :=
      mul_le_mul_of_nonneg_right h1 (le_of_lt hp)
    refine le_trans h2 ?_
    unfold ulpExponent32
    rcases le_total (Int.log 2 |x|) (-126) with hl | hl
    · rw [max_eq_right hl]
      have hxx : (0 : ℚ) ≤ |x| / 16777216 := by positivity
      have : (1 : ℚ) / 2 * 2 ^ ((-126 : Int) - 23) = 1 / 2 ^ 150 := by
        norm_num [zpow_neg]
      linarith
    · rw [max_eq_left hl]
      have hlog : ((2 : Nat) : ℚ) ^ Int.log 2 |x| ≤ |x| := Int.zpow_log_le_self (by norm_num) hx
      have e2 : (2 : ℚ) ^ (Int.log 2 |x| - 23) = 2 ^ Int.log 2 |x| / 8388608 := by
        rw [zpow_sub₀ (by norm_num)]
        norm_num
      rw [e2]
      have hq : (0 : ℚ) ≤ 1 / 2 ^ 150 := by positivity
      norm_num at hlog ⊢
      linarith

theorem round32_nonneg (x : ℚ) (h : 0 ≤ x) : 0 ≤ round32 x := by
  unfold round32
  split_ifs with h0
  · exact le_refl 0
  · have hp := two_zpow_pos (ulpExponent32 x)
    have hq : 0 ≤ x / 2 ^ ulpExponent32 x := div_nonneg h (le_of_lt hp)
    have := roundHalfEven_nonneg _ hq
    have hc : (0 : ℚ) ≤ (roundHalfEven (x / 2 ^ ulpExponent32 x) : ℚ) := by exact_mod_cast this
    exact mul_nonneg hc (le_of_lt hp)

/-- Rounding does not pass a power of two of the normal range. -/
theorem round32_le_two_pow (x : ℚ) (k : Int) (hk : -126 ≤ k) (h0 : 0 ≤ x) (h : x ≤ 2 ^ k) :
    round32 x ≤ 2 ^ k := by
  unfold round32
  split_ifs with hx0
  · exact le_of_lt (two_zpow_pos k)
  · have hx : 0 < |x| := abs_pos.mpr hx0
    have hxa : |x| = x := abs_of_nonneg h0
    have hp := two_zpow_pos (ulpExponent32 x)
    have hle : ulpExponent32 x + 23 ≤ k := by
      unfold ulpExponent32
      have hlog : Int.log 2 |x| ≤ k := by
        have h1 : ((2 : Nat) : ℚ) ^ Int.log 2 |x| ≤ |x| := Int.zpow_log_le_self (by norm_num) hx
        have h2 : ((2 : Nat) : ℚ) ^ Int.log 2 |x| ≤ ((2 : Nat) : ℚ) ^ k := by
          have h3 : |x| ≤ ((2 : Nat) : ℚ) ^ k := by
            rw [hxa]
            simpa using h
          exact le_trans h1 h3
        exact (zpow_le_zpow_iff_right₀ (by norm_num : (1 : ℚ) < ((2 : Nat) : ℚ))).mp h2
      rcases le_total (Int.log 2 |x|) (-126) with hl | hl
      · rw [max_eq_right hl]
        omega
      · rw [max_eq_left hl]
        omega
    obtain ⟨n, hn⟩ : ∃ n : Nat, k - ulpExponent32 x = (n : Int) :=
      ⟨(k - ulpExponent32 x).toNat, (Int.toNat_of_nonneg (by omega)).symm⟩
    have hk2 : (2 : ℚ) ^ k = (((2 ^ n : Nat) : Int) : ℚ) * 2 ^ ulpExponent32 x := by
      have : k = (n : Int) + ulpExponent32 x := by omega
      rw [this, zpow_add₀ (by norm_num), zpow_natCast]
      push_cast
      ring
    have hq : x / 2 ^ ulpExponent32 x ≤ (((2 ^ n : Nat) : Int) : ℚ) := by
      rw [div_le_iff₀ hp, ← hk2]
      exact h
    have hr := roundHalfEven_le _ _ hq
    have hc : (roundHalfEven (x / 2 ^ ulpExponent32 x) : ℚ) ≤ (((2 ^ n : Nat) : Int) : ℚ) := by
      exact_mod_cast hr
    rw [hk2]
    exact mul_le_mul_of_nonneg_right hc (le_of_lt hp)

/-- Evaluation of `round32` from the binade of `x` and the rounded quotient. -/
theorem round32_eval (x : ℚ) (e m : Int) (he : -126 ≤ e) (h1 : 2 ^ e ≤ |x|)
    (h2 : |x| < 2 ^ (e + 1)) (hm : roundHalfEven (x / 2 ^ (e - 23)) = m) :
    round32 x = (m : ℚ) * 2 ^ (e - 23) := by
  have hx : 0 < |x| := lt_of_lt_of_le (two_zpow_pos e) h1
  have hx0 : x ≠ 0 := abs_pos.mp hx
  have hlog : Int.log 2 |x| = e := by
    have a : e ≤ Int.log 2 |x| :=
      (Int.zpow_le_iff_le_log (by norm_num) hx).mp (by simpa using h1)
    have b : Int.log 2 |x| < e + 1 :=
      (Int.lt_zpow_iff_log_lt (by norm_num) hx).mp (by simpa using h2)
    omega
  have hu : ulpExponent32 x = e - 23 := by
    unfold ulpExponent32
    rw [hlog, max_eq_left he]
  unfold round32
  rw [if_neg hx0, hu, hm]

theorem round32_zero : round32 0 = 0 := by
  simp [round32]

/-- Evaluation of `roundHalfEven` from the floor of `q`. -/
theorem roundHalfEven_eval (q : ℚ) (f m : Int) (h1 : (f : ℚ) ≤ q) (h2 : q < (f : ℚ) + 1)
    (hm : (if q - (f : ℚ) < 1 / 2 then f
      else if q - (f : ℚ) > 1 / 2 then f + 1
      else if f % 2 = 0 then f else f + 1) = m) :
    roundHalfEven q = m := by
  have hf : Int.floor q = f := Int.floor_eq_iff.mpr ⟨h1, h2⟩
  unfold roundHalfEven
  rw [hf]
  exact hm

/-- A value that is a float32 is left alone by `round32`. -/
theorem round32_exact (x : ℚ) (e m : Int) (he : -126 ≤ e) (h1 : 2 ^ e ≤ |x|)
    (h2 : |x| < 2 ^ (e + 1)) (hx : x / 2 ^ (e - 23) = (m : ℚ)) : round32 x = x := by
  rw [round32_eval x e m he h1 h2 (by rw [hx]; exact roundHalfEven_intCast m), ← hx]
  exact div_mul_cancel₀ x (ne_of_gt (two_zpow_pos (e - 23)))

theorem floor_ceil_cases (s : ℚ) :
    (s - (Int.floor s : ℚ) = 0 ∧ Int.ceil s = Int.floor s) ∨
    (0 < s - (Int.floor s : ℚ) ∧ Int.ceil s = Int.floor s + 1) := by
  have h0 : 0 ≤ s - (Int.floor s : ℚ) := sub_nonneg.mpr (Int.floor_le s)
  rcases eq_or_lt_of_le h0 with hz | hp
  · left
    refine ⟨hz.symm, ?_⟩
    have e : s = ((Int.floor s : Int) : ℚ) := by linarith
    rw [e, Int.ceil_intCast, Int.floor_intCast]
  · right
    refine ⟨hp, ?_⟩
    rw [Int.ceil_eq_iff]
    constructor
    · push_cast
      linarith
    · push_cast
      exact le_of_lt (Int.lt_floor_add_one _)

theorem abs_mul_le_mul (x y a b : ℚ) (hx : |x| ≤ a) (hy : |y| ≤ b) : |x * y| ≤ a * b := by
  rw [abs_mul]
  exact mul_le_mul hx hy (abs_nonneg y) (le_trans (abs_nonneg x) hx)

/-- The error of one float32 operation on a result bounded by `B`. -/
theorem round32_close (x B : ℚ) (hB : |x| ≤ B) :
    |round32 x - x| ≤ B / 16777216 + 1 / 2 ^ 150 := by
  have h := round32_err x
  have : |x| / 16777216 ≤ B / 16777216 := by
    apply div_le_div_of_nonneg_right hB
    norm_num
  linarith

/-- The three regimes of the float32 `flerp` and the offsets it loads. -/
theorem flerp32_sampled_curve (T : Int → ℚ) (v : ℚ) :
    (v < 9007199 / 9007199254740992 → (flerp32 T v).1 = T 0) ∧
    (1 ≤ v → (flerp32 T v).1 = T ((MAX_NODES_IN_CURVE : Int) - 1)) ∧
    (9007199 / 9007199254740992 ≤ v → v < 1 →
      (0 < round32 (v * 32768) - (Int.floor (round32 (v * 32768)) : ℚ) →
        (flerp32 T v).1 = round32 (T (Int.floor (round32 (v * 32768)))
          + round32 (round32 (T (Int.floor (round32 (v * 32768)) + 1)
                - T (Int.floor (round32 (v * 32768))))
              * round32 (round32 (v * 32768) - (Int.floor (round32 (v * 32768)) : ℚ))))) ∧
      (round32 (v * 32768) - (Int.floor (round32 (v * 32768)) : ℚ) = 0 →
        (flerp32 T v).1 = round32 (T (Int.floor (round32 (v * 32768)))))) ∧
    (∀ idx ∈ (flerp32 T v).2, 0 ≤ idx ∧ idx ≤ (MAX_NODES_IN_CURVE : Int) - 1) := by
  have hN2 : (((MAX_NODES_IN_CURVE - 1 : Nat) : Int) : ℚ) = 32768 := by
    simp [MAX_NODES_IN_CURVE]
  have hsmall : (9007199 / 9007199254740992 : ℚ) < 1 := by norm_num
  refine ⟨?_, ?_, ?_, ?_⟩
  · intro h
    simp only [flerp32, if_pos h]
  · intro h
    have h' : ¬ v < 9007199 / 9007199254740992 := not_lt.mpr (le_trans (le_of_lt hsmall) h)
    have h'' : v ≥ 1 := h
    simp only [flerp32, if_neg h', if_pos h'']
  · intro h1 h2
    have h1' : ¬ v < 9007199 / 9007199254740992 := not_lt.mpr h1
    have h2' : ¬ v ≥ 1 := not_le.mpr h2
    constructor
    · intro hpos
      rcases floor_ceil_cases (round32 (v * 32768)) with ⟨hz, _⟩ | ⟨_, hc⟩
      · exact absurd hz (ne_of_gt hpos)
      · simp only [flerp32, if_neg h1', if_neg h2', hN2, _cmsQuickFloor, hc]
    · intro hz
      rcases floor_ceil_cases (round32 (v * 32768)) with ⟨_, hc⟩ | ⟨hp, _⟩
      · simp only [flerp32, if_neg h1', if_neg h2', hN2, _cmsQuickFloor, hc, sub_self, hz,
          round32_zero, zero_mul, add_zero]
      · exact absurd hz (ne_of_gt hp)
  · intro idx hidx
    by_cases h1 : v < 9007199 / 9007199254740992
    · simp only [flerp32, if_pos h1, List.mem_singleton] at hidx
      subst hidx
      simp [MAX_NODES_IN_CURVE]
    · by_cases h2 : v ≥ 1
      · simp only [flerp32, if_neg h1, if_pos h2, List.mem_singleton] at hidx
        subst hidx
        simp [MAX_NODES_IN_CURVE]
      · have hv0 : 0 ≤ v := le_trans (by norm_num) (not_lt.mp h1)
        have hx0 : 0 ≤ v * 32768 := by positivity
        have hx1 : v * 32768 ≤ 2 ^ (15 : Int) := by
          norm_num
          linarith [not_le.mp h2]
        have hs0 := round32_nonneg _ hx0
        have hs1 := round32_le_two_pow _ 15 (by norm_num) hx0 hx1
        simp only [flerp32, if_neg h1, if_neg h2, hN2, _cmsQuickFloor, List.mem_cons,
          List.mem_singleton, List.not_mem_nil, or_false] at hidx
        generalize round32 (v * 32768) = s at hs0 hs1 hidx
        have hs1' : s ≤ ((32768 : Int) : ℚ) := by
          norm_num at hs1 ⊢
          exact hs1
        have hk0 : 0 ≤ Int.floor s := Int.floor_nonneg.mpr hs0
        have hk1 : Int.ceil s ≤ 32768 := Int.ceil_le.mpr hs1'
        have hkc : Int.floor s ≤ Int.ceil s := Int.floor_le_ceil s
        simp only [MAX_NODES_IN_CURVE]
        rcases hidx with h | h <;> subst h <;> constructor <;> omega

/-! ## Sampled curves -/

/-- The scaled abscissa, cell and neighbour `flerp` works with on an input
between the two thresholds. -/
theorem flerp_cells [FloorRing α] (v : α) (h1 : 9007199 / 9007199254740992 ≤ v) (h2 : v < 1) :
    0 ≤ Int.floor (v * 32768) ∧ Int.floor (v * 32768) ≤ 32767 ∧
    Int.ceil (v * 32768) ≤ 32768 ∧
    (0 < v * 32768 - (Int.floor (v * 32768) : α) →
      Int.ceil (v * 32768) = Int.floor (v * 32768) + 1) ∧
    (v * 32768 - (Int.floor (v * 32768) : α) = 0 →
      Int.ceil (v * 32768) = Int.floor (v * 32768)) := by
  have hv0 : (0 : α) ≤ v := le_trans (by norm_num) h1
  have hs0 : (0 : α) ≤ v * 32768 := mul_nonneg hv0 (by norm_num)
  have hs1 : v * 32768 < ((32768 : Int) : α) := by
    push_cast
    linarith
  have hfl : Int.floor (v * 32768) < 32768 := Int.floor_lt.mpr hs1
  refine ⟨Int.floor_nonneg.mpr hs0, by omega, Int.ceil_le.mpr (le_of_lt hs1), ?_, ?_⟩
  · intro hpos
    rw [Int.ceil_eq_iff]
    constructor
    · push_cast
      linarith
    · push_cast
      exact le_of_lt (Int.lt_floor_add_one _)
  · intro hz
    have e : v * 32768 = ((Int.floor (v * 32768) : Int) : α) := by linarith
    rw [e, Int.ceil_intCast, Int.floor_intCast]

/-- C7 (amended): `flerp` on a table `T` of `N = 32769` entries.  The guard is
the float32 constant `1.0e-9f = 9007199 * 2^-53`, which is below `10^-9`: for
`v < 1.0e-9f` it returns `T[0]`, from 1 on it returns `T[N-1]`; in between, with
`s = v*(N-1)`, `cell = floor(s)` and `frac = s - cell`, the expression
`y0 + (y1 - y0) * rest` is, over the reals, `T[cell] + frac*(T[cell+1] - T[cell])`
when `frac > 0` and `T[cell]` when `frac = 0`, and every offset loaded lies in
`[0, N-1]`.  In float32 arithmetic (`flerp32`) the guards are the same, `s` and
every operation of the expression are rounded, and every offset loaded still
lies in `[0, N-1]`. -/
theorem flerp_sampled_curve [FloorRing α] (T : Int → α) (v : α) (T32 : Int → ℚ) (v32 : ℚ) :
    MAX_NODES_IN_CURVE = 32769 ∧
    (v < 9007199 / 9007199254740992 → (flerp T v).1 = T 0) ∧
    (1 ≤ v → (flerp T v).1 = T ((MAX_NODES_IN_CURVE : Int) - 1)) ∧
    (9007199 / 9007199254740992 ≤ v → v < 1 →
      (0 < v * ((MAX_NODES_IN_CURVE : α) - 1) - (Int.floor (v * ((MAX_NODES_IN_CURVE : α) - 1)) : α) →
        (flerp T v).1 = T (Int.floor (v * ((MAX_NODES_IN_CURVE : α) - 1)))
          + (v * ((MAX_NODES_IN_CURVE : α) - 1) - (Int.floor (v * ((MAX_NODES_IN_CURVE : α) - 1)) : α))
            * (T (Int.floor (v * ((MAX_NODES_IN_CURVE : α) - 1)) + 1)
                - T (Int.floor (v * ((MAX_NODES_IN_CURVE : α) - 1))))) ∧
      (v * ((MAX_NODES_IN_CURVE : α) - 1) - (Int.floor (v * ((MAX_NODES_IN_CURVE : α) - 1)) : α) = 0 →
        (flerp T v).1 = T (Int.floor (v * ((MAX_NODES_IN_CURVE : α) - 1))))) ∧
    (∀ idx ∈ (flerp T v).2, 0 ≤ idx ∧ idx ≤ (MAX_NODES_IN_CURVE : Int) - 1) ∧
    (v32 < 9007199 / 9007199254740992 → (flerp32 T32 v32).1 = T32 0) ∧
    (1 ≤ v32 → (flerp32 T32 v32).1 = T32 ((MAX_NODES_IN_CURVE : Int) - 1)) ∧
    (9007199 / 9007199254740992 ≤ v32 → v32 < 1 →
      (0 < round32 (v32 * 32768) - (Int.floor (round32 (v32 * 32768)) : ℚ) →
        (flerp32 T32 v32).1 = round32 (T32 (Int.floor (round32 (v32 * 32768)))
          + round32 (round32 (T32 (Int.floor (round32 (v32 * 32768)) + 1)
                - T32 (Int.floor (round32 (v32 * 32768))))
              * round32 (round32 (v32 * 32768) - (Int.floor (round32 (v32 * 32768)) : ℚ))))) ∧
      (round32 (v32 * 32768) - (Int.floor (round32 (v32 * 32768)) : ℚ) = 0 →
        (flerp32 T32 v32).1 = round32 (T32 (Int.floor (round32 (v32 * 32768)))))) ∧
    (∀ idx ∈ (flerp32 T32 v32).2, 0 ≤ idx ∧ idx ≤ (MAX_NODES_IN_CURVE : Int) - 1) := by
  have hN : ((MAX_NODES_IN_CURVE : α) - 1) = 32768 := by
    simp [MAX_NODES_IN_CURVE]; norm_num
  have hN2 : (((MAX_NODES_IN_CURVE - 1 : Nat) : Int) : α) = 32768 := by
    simp [MAX_NODES_IN_CURVE]
  have hsmall : (9007199 / 9007199254740992 : α) < 1 := by norm_num
  obtain ⟨f1, f2, f3, f4⟩ := flerp32_sampled_curve T32 v32
  refine ⟨rfl, ?_, ?_, ?_, ?_, f1, f2, f3, f4⟩
  · intro h
    simp only [flerp, if_pos h]
  · intro h
    have h' : ¬ v < 9007199 / 9007199254740992 := not_lt.mpr (le_trans (le_of_lt hsmall) h)
    have h'' : v ≥ 1 := h
    simp only [flerp, if_neg h', if_pos h'']
  · intro h1 h2
    obtain ⟨c0, c1, c2, c3, c4⟩ := flerp_cells v h1 h2
    rw [hN]
    have h1' : ¬ v < 9007199 / 9007199254740992 := not_lt.mpr h1
    have h2' : ¬ v ≥ 1 := not_le.mpr h2
    constructor
    · intro hpos
      simp only [flerp, if_neg h1', if_neg h2', hN2, _cmsQuickFloor, c3 hpos]
      ring
    · intro hz
      simp only [flerp, if_neg h1', if_neg h2', hN2, _cmsQuickFloor, c4 hz, sub_self, zero_mul,
        add_zero]
  · intro idx hidx
    by_cases h1 : v < 9007199 / 9007199254740992
    · simp only [flerp, if_pos h1, List.mem_singleton] at hidx
      subst hidx
      simp [MAX_NODES_IN_CURVE]
    · by_cases h2 : v ≥ 1
      · simp only [flerp, if_neg h1, if_pos h2, List.mem_singleton] at hidx
        subst hidx
        simp [MAX_NODES_IN_CURVE]
      · obtain ⟨c0, c1, c2, c3, c4⟩ := flerp_cells v (not_lt.mp h1) (not_le.mp h2)
        simp only [flerp, if_neg h1, if_neg h2, hN2, _cmsQuickFloor, List.mem_cons,
          List.mem_singleton, List.not_mem_nil, or_false] at hidx
        have hle := Int.floor_le_ceil (v * (32768 : α))
        simp only [MAX_NODES_IN_CURVE]
        rcases hidx with h | h <;> subst h <;> constructor <;> omega

/-- The float32 evaluation of `flerp` on the identity table at the float32
`1.0e-9f`: every operation is exact and the result is the input. -/
theorem flerp32_identityCurves_at_guard :
    (flerp32 identityCurves.CurveR (9007199 / 9007199254740992)).1
      = 9007199 / 9007199254740992 := by
  have h1 : ¬ ((9007199 : ℚ) / 9007199254740992 < 9007199 / 9007199254740992) := lt_irrefl _
  have h2 : ¬ ((9007199 : ℚ) / 9007199254740992 ≥ 1) := by norm_num
  have hN2 : (((MAX_NODES_IN_CURVE - 1 : Nat) : Int) : ℚ) = 32768 := by
    simp [MAX_NODES_IN_CURVE]
  simp only [flerp32, if_neg h1, if_neg h2, hN2, _cmsQuickFloor]
  have es : round32 ((9007199 : ℚ) / 9007199254740992 * 32768) = 9007199 / 274877906944 := by
    rw [round32_eval _ (-15) 9007199 (by norm_num) (by norm_num [abs_of_pos])
      (by norm_num [abs_of_pos])
      (roundHalfEven_eval _ 9007199 9007199 (by norm_num) (by norm_num) (by norm_num))]
    norm_num
  rw [es]
  have ef : Int.floor ((9007199 : ℚ) / 274877906944) = 0 := by
    rw [Int.floor_eq_iff]
    constructor <;> norm_num
  have ec : Int.ceil ((9007199 : ℚ) / 274877906944) = 1 := by
    rw [Int.ceil_eq_iff]
    constructor <;> norm_num
  rw [ef, ec]
  have er : round32 ((9007199 : ℚ) / 274877906944 - ((0 : Int) : ℚ)) = 9007199 / 274877906944 := by
    rw [Int.cast_zero, sub_zero,
      round32_eval _ (-15) 9007199 (by norm_num) (by norm_num [abs_of_pos])
        (by norm_num [abs_of_pos])
        (roundHalfEven_eval _ 9007199 9007199 (by norm_num) (by norm_num) (by norm_num))]
    norm_num
  rw [er]
  have ey0 : identityCurves.CurveR 0 = 0 := by
    simp [identityCurves]
  have ey1 : identityCurves.CurveR 1 = 1 / 32768 := by
    simp [identityCurves]
  rw [ey0, ey1]
  have ea : round32 ((1 : ℚ) / 32768 - 0) = 1 / 32768 := by
    rw [sub_zero,
      round32_eval _ (-15) 8388608 (by norm_num) (by norm_num [abs_of_pos])
        (by norm_num [abs_of_pos])
        (roundHalfEven_eval _ 8388608 8388608 (by norm_num) (by norm_num) (by norm_num))]
    norm_num
  rw [ea]
  have eb : round32 ((1 : ℚ) / 32768 * (9007199 / 274877906944))
      = 9007199 / 9007199254740992 := by
    rw [round32_eval _ (-30) 9007199 (by norm_num) (by norm_num [abs_of_pos])
      (by norm_num [abs_of_pos])
      (roundHalfEven_eval _ 9007199 9007199 (by norm_num) (by norm_num) (by norm_num))]
    norm_num
  rw [eb, zero_add,
    round32_eval _ (-30) 9007199 (by norm_num) (by norm_num [abs_of_pos])
      (by norm_num [abs_of_pos])
      (roundHalfEven_eval _ 9007199 9007199 (by norm_num) (by norm_num) (by norm_num))]
  norm_num

/-- The exact evaluation of `flerp` on the identity table at `1.0e-9f`. -/
theorem flerp_identityCurves_at_guard :
    (flerp identityCurves.CurveR (9007199 / 9007199254740992)).1
      = 9007199 / 9007199254740992 := by
  have h1 : ¬ ((9007199 : ℚ) / 9007199254740992 < 9007199 / 9007199254740992) := lt_irrefl _
  have h2 : ¬ ((9007199 : ℚ) / 9007199254740992 ≥ 1) := by norm_num
  have hN2 : (((MAX_NODES_IN_CURVE - 1 : Nat) : Int) : ℚ) = 32768 := by
    simp [MAX_NODES_IN_CURVE]
  have ef : Int.floor ((9007199 : ℚ) / 9007199254740992 * 32768) = 0 := by
    rw [Int.floor_eq_iff]
    constructor <;> norm_num
  have ec : Int.ceil ((9007199 : ℚ) / 9007199254740992 * 32768) = 1 := by
    rw [Int.ceil_eq_iff]
    constructor <;> norm_num
  simp only [flerp, if_neg h1, if_neg h2, hN2, _cmsQuickFloor, ef, ec, identityCurves]
  norm_num

/-- C7 (counterexample): the float32 `v = 9007199 * 2^-53` (bits `0x3089705F`,
the constant `1.0e-9f` itself) is below `10^-9`, and on the identity table
`flerp` does not return `T[0] = 0` there: `v < 1.0e-9f` is false, so it
interpolates between `T[0]` and `T[1]` and returns `v`, over the reals and in
float32 arithmetic alike. -/
theorem flerp_interpolates_below_1e9 :
    (9007199 / 9007199254740992 : ℚ) < 1 / 1000000000 ∧
    round32 (9007199 / 9007199254740992) = 9007199 / 9007199254740992 ∧
    identityCurves.CurveR 0 = 0 ∧
    (flerp identityCurves.CurveR (9007199 / 9007199254740992)).1
      = 9007199 / 9007199254740992 ∧
    (flerp32 identityCurves.CurveR (9007199 / 9007199254740992)).1
      = 9007199 / 9007199254740992 ∧
    (flerp identityCurves.CurveR (9007199 / 9007199254740992)).1 ≠ identityCurves.CurveR 0 ∧
    (flerp32 identityCurves.CurveR (9007199 / 9007199254740992)).1
      ≠ identityCurves.CurveR 0 := by
  have e0 : identityCurves.CurveR 0 = 0 := by simp [identityCurves]
  have er : round32 ((9007199 : ℚ) / 9007199254740992) = 9007199 / 9007199254740992 := by
    rw [round32_eval _ (-30) 9007199 (by norm_num) (by norm_num [abs_of_pos])
      (by norm_num [abs_of_pos])
      (roundHalfEven_eval _ 9007199 9007199 (by norm_num) (by norm_num) (by norm_num))]
    norm_num
  refine ⟨by norm_num, er, e0, flerp_identityCurves_at_guard, flerp32_identityCurves_at_guard,
    ?_, ?_⟩
  · rw [flerp_identityCurves_at_guard, e0]
    norm_num
  · rw [flerp32_identityCurves_at_guard, e0]
    norm_num

/-! ## The linearity tests -/

theorem AllRGBCurvesAreLinear_iff (data : CurvesFloatData α) :
    AllRGBCurvesAreLinear data = true ↔
      ∀ j : Nat, j < MAX_NODES_IN_CURVE →
        |data.CurveR (j : Int) - expected j| ≤ LINEAR_CURVES_EPSILON ∧
        |data.CurveG (j : Int) - expected j| ≤ LINEAR_CURVES_EPSILON ∧
        |data.CurveB (j : Int) - expected j| ≤ LINEAR_CURVES_EPSILON := by
  unfold AllRGBCurvesAreLinear
  simp only [List.all_eq_true, List.mem_range, Bool.not_eq_true', decide_eq_false_iff_not,
    not_or, not_lt, gt_iff_lt]

theorem KCurveIsLinear_iff (data : CurvesFloatData α) :
    KCurveIsLinear data = true ↔
      ∀ j : Nat, j < MAX_NODES_IN_CURVE →
        |data.CurveR (j : Int) - expected j| ≤ LINEAR_CURVES_EPSILON := by
  unfold KCurveIsLinear
  simp only [List.all_eq_true, List.mem_range, Bool.not_eq_true', decide_eq_false_iff_not,
    not_lt, gt_iff_lt]

/-- A blend of two samples, each within `eps` of its abscissa, is within `eps`
of the blend of the abscissas. -/
theorem blend_close (eps rest e0 e1 t0 t1 : α) (h0 : |t0 - e0| ≤ eps) (h1 : |t1 - e1| ≤ eps)
    (hr0 : 0 ≤ rest) (hr1 : rest ≤ 1) :
    |((1 - rest) * e0 + rest * e1) - (t0 + (t1 - t0) * rest)| ≤ eps := by
  obtain ⟨a0, b0⟩ := abs_le.mp h0
  obtain ⟨a1, b1⟩ := abs_le.mp h1
  have hr2 : 0 ≤ 1 - rest := by linarith
  rw [abs_le]
  constructor
  · nlinarith [mul_nonneg hr2 (sub_nonneg.mpr b0), mul_nonneg hr0 (sub_nonneg.mpr b1)]
  · nlinarith [mul_nonneg hr2 (by linarith : (0 : α) ≤ t0 - e0 + eps),
      mul_nonneg hr0 (by linarith : (0 : α) ≤ t1 - e1 + eps)]

/-- On a table within `LINEAR_CURVES_EPSILON` of the identity at every node,
`flerp` is within that tolerance of the identity from `1.0e-9f` up to 1 and at
0, and within the tolerance plus `1.0e-9f` below the threshold. -/
theorem flerp_near_identity [FloorRing α] (T : Int → α)
    (hT : ∀ j : Nat, j < MAX_NODES_IN_CURVE → |T (j : Int) - expected j| ≤ LINEAR_CURVES_EPSILON)
    (v : α) (hv0 : 0 ≤ v) (hv1 : v ≤ 1) :
    ((v = 0 ∨ 9007199 / 9007199254740992 ≤ v) → |v - (flerp T v).1| ≤ LINEAR_CURVES_EPSILON) ∧
    |v - (flerp T v).1| ≤ LINEAR_CURVES_EPSILON + 9007199 / 9007199254740992 := by
  have hN2 : (((MAX_NODES_IN_CURVE - 1 : Nat) : Int) : α) = 32768 := by
    simp [MAX_NODES_IN_CURVE]
  have hexp : ∀ j : Nat, (expected j : α) = (j : α) / 32768 := by
    intro j
    simp [expected, MAX_NODES_IN_CURVE]
  have hnode : ∀ z : Int, 0 ≤ z → z ≤ 32768 → |T z - (z : α) / 32768| ≤ LINEAR_CURVES_EPSILON := by
    intro z hz0 hz1
    have h := hT z.toNat (by simp only [MAX_NODES_IN_CURVE]; omega)
    rw [hexp, Int.toNat_of_nonneg hz0] at h
    have e : ((z.toNat : Nat) : α) = (z : α) := by
      have : ((z.toNat : Int) : α) = (z : α) := by rw [Int.toNat_of_nonneg hz0]
      rw [← this, Int.cast_natCast]
    rw [e] at h
    exact h
  have heps : (0 : α) ≤ LINEAR_CURVES_EPSILON := by
    unfold LINEAR_CURVES_EPSILON; norm_num
  have main : 9007199 / 9007199254740992 ≤ v → |v - (flerp T v).1| ≤ LINEAR_CURVES_EPSILON := by
    intro h1
    have h1' : ¬ v < 9007199 / 9007199254740992 := not_lt.mpr h1
    by_cases h2 : v ≥ 1
    · have hv : v = 1 := le_antisymm hv1 h2
      simp only [flerp, if_neg h1', if_pos h2]
      have h := hnode 32768 (by norm_num) (by norm_num)
      rw [abs_sub_comm]
      have e : ((MAX_NODES_IN_CURVE : Int) - 1) = 32768 := by simp [MAX_NODES_IN_CURVE]
      rw [e, hv]
      simpa using h
    · obtain ⟨c0, c1, c2, c3, c4⟩ := flerp_cells v h1 (not_le.mp h2)
      simp only [flerp, if_neg h1', if_neg h2, hN2, _cmsQuickFloor]
      have hfr0 : 0 ≤ v * 32768 - (Int.floor (v * 32768) : α) :=
        sub_nonneg.mpr (Int.floor_le _)
      have hfr1 : v * 32768 - (Int.floor (v * 32768) : α) ≤ 1 := by
        have := Int.lt_floor_add_one (v * 32768)
        linarith
      have hc : 0 ≤ Int.ceil (v * 32768) :=
        le_trans c0 (Int.floor_le_ceil _)
      have hb := blend_close LINEAR_CURVES_EPSILON
        (v * 32768 - (Int.floor (v * 32768) : α))
        ((Int.floor (v * 32768) : α) / 32768) ((Int.ceil (v * 32768) : α) / 32768)
        (T (Int.floor (v * 32768))) (T (Int.ceil (v * 32768)))
        (hnode _ c0 (by omega)) (hnode _ hc c2) hfr0 hfr1
      have e : (1 - (v * 32768 - (Int.floor (v * 32768) : α))) * ((Int.floor (v * 32768) : α) / 32768)
          + (v * 32768 - (Int.floor (v * 32768) : α)) * ((Int.ceil (v * 32768) : α) / 32768) = v := by
        rcases eq_or_lt_of_le hfr0 with hz | hpos
        · have hz' := hz.symm
          rw [c4 hz', hz']
          have e2 : (Int.floor (v * 32768) : α) = v * 32768 := by linarith
          rw [e2]
          ring
        · have e2 : ((Int.floor (v * 32768) + 1 : Int) : α)
              = (Int.floor (v * 32768) : α) + 1 := by
            rw [Int.cast_add, Int.cast_one]
          rw [c3 hpos, e2]
          generalize (Int.floor (v * 32768) : α) = F
          ring
      rw [e] at hb
      exact hb
  constructor
  · rintro (h | h)
    · subst h
      have h0 : (0 : α) < 9007199 / 9007199254740992 := by norm_num
      simp only [flerp, if_pos h0]
      have h := hnode 0 (le_refl 0) (by norm_num)
      rw [abs_sub_comm]
      simpa using h
    · exact main h
  · by_cases h1 : v < 9007199 / 9007199254740992
    · simp only [flerp, if_pos h1]
      have h := hnode 0 (le_refl 0) (by norm_num)
      simp only [Int.cast_zero, zero_div, sub_zero] at h
      obtain ⟨a0, b0⟩ := abs_le.mp h
      rw [abs_le]
      constructor <;> linarith
    · have := main (not_lt.mp h1)
      have h0 : (0 : α) ≤ 9007199 / 9007199254740992 := by norm_num
      linarith

/-- On a table within `eps` of the identity at every node, the float32
evaluation of `flerp` stays within `eps + 2^-22` of the identity. -/
theorem flerp32_near_identity (T : Int → ℚ) (eps : ℚ) (he1 : eps ≤ 1 / 65536)
    (hT : ∀ j : Nat, j < MAX_NODES_IN_CURVE → |T (j : Int) - expected j| ≤ eps)
    (v : ℚ) (hv0 : 0 ≤ v) (hv1 : v ≤ 1) :
    |v - (flerp32 T v).1| ≤ eps + 1 / 4194304 := by
  have hN2 : (((MAX_NODES_IN_CURVE - 1 : Nat) : Int) : ℚ) = 32768 := by
    simp [MAX_NODES_IN_CURVE]
  have hexp : ∀ j : Nat, (expected j : ℚ) = (j : ℚ) / 32768 := by
    intro j
    simp [expected, MAX_NODES_IN_CURVE]
  have hnode : ∀ z : Int, 0 ≤ z → z ≤ 32768 → |T z - (z : ℚ) / 32768| ≤ eps := by
    intro z hz0 hz1
    have h := hT z.toNat (by simp only [MAX_NODES_IN_CURVE]; omega)
    rw [hexp, Int.toNat_of_nonneg hz0] at h
    have e : ((z.toNat : Nat) : ℚ) = (z : ℚ) := by
      have : ((z.toNat : Int) : ℚ) = (z : ℚ) := by rw [Int.toNat_of_nonneg hz0]
      rw [← this, Int.cast_natCast]
    rw [e] at h
    exact h
  have he0 : 0 ≤ eps := le_trans (abs_nonneg _) (hnode 0 (le_refl 0) (by norm_num))
  by_cases h1 : v < 9007199 / 9007199254740992
  · simp only [flerp32, if_pos h1]
    have h := hnode 0 (le_refl 0) (by norm_num)
    simp only [Int.cast_zero, zero_div, sub_zero] at h
    obtain ⟨a0, b0⟩ := abs_le.mp h
    rw [abs_le]
    constructor <;> linarith
  · by_cases h2 : v ≥ 1
    · have hv : v = 1 := le_antisymm hv1 h2
      simp only [flerp32, if_neg h1, if_pos h2]
      have h := hnode 32768 (by norm_num) (by norm_num)
      have e : ((MAX_NODES_IN_CURVE : Int) - 1) = 32768 := by simp [MAX_NODES_IN_CURVE]
      rw [e, hv, abs_sub_comm]
      have h' : |T 32768 - 1| ≤ eps := by simpa using h
      linarith
    · have hv2 : v < 1 := not_le.mp h2
      simp only [flerp32, if_neg h1, if_neg h2, hN2, _cmsQuickFloor]
      -- the scaled input
      have hx0 : 0 ≤ v * 32768 := by positivity
      have hx1 : v * 32768 ≤ 2 ^ (15 : Int) := by
        norm_num
        linarith
      have hs0 := round32_nonneg _ hx0
      have hs1 := round32_le_two_pow _ 15 (by norm_num) hx0 hx1
      have hserr := round32_close (v * 32768) 32768 (by rw [abs_of_nonneg hx0]; linarith)
      generalize round32 (v * 32768) = s at hs0 hs1 hserr ⊢
      have hs1' : s ≤ 32768 := by
        norm_num at hs1
        exact hs1
      -- the cells
      have hk0 : 0 ≤ Int.floor s := Int.floor_nonneg.mpr hs0
      have hk1 : Int.ceil s ≤ 32768 := Int.ceil_le.mpr (by exact_mod_cast hs1')
      have hkc : Int.floor s ≤ Int.ceil s := Int.floor_le_ceil s
      have hre0 : 0 ≤ s - (Int.floor s : ℚ) := sub_nonneg.mpr (Int.floor_le s)
      have hre1 : s - (Int.floor s : ℚ) ≤ 1 := by linarith [Int.lt_floor_add_one s]
      have hy0 := hnode (Int.floor s) hk0 (by omega)
      have hy1 := hnode (Int.ceil s) (by omega) hk1
      have hb := blend_close eps (s - (Int.floor s : ℚ))
        ((Int.floor s : ℚ) / 32768) ((Int.ceil s : ℚ) / 32768)
        (T (Int.floor s)) (T (Int.ceil s)) hy0 hy1 hre0 hre1
      have hw : (1 - (s - (Int.floor s : ℚ))) * ((Int.floor s : ℚ) / 32768)
          + (s - (Int.floor s : ℚ)) * ((Int.ceil s : ℚ) / 32768) = s / 32768 := by
        rcases floor_ceil_cases s with ⟨hz, hc⟩ | ⟨_, hc⟩
        · rw [hc, hz]
          have e2 : (Int.floor s : ℚ) = s := by linarith
          rw [e2]
          ring
        · rw [hc]
          push_cast
          generalize (Int.floor s : ℚ) = F
          ring
      rw [hw] at hb
      have hdk : (Int.ceil s : ℚ) - (Int.floor s : ℚ) ≤ 1 := by
        rcases floor_ceil_cases s with ⟨_, hc⟩ | ⟨_, hc⟩
        · rw [hc]
          norm_num
        · rw [hc]
          push_cast
          linarith
      have hdk0 : 0 ≤ (Int.ceil s : ℚ) - (Int.floor s : ℚ) := by
        have : (Int.floor s : ℚ) ≤ (Int.ceil s : ℚ) := by exact_mod_cast hkc
        linarith
      have hk0q : (0 : ℚ) ≤ (Int.floor s : ℚ) := by exact_mod_cast hk0
      have hk1q : (Int.floor s : ℚ) ≤ 32768 := le_trans (Int.floor_le s) hs1'
      -- the rounded fraction
      have hrest0 := round32_nonneg _ hre0
      have hrest1 := round32_le_two_pow _ 0 (by norm_num) hre0 (by simpa using hre1)
      have hresterr := round32_close (s - (Int.floor s : ℚ)) 1
        (by rw [abs_of_nonneg hre0]; exact hre1)
      generalize round32 (s - (Int.floor s : ℚ)) = rest at hrest0 hrest1 hresterr ⊢
      have hrest1' : rest ≤ 1 := by simpa using hrest1
      generalize s - (Int.floor s : ℚ) = re at *
      generalize T (Int.floor s) = y0 at *
      generalize T (Int.ceil s) = y1 at *
      generalize (Int.ceil s : ℚ) = K1 at *
      generalize (Int.floor s : ℚ) = K0 at *
      obtain ⟨y0l, y0u⟩ := abs_le.mp hy0
      obtain ⟨y1l, y1u⟩ := abs_le.mp hy1
      -- the difference of the samples
      have hD : |y1 - y0| ≤ 1 / 16384 := by
        rw [abs_le]
        constructor <;> linarith
      have haerr := round32_close (y1 - y0) (1 / 16384) hD
      have ha : |round32 (y1 - y0)| ≤ 1 / 8192 := by
        obtain ⟨l1, u1⟩ := abs_le.mp haerr
        obtain ⟨l2, u2⟩ := abs_le.mp hD
        rw [abs_le]
        constructor <;> norm_num at l1 u1 ⊢ <;> linarith
      generalize round32 (y1 - y0) = a at haerr ha ⊢
      -- the product
      have hrestabs : |rest| ≤ 1 := by
        rw [abs_of_nonneg hrest0]
        exact hrest1'
      have hp : |a * rest| ≤ 1 / 8192 := by
        have := abs_mul_le_mul a rest (1 / 8192) 1 ha hrestabs
        linarith
      have hberr := round32_close (a * rest) (1 / 8192) hp
      have hbabs : |round32 (a * rest)| ≤ 1 / 4096 := by
        obtain ⟨l1, u1⟩ := abs_le.mp hberr
        obtain ⟨l2, u2⟩ := abs_le.mp hp
        rw [abs_le]
        constructor <;> norm_num at l1 u1 ⊢ <;> linarith
      generalize round32 (a * rest) = b at hberr hbabs ⊢
      -- the sum
      have hsum : |y0 + b| ≤ 2 := by
        obtain ⟨l2, u2⟩ := abs_le.mp hbabs
        rw [abs_le]
        constructor <;> linarith
      have hrerr := round32_close (y0 + b) 2 hsum
      generalize round32 (y0 + b) = r at hrerr ⊢
      -- the two products of errors
      have ht3 : |(a - (y1 - y0)) * rest| ≤ (1 / 16384 / 16777216 + 1 / 2 ^ 150) * 1 :=
        abs_mul_le_mul _ _ _ _ haerr hrestabs
      have ht4 : |(y1 - y0) * (rest - re)| ≤ 1 / 16384 * (1 / 16777216 + 1 / 2 ^ 150) :=
        abs_mul_le_mul _ _ _ _ hD hresterr
      obtain ⟨t3l, t3u⟩ := abs_le.mp ht3
      obtain ⟨t4l, t4u⟩ := abs_le.mp ht4
      obtain ⟨rl, ru⟩ := abs_le.mp hrerr
      obtain ⟨bl, bu⟩ := abs_le.mp hberr
      obtain ⟨sl, su⟩ := abs_le.mp hserr
      obtain ⟨ql, qu⟩ := abs_le.mp hb
      have key : v - r = (v - s / 32768) + (s / 32768 - (y0 + (y1 - y0) * re))
          - (y1 - y0) * (rest - re) - (a - (y1 - y0)) * rest - (b - a * rest)
          - (r - (y0 + b)) := by ring
      rw [key, abs_le]
      constructor <;> norm_num at t3l t3u t4l t4u rl ru bl bu sl su ql qu ⊢ <;> linarith

theorem AllRGBCurvesAreLinear32_iff (data : CurvesFloatData ℚ) :
    AllRGBCurvesAreLinear32 data = true ↔
      ∀ j : Nat, j < MAX_NODES_IN_CURVE →
        |round32 (data.CurveR (j : Int) - expected j)| ≤ LINEAR_CURVES_EPSILON64 ∧
        |round32 (data.CurveG (j : Int) - expected j)| ≤ LINEAR_CURVES_EPSILON64 ∧
        |round32 (data.CurveB (j : Int) - expected j)| ≤ LINEAR_CURVES_EPSILON64 := by
  unfold AllRGBCurvesAreLinear32
  simp only [List.all_eq_true, List.mem_range, Bool.not_eq_true', decide_eq_false_iff_not,
    not_or, not_lt, gt_iff_lt]

theorem KCurveIsLinear32_iff (data : CurvesFloatData ℚ) :
    KCurveIsLinear32 data = true ↔
      ∀ j : Nat, j < MAX_NODES_IN_CURVE →
        |round32 (data.CurveR (j : Int) - expected j)| ≤ LINEAR_CURVES_EPSILON64 := by
  unfold KCurveIsLinear32
  simp only [List.all_eq_true, List.mem_range, Bool.not_eq_true', decide_eq_false_iff_not,
    not_lt, gt_iff_lt]

/-- A difference whose float32 rounding passes the comparison of the linearity
tests is at most `10^-5 + 10^-12` in magnitude. -/
theorem abs_le_of_round32_le (d : ℚ) (h : |round32 d| ≤ LINEAR_CURVES_EPSILON64) :
    |d| ≤ 1 / 100000 + 1 / 1000000000000 := by
  have e := round32_err d
  have t : |d| ≤ |round32 d| + |round32 d - d| := by
    have := abs_sub_abs_le_abs_sub d (round32 d)
    rw [abs_sub_comm d (round32 d)] at this
    linarith
  unfold LINEAR_CURVES_EPSILON64 at h
  generalize |d| = x at *
  generalize |round32 d| = y at *
  generalize |round32 d - _| = z at *
  norm_num at e h ⊢
  linarith

/-- The float32 evaluation of `flerp` on a table the float32 linearity test
accepts stays within `LINEAR_CURVES_EPSILON + 2.5 * 10^-7` of the identity. -/
theorem flerp32_near_identity_of_test (T : Int → ℚ)
    (hT : ∀ j : Nat, j < MAX_NODES_IN_CURVE →
      |round32 (T (j : Int) - expected j)| ≤ LINEAR_CURVES_EPSILON64)
    (v : ℚ) (hv0 : 0 ≤ v) (hv1 : v ≤ 1) :
    |v - (flerp32 T v).1| ≤ LINEAR_CURVES_EPSILON + 1 / 4000000 := by
  have h := flerp32_near_identity T (1 / 100000 + 1 / 1000000000000) (by norm_num)
    (fun j hj => abs_le_of_round32_le _ (hT j hj)) v hv0 hv1
  unfold LINEAR_CURVES_EPSILON
  refine le_trans h ?_
  norm_num

/-- C8 (amended): the identity shortcut against the table evaluator.  Over the
reals: when the linearity test accepts the composite curves
(`AllRGBCurvesAreLinear` for three channels, `KCurveIsLinear` for one), then
for every `v` in `[0, 1]` and every channel the copied value `v` differs from
`flerp` on that channel by at most `LINEAR_CURVES_EPSILON` when `v` is 0 or at
least `1.0e-9f`, and by at most `LINEAR_CURVES_EPSILON + 1.0e-9f` for every `v`
in `[0, 1]`.  In float32 arithmetic: when the float32 linearity test accepts
the curves, then for every `v` in `[0, 1]` and every channel `v` differs from
the float32 `flerp` by at most `LINEAR_CURVES_EPSILON + 2.5 * 10^-7`. -/
theorem identity_shortcut_within_tolerance [FloorRing α] (data : CurvesFloatData α) (v : α)
    (data32 : CurvesFloatData ℚ) (v32 : ℚ)
    (hv0 : 0 ≤ v) (hv1 : v ≤ 1) (hw0 : 0 ≤ v32) (hw1 : v32 ≤ 1) :
    (AllRGBCurvesAreLinear data = true →
      ((v = 0 ∨ 9007199 / 9007199254740992 ≤ v) →
        |v - (flerp data.CurveR v).1| ≤ LINEAR_CURVES_EPSILON ∧
        |v - (flerp data.CurveG v).1| ≤ LINEAR_CURVES_EPSILON ∧
        |v - (flerp data.CurveB v).1| ≤ LINEAR_CURVES_EPSILON) ∧
      |v - (flerp data.CurveR v).1| ≤ LINEAR_CURVES_EPSILON + 9007199 / 9007199254740992 ∧
      |v - (flerp data.CurveG v).1| ≤ LINEAR_CURVES_EPSILON + 9007199 / 9007199254740992 ∧
      |v - (flerp data.CurveB v).1| ≤ LINEAR_CURVES_EPSILON + 9007199 / 9007199254740992) ∧
    (KCurveIsLinear data = true →
      ((v = 0 ∨ 9007199 / 9007199254740992 ≤ v) →
        |v - (flerp data.CurveR v).1| ≤ LINEAR_CURVES_EPSILON) ∧
      |v - (flerp data.CurveR v).1| ≤ LINEAR_CURVES_EPSILON + 9007199 / 9007199254740992) ∧
    (AllRGBCurvesAreLinear32 data32 = true →
      |v32 - (flerp32 data32.CurveR v32).1| ≤ LINEAR_CURVES_EPSILON + 1 / 4000000 ∧
      |v32 - (flerp32 data32.CurveG v32).1| ≤ LINEAR_CURVES_EPSILON + 1 / 4000000 ∧
      |v32 - (flerp32 data32.CurveB v32).1| ≤ LINEAR_CURVES_EPSILON + 1 / 4000000) ∧
    (KCurveIsLinear32 data32 = true →
      |v32 - (flerp32 data32.CurveR v32).1| ≤ LINEAR_CURVES_EPSILON + 1 / 4000000) := by
  refine ⟨?_, ?_, ?_, ?_⟩
  · intro h
    rw [AllRGBCurvesAreLinear_iff] at h
    have hR := flerp_near_identity data.CurveR (fun j hj => (h j hj).1) v hv0 hv1
    have hG := flerp_near_identity data.CurveG (fun j hj => (h j hj).2.1) v hv0 hv1
    have hB := flerp_near_identity data.CurveB (fun j hj => (h j hj).2.2) v hv0 hv1
    exact ⟨fun hv => ⟨hR.1 hv, hG.1 hv, hB.1 hv⟩, hR.2, hG.2, hB.2⟩
  · intro h
    rw [KCurveIsLinear_iff] at h
    exact flerp_near_identity data.CurveR h v hv0 hv1
  · intro h
    rw [AllRGBCurvesAreLinear32_iff] at h
    exact ⟨flerp32_near_identity_of_test data32.CurveR (fun j hj => (h j hj).1) v32 hw0 hw1,
      flerp32_near_identity_of_test data32.CurveG (fun j hj => (h j hj).2.1) v32 hw0 hw1,
      flerp32_near_identity_of_test data32.CurveB (fun j hj => (h j hj).2.2) v32 hw0 hw1⟩
  · intro h
    rw [KCurveIsLinear32_iff] at h
    exact flerp32_near_identity_of_test data32.CurveR h v32 hw0 hw1

theorem identityCurves_linear (j : Nat) :
    |identityCurves.CurveR (j : Int) - expected j| ≤ (LINEAR_CURVES_EPSILON : ℚ) ∧
    |identityCurves.CurveG (j : Int) - expected j| ≤ (LINEAR_CURVES_EPSILON : ℚ) ∧
    |identityCurves.CurveB (j : Int) - expected j| ≤ (LINEAR_CURVES_EPSILON : ℚ) := by
  simp [identityCurves, expected, MAX_NODES_IN_CURVE, LINEAR_CURVES_EPSILON]


theorem identityCurves_linear32 (j : Nat) :
    |round32 (identityCurves.CurveR (j : Int) - expected j)| ≤ LINEAR_CURVES_EPSILON64 ∧
    |round32 (identityCurves.CurveG (j : Int) - expected j)| ≤ LINEAR_CURVES_EPSILON64 ∧
    |round32 (identityCurves.CurveB (j : Int) - expected j)| ≤ LINEAR_CURVES_EPSILON64 := by
  have e : (((j : Nat) : Int) : ℚ) / 32768 - (j : ℚ) / 32768 = 0 := by
    push_cast
    ring
  simp only [identityCurves, expected, MAX_NODES_IN_CURVE, LINEAR_CURVES_EPSILON64]
  norm_num [e, round32_zero]

theorem dippedCurves_linear (j : Nat) :
    |dippedCurves.CurveR (j : Int) - expected j| ≤ (LINEAR_CURVES_EPSILON : ℚ) ∧
    |dippedCurves.CurveG (j : Int) - expected j| ≤ (LINEAR_CURVES_EPSILON : ℚ) ∧
    |dippedCurves.CurveB (j : Int) - expected j| ≤ (LINEAR_CURVES_EPSILON : ℚ) := by
  simp only [dippedCurves, expected, MAX_NODES_IN_CURVE, LINEAR_CURVES_EPSILON]
  rcases Nat.eq_zero_or_pos j with h | h
  · subst h
    norm_num [abs_of_pos]
  · have hj : ((j : Int) = 0) = False := by
      simp only [eq_iff_iff, iff_false]
      omega
    simp only [hj, if_false]
    norm_num

theorem bumpedCurves_linear (j : Nat) :
    |bumpedCurves.CurveR (j : Int) - expected j| ≤ (LINEAR_CURVES_EPSILON : ℚ) ∧
    |bumpedCurves.CurveG (j : Int) - expected j| ≤ (LINEAR_CURVES_EPSILON : ℚ) ∧
    |bumpedCurves.CurveB (j : Int) - expected j| ≤ (LINEAR_CURVES_EPSILON : ℚ) := by
  simp only [bumpedCurves, expected, MAX_NODES_IN_CURVE, LINEAR_CURVES_EPSILON]
  by_cases h1 : j = 4095
  · subst h1
    norm_num [abs_of_pos]
  · by_cases h2 : j = 4096
    · subst h2
      norm_num [abs_of_pos]
    · have e1 : ((j : Int) = 4095) = False := by
        simp only [eq_iff_iff, iff_false]
        omega
      have e2 : ((j : Int) = 4096) = False := by
        simp only [eq_iff_iff, iff_false]
        omega
      simp only [e1, e2, if_false]
      norm_num

theorem dippedCurves_linear32 (j : Nat) :
    |round32 (dippedCurves.CurveR (j : Int) - expected j)| ≤ LINEAR_CURVES_EPSILON64 ∧
    |round32 (dippedCurves.CurveG (j : Int) - expected j)| ≤ LINEAR_CURVES_EPSILON64 ∧
    |round32 (dippedCurves.CurveB (j : Int) - expected j)| ≤ LINEAR_CURVES_EPSILON64 := by
  have r0 : round32 (-(2748779 / 274877906944 : ℚ)) = -(2748779 / 274877906944) := by
    rw [round32_eval _ (-17) (-10995116) (by norm_num) (by norm_num [abs_of_pos])
      (by norm_num [abs_of_pos])
      (roundHalfEven_eval _ (-10995116) (-10995116) (by norm_num) (by norm_num) (by norm_num))]
    norm_num
  simp only [dippedCurves, expected, MAX_NODES_IN_CURVE, LINEAR_CURVES_EPSILON64]
  rcases Nat.eq_zero_or_pos j with h | h
  · subst h
    norm_num [r0, abs_of_pos]
  · have hj : ((j : Int) = 0) = False := by
      simp only [eq_iff_iff, iff_false]
      omega
    have e : (((j : Nat) : Int) : ℚ) / 32768 - (j : ℚ) / 32768 = 0 := by
      push_cast
      ring
    simp only [hj, if_false]
    norm_num [e, round32_zero]

theorem bumpedCurves_linear32 (j : Nat) :
    |round32 (bumpedCurves.CurveR (j : Int) - expected j)| ≤ LINEAR_CURVES_EPSILON64 ∧
    |round32 (bumpedCurves.CurveG (j : Int) - expected j)| ≤ LINEAR_CURVES_EPSILON64 ∧
    |round32 (bumpedCurves.CurveB (j : Int) - expected j)| ≤ LINEAR_CURVES_EPSILON64 := by
  have r0 : round32 ((1342 : ℚ) / 134217728) = 1342 / 134217728 := by
    rw [round32_eval _ (-17) 10993664 (by norm_num) (by norm_num [abs_of_pos])
      (by norm_num [abs_of_pos])
      (roundHalfEven_eval _ 10993664 10993664 (by norm_num) (by norm_num) (by norm_num))]
    norm_num
  have a1 : (1 : ℚ) / 8 - 2754 / 134217728 - 4095 / 32768 = 1342 / 134217728 := by norm_num
  have a2 : (1 : ℚ) / 8 + 1342 / 134217728 - 4096 / 32768 = 1342 / 134217728 := by norm_num
  simp only [bumpedCurves, expected, MAX_NODES_IN_CURVE, LINEAR_CURVES_EPSILON64]
  by_cases h1 : j = 4095
  · subst h1
    simp only [Nat.cast_ofNat, if_true, Nat.add_one_sub_one, a1, r0]
    norm_num [abs_of_pos]
  · by_cases h2 : j = 4096
    · subst h2
      have hne : ¬ ((4096 : Int) = 4095) := by decide
      simp only [Nat.cast_ofNat, if_neg hne, if_true, Nat.add_one_sub_one, a2, r0]
      norm_num [abs_of_pos]
    · have e1 : ((j : Int) = 4095) = False := by
        simp only [eq_iff_iff, iff_false]
        omega
      have e2 : ((j : Int) = 4096) = False := by
        simp only [eq_iff_iff, iff_false]
        omega
      have e : (((j : Nat) : Int) : ℚ) / 32768 - (j : ℚ) / 32768 = 0 := by
        push_cast
        ring
      simp only [e1, e2, if_false]
      norm_num [e, round32_zero]

/-- The float32 evaluation of `flerp` on `bumpedCurves` at the float32
`1/8 - 3 * 2^-27` (bits `0x3DFFFFFD`): the result is `1/8 + 1340 * 2^-27` (bits
`0x3E00029E`). -/
theorem flerp32_bumpedCurves :
    (flerp32 bumpedCurves.CurveR (1 / 8 - 3 / 134217728)).1 = 1 / 8 + 1340 / 134217728 := by
  have h1 : ¬ ((1 : ℚ) / 8 - 3 / 134217728 < 9007199 / 9007199254740992) := by norm_num
  have h2 : ¬ ((1 : ℚ) / 8 - 3 / 134217728 ≥ 1) := by norm_num
  have hN2 : (((MAX_NODES_IN_CURVE - 1 : Nat) : Int) : ℚ) = 32768 := by
    simp [MAX_NODES_IN_CURVE]
  simp only [flerp32, if_neg h1, if_neg h2, hN2, _cmsQuickFloor]
  have es : round32 (((1 : ℚ) / 8 - 3 / 134217728) * 32768) = 16777213 / 4096 := by
    rw [round32_eval _ 11 16777213 (by norm_num) (by norm_num [abs_of_pos])
      (by norm_num [abs_of_pos])
      (roundHalfEven_eval _ 16777213 16777213 (by norm_num) (by norm_num) (by norm_num))]
    norm_num
  rw [es]
  have ef : Int.floor ((16777213 : ℚ) / 4096) = 4095 := by
    rw [Int.floor_eq_iff]
    constructor <;> norm_num
  have ec : Int.ceil ((16777213 : ℚ) / 4096) = 4096 := by
    rw [Int.ceil_eq_iff]
    constructor <;> norm_num
  rw [ef, ec]
  have er : round32 ((16777213 : ℚ) / 4096 - ((4095 : Int) : ℚ)) = 4093 / 4096 := by
    rw [round32_eval _ (-1) 16764928 (by norm_num) (by norm_num [abs_of_pos])
      (by norm_num [abs_of_pos])
      (roundHalfEven_eval _ 16764928 16764928 (by norm_num) (by norm_num) (by norm_num))]
    norm_num
  rw [er]
  have ey0 : bumpedCurves.CurveR 4095 = 1 / 8 - 2754 / 134217728 := by
    simp [bumpedCurves]
  have ey1 : bumpedCurves.CurveR 4096 = 1 / 8 + 1342 / 134217728 := by
    simp [bumpedCurves]
  rw [ey0, ey1]
  have ea : round32 ((1 : ℚ) / 8 + 1342 / 134217728 - (1 / 8 - 2754 / 134217728)) = 1 / 32768 := by
    rw [round32_eval _ (-15) 8388608 (by norm_num) (by norm_num [abs_of_pos])
      (by norm_num [abs_of_pos])
      (roundHalfEven_eval _ 8388608 8388608 (by norm_num) (by norm_num) (by norm_num))]
    norm_num
  rw [ea]
  have eb : round32 ((1 : ℚ) / 32768 * (4093 / 4096)) = 4093 / 134217728 := by
    rw [round32_eval _ (-16) 16764928 (by norm_num) (by norm_num [abs_of_pos])
      (by norm_num [abs_of_pos])
      (roundHalfEven_eval _ 16764928 16764928 (by norm_num) (by norm_num) (by norm_num))]
    norm_num
  rw [eb]
  rw [round32_eval _ (-3) 8389278 (by norm_num) (by norm_num [abs_of_pos])
    (by norm_num [abs_of_pos])
    (roundHalfEven_eval _ 8389277 8389278 (by norm_num) (by norm_num) (by norm_num))]
  norm_num

/-- Witness for C8: the identity curves at `v = 1/2`, which both forms of both
linearity tests accept. -/
theorem identity_shortcut_within_tolerance_witness :
    AllRGBCurvesAreLinear identityCurves = true ∧ KCurveIsLinear identityCurves = true ∧
    AllRGBCurvesAreLinear32 identityCurves = true ∧ KCurveIsLinear32 identityCurves = true ∧
    |(1 / 2 : ℚ) - (flerp identityCurves.CurveR (1 / 2)).1| ≤ LINEAR_CURVES_EPSILON ∧
    |(1 / 2 : ℚ) - (flerp identityCurves.CurveG (1 / 2)).1| ≤ LINEAR_CURVES_EPSILON ∧
    |(1 / 2 : ℚ) - (flerp identityCurves.CurveB (1 / 2)).1| ≤ LINEAR_CURVES_EPSILON ∧
    |(1 / 2 : ℚ) - (flerp32 identityCurves.CurveR (1 / 2)).1|
      ≤ LINEAR_CURVES_EPSILON + 1 / 4000000 ∧
    |(1 / 2 : ℚ) - (flerp32 identityCurves.CurveG (1 / 2)).1|
      ≤ LINEAR_CURVES_EPSILON + 1 / 4000000 ∧
    |(1 / 2 : ℚ) - (flerp32 identityCurves.CurveB (1 / 2)).1|
      ≤ LINEAR_CURVES_EPSILON + 1 / 4000000 :=
  have a1 : AllRGBCurvesAreLinear identityCurves = true :=
    (AllRGBCurvesAreLinear_iff identityCurves).mpr (fun j _ => identityCurves_linear j)
  have a2 : KCurveIsLinear identityCurves = true :=
    (KCurveIsLinear_iff identityCurves).mpr (fun j _ => (identityCurves_linear j).1)
  have a3 : AllRGBCurvesAreLinear32 identityCurves = true :=
    (AllRGBCurvesAreLinear32_iff identityCurves).mpr (fun j _ => identityCurves_linear32 j)
  have a4 : KCurveIsLinear32 identityCurves = true :=
    (KCurveIsLinear32_iff identityCurves).mpr (fun j _ => (identityCurves_linear32 j).1)
  have h := identity_shortcut_within_tolerance identityCurves (1 / 2) identityCurves (1 / 2)
    (by norm_num) (by norm_num) (by norm_num) (by norm_num)
  have hx := (h.1 a1).1 (Or.inr (by norm_num))
  have hy := h.2.2.1 a3
  ⟨a1, a2, a3, a4, hx.1, hx.2.1, hx.2.2, hy.1, hy.2.1, hy.2.2⟩

/-- C8 (counterexample): two tables of float32 samples that both linearity
tests accept, in exact and in float32 arithmetic, on which the copied value is
further than `LINEAR_CURVES_EPSILON` from what `flerp` returns.  On
`dippedCurves`, at the float32 `v = 2^-31`, below the guard `1.0e-9f`, `flerp`
returns `CurveR[0]`, the float32 nearest to `-0.00001`, without any arithmetic.
On `bumpedCurves`, at the float32 `v = 1/8 - 3 * 2^-27`, the float32 evaluation
returns `1/8 + 1340 * 2^-27`, at distance `1343 * 2^-27` from `v`, more than
`LINEAR_CURVES_EPSILON + 10^-9`. -/
theorem identity_shortcut_exceeds_tolerance :
    (AllRGBCurvesAreLinear dippedCurves = true ∧ KCurveIsLinear dippedCurves = true ∧
     AllRGBCurvesAreLinear32 dippedCurves = true ∧ KCurveIsLinear32 dippedCurves = true ∧
     (0 : ℚ) ≤ 1 / 2147483648 ∧ (1 / 2147483648 : ℚ) ≤ 1 ∧
     (flerp dippedCurves.CurveR (1 / 2147483648)).1 = -(10995116 / 1099511627776) ∧
     (flerp32 dippedCurves.CurveR (1 / 2147483648)).1 = -(10995116 / 1099511627776) ∧
     (LINEAR_CURVES_EPSILON : ℚ)
       < |(1 / 2147483648 : ℚ) - (flerp dippedCurves.CurveR (1 / 2147483648)).1| ∧
     (LINEAR_CURVES_EPSILON : ℚ)
       < |(1 / 2147483648 : ℚ) - (flerp32 dippedCurves.CurveR (1 / 2147483648)).1|) ∧
    (AllRGBCurvesAreLinear bumpedCurves = true ∧ KCurveIsLinear bumpedCurves = true ∧
     AllRGBCurvesAreLinear32 bumpedCurves = true ∧ KCurveIsLinear32 bumpedCurves = true ∧
     (0 : ℚ) ≤ 1 / 8 - 3 / 134217728 ∧ (1 / 8 - 3 / 134217728 : ℚ) ≤ 1 ∧
     (flerp32 bumpedCurves.CurveR (1 / 8 - 3 / 134217728)).1 = 1 / 8 + 1340 / 134217728 ∧
     (LINEAR_CURVES_EPSILON : ℚ) + 1 / 1000000000
       < |(1 / 8 - 3 / 134217728 : ℚ)
           - (flerp32 bumpedCurves.CurveR (1 / 8 - 3 / 134217728)).1|) := by
  have hg : (1 / 2147483648 : ℚ) < 9007199 / 9007199254740992 := by norm_num
  have hf : (flerp dippedCurves.CurveR (1 / 2147483648)).1 = -(10995116 / 1099511627776) := by
    simp only [flerp, if_pos hg]
    simp [dippedCurves]
  have hf32 : (flerp32 dippedCurves.CurveR (1 / 2147483648)).1
      = -(10995116 / 1099511627776) := by
    simp only [flerp32, if_pos hg]
    simp [dippedCurves]
  refine ⟨⟨(AllRGBCurvesAreLinear_iff dippedCurves).mpr (fun j _ => dippedCurves_linear j),
    (KCurveIsLinear_iff dippedCurves).mpr (fun j _ => (dippedCurves_linear j).1),
    (AllRGBCurvesAreLinear32_iff dippedCurves).mpr (fun j _ => dippedCurves_linear32 j),
    (KCurveIsLinear32_iff dippedCurves).mpr (fun j _ => (dippedCurves_linear32 j).1),
    by norm_num, by norm_num, hf, hf32, ?_, ?_⟩,
    ⟨(AllRGBCurvesAreLinear_iff bumpedCurves).mpr (fun j _ => bumpedCurves_linear j),
    (KCurveIsLinear_iff bumpedCurves).mpr (fun j _ => (bumpedCurves_linear j).1),
    (AllRGBCurvesAreLinear32_iff bumpedCurves).mpr (fun j _ => bumpedCurves_linear32 j),
    (KCurveIsLinear32_iff bumpedCurves).mpr (fun j _ => (bumpedCurves_linear32 j).1),
    by norm_num, by norm_num, flerp32_bumpedCurves, ?_⟩⟩
  · rw [hf]
    unfold LINEAR_CURVES_EPSILON
    norm_num [abs_of_pos]
  · rw [hf32]
    unfold LINEAR_CURVES_EPSILON
    norm_num [abs_of_pos]
  · rw [flerp32_bumpedCurves]
    unfold LINEAR_CURVES_EPSILON
    norm_num [abs_of_neg, abs_of_pos]


/-! ## Joining curves -/

/-- What `OptimizeFloatByJoiningCurves` returns once the formats, the stages
and the allocation have passed. -/
theorem OptimizeFloatByJoiningCurves_accepts (NOCACHE : Nat) (a : OptimizerArgs α)
    (Src : cmsPipeline α) (hLut : a.Lut = some Src)
    (hf1 : a.InputFormat.T_FLOAT = true) (hf2 : a.OutputFormat.T_FLOAT = true)
    (hb1 : a.InputFormat.T_BYTES = 4) (hb2 : a.OutputFormat.T_BYTES = 4)
    (hch : a.InputFormat.T_CHANNELS = a.OutputFormat.T_CHANNELS)
    (h13 : a.InputFormat.T_CHANNELS = 1 ∨ a.InputFormat.T_CHANNELS = 3)
    (hst : ∀ mpe ∈ Src.stages, mpe = cmsStageSignature.cmsSigCurveSetElemType) :
    OptimizeFloatByJoiningCurves true NOCACHE a
      = some (true,
          { a with
            dwFlags := (a.dwFlags ||| NOCACHE) &&& (0xFFFFFFFF ^^^ cmsFLAGS_CAN_CHANGE_FORMATTER)
            UserData := UserData.curves (ComputeCompositeCurves a.InputFormat.T_CHANNELS Src)
            FreeUserData := FreeUserDataFn.free_aligned
            TransformFn :=
              if a.InputFormat.T_CHANNELS = 1 then
                (if KCurveIsLinear (ComputeCompositeCurves a.InputFormat.T_CHANNELS Src)
                 then TransformFn.FastFloatGrayIdentity
                 else TransformFn.FastEvaluateFloatGrayCurves)
              else
                (if AllRGBCurvesAreLinear (ComputeCompositeCurves a.InputFormat.T_CHANNELS Src)
                 then TransformFn.FastFloatRGBIdentity
                 else TransformFn.FastEvaluateFloatRGBCurves) }) := by
  have hany : Src.stages.any
      (fun mpe => decide (mpe ≠ cmsStageSignature.cmsSigCurveSetElemType)) = false := by
    rw [List.any_eq_false]
    intro mpe hm
    simp [hst mpe hm]
  have h13' : ¬ (a.InputFormat.T_CHANNELS ≠ 1 ∧ a.InputFormat.T_CHANNELS ≠ 3) := by
    rcases h13 with h | h <;> simp [h]
  unfold OptimizeFloatByJoiningCurves
  simp only [hf1, hf2, hb1, hb2, hLut, hany, h13']
  simp [hch]

/-- The entries `ComputeCompositeCurves` writes: node `j` of the curve of
channel `c` is output `c` of the pipeline on the diagonal input `j/32768`. -/
theorem ComputeCompositeCurves_curve (Src : cmsPipeline α) (nChan : Nat)
    (hn : nChan = 1 ∨ nChan = 3) (c j : Nat) (hc : c < nChan) :
    (ComputeCompositeCurves nChan Src).curve c (j : Int)
      = (Src.eval (List.replicate nChan ((j : α) / 32768))).getD c 0 := by
  have hN : (((MAX_NODES_IN_CURVE - 1 : Nat)) : α) = 32768 := by
    simp [MAX_NODES_IN_CURVE]
  rcases hn with hn | hn
  · subst hn
    have hc0 : c = 0 := by omega
    subst hc0
    simp only [CurvesFloatData.curve, ComputeCompositeCurves, hN, Int.cast_natCast]
  · subst hn
    have h3 : ¬ ((3 : Nat) = 1) := by decide
    interval_cases c
    · simp only [CurvesFloatData.curve, ComputeCompositeCurves, hN, Int.cast_natCast]
    · simp only [CurvesFloatData.curve, ComputeCompositeCurves, hN, Int.cast_natCast, if_neg h3]
    · simp only [CurvesFloatData.curve, ComputeCompositeCurves, hN, Int.cast_natCast, if_neg h3]

theorem linear_of_identity_table (T : Int → α)
    (h : ∀ j : Nat, j < MAX_NODES_IN_CURVE → T (j : Int) = (j : α) / 32768)
    (j : Nat) (hj : j < MAX_NODES_IN_CURVE) :
    |T (j : Int) - expected j| ≤ LINEAR_CURVES_EPSILON := by
  rw [h j hj]
  simp [expected, MAX_NODES_IN_CURVE, LINEAR_CURVES_EPSILON]

theorem written_FastFloatRGBIdentity {β : Type} (Input : List (β × β × β)) (n : Nat)
    (px : β × β × β) (hn : Input[n]? = some px) :
    written (FastFloatRGBIdentity Input) n 0 = some px.1 ∧
    written (FastFloatRGBIdentity Input) n 1 = some px.2.1 ∧
    written (FastFloatRGBIdentity Input) n 2 = some px.2.2 := by
  simp [written, FastFloatRGBIdentity, List.getElem?_map, hn]

theorem written_FastFloatGrayIdentity {β : Type} (Input : List β) (n : Nat) (k : β)
    (hn : Input[n]? = some k) :
    written (FastFloatGrayIdentity Input) n 0 = some k := by
  simp [written, FastFloatGrayIdentity, List.getElem?_map, hn]

/-- C9: identity curves are replaced by a memory copy.  When the formats are
accepted, the pipeline holds curve sets only, the allocation succeeds and each
composite table satisfies `Curve[j] = j/32768` for `j` in `0..32768`, then
`OptimizeFloatByJoiningCurves` returns TRUE and installs
`FastFloatGrayIdentity` for one channel and `FastFloatRGBIdentity` for three;
and these evaluators write, for every pixel of the buffer and every colour
channel, the input sample itself, whatever its value. -/
theorem OptimizeFloatByJoiningCurves_identity_is_copy (NOCACHE : Nat) (a : OptimizerArgs α)
    (Src : cmsPipeline α) (hLut : a.Lut = some Src)
    (hf1 : a.InputFormat.T_FLOAT = true) (hf2 : a.OutputFormat.T_FLOAT = true)
    (hb1 : a.InputFormat.T_BYTES = 4) (hb2 : a.OutputFormat.T_BYTES = 4)
    (hch : a.InputFormat.T_CHANNELS = a.OutputFormat.T_CHANNELS)
    (h13 : a.InputFormat.T_CHANNELS = 1 ∨ a.InputFormat.T_CHANNELS = 3)
    (hst : ∀ mpe ∈ Src.stages, mpe = cmsStageSignature.cmsSigCurveSetElemType)
    (hid : ∀ c : Nat, c < a.InputFormat.T_CHANNELS → ∀ j : Nat, j < MAX_NODES_IN_CURVE →
      (ComputeCompositeCurves a.InputFormat.T_CHANNELS Src).curve c (j : Int) = (j : α) / 32768) :
    (∃ a', OptimizeFloatByJoiningCurves true NOCACHE a = some (true, a') ∧
      (a.InputFormat.T_CHANNELS = 3 → a'.TransformFn = TransformFn.FastFloatRGBIdentity) ∧
      (a.InputFormat.T_CHANNELS = 1 → a'.TransformFn = TransformFn.FastFloatGrayIdentity)) ∧
    (∀ (Input : List (α × α × α)) (n : Nat) (px : α × α × α), Input[n]? = some px →
      written (FastFloatRGBIdentity Input) n 0 = some px.1 ∧
      written (FastFloatRGBIdentity Input) n 1 = some px.2.1 ∧
      written (FastFloatRGBIdentity Input) n 2 = some px.2.2) ∧
    (∀ (Input : List α) (n : Nat) (k : α), Input[n]? = some k →
      written (FastFloatGrayIdentity Input) n 0 = some k) := by
  refine ⟨⟨_, OptimizeFloatByJoiningCurves_accepts NOCACHE a Src hLut hf1 hf2 hb1 hb2 hch h13 hst,
    ?_, ?_⟩, written_FastFloatRGBIdentity, written_FastFloatGrayIdentity⟩
  · intro h3
    have hlin : AllRGBCurvesAreLinear (ComputeCompositeCurves a.InputFormat.T_CHANNELS Src)
        = true := by
      rw [AllRGBCurvesAreLinear_iff]
      intro j hj
      exact ⟨linear_of_identity_table _ (hid 0 (by omega)) j hj,
        linear_of_identity_table _ (hid 1 (by omega)) j hj,
        linear_of_identity_table _ (hid 2 (by omega)) j hj⟩
    rw [h3] at hlin
    simp [h3, hlin]
  · intro h1
    have hlin : KCurveIsLinear (ComputeCompositeCurves a.InputFormat.T_CHANNELS Src) = true := by
      rw [KCurveIsLinear_iff]
      intro j hj
      exact linear_of_identity_table _ (hid 0 (by omega)) j hj
    rw [h1] at hlin
    simp [h1, hlin]

theorem identityPipeline_composite (c : Nat) (hc : c < 3) (j : Nat) :
    (ComputeCompositeCurves 3 identityPipeline).curve c (j : Int) = (j : ℚ) / 32768 := by
  rw [ComputeCompositeCurves_curve identityPipeline 3 (Or.inr rfl) c j hc]
  interval_cases c <;> simp [identityPipeline, List.replicate]

/-- Witness for C9: the identity pipeline with float RGB formats. -/
theorem OptimizeFloatByJoiningCurves_identity_is_copy_witness :
    (∃ a', OptimizeFloatByJoiningCurves true 64 identityArgs = some (true, a') ∧
      (identityArgs.InputFormat.T_CHANNELS = 3 →
        a'.TransformFn = TransformFn.FastFloatRGBIdentity) ∧
      (identityArgs.InputFormat.T_CHANNELS = 1 →
        a'.TransformFn = TransformFn.FastFloatGrayIdentity)) ∧
    (∀ (Input : List (ℚ × ℚ × ℚ)) (n : Nat) (px : ℚ × ℚ × ℚ), Input[n]? = some px →
      written (FastFloatRGBIdentity Input) n 0 = some px.1 ∧
      written (FastFloatRGBIdentity Input) n 1 = some px.2.1 ∧
      written (FastFloatRGBIdentity Input) n 2 = some px.2.2) ∧
    (∀ (Input : List ℚ) (n : Nat) (k : ℚ), Input[n]? = some k →
      written (FastFloatGrayIdentity Input) n 0 = some k) :=
  OptimizeFloatByJoiningCurves_identity_is_copy 64 identityArgs identityPipeline rfl rfl rfl rfl rfl
    rfl (Or.inr rfl) (by simp [identityPipeline])
    (fun c hc j _ => identityPipeline_composite c hc j)


/-- At the abscissa of node `j` the table evaluator returns the sample of
node `j`. -/
theorem flerp_at_node [FloorRing α] (T : Int → α) (j : Nat) (hj : j < MAX_NODES_IN_CURVE) :
    (flerp T ((j : α) / 32768)).1 = T (j : Int) := by
  have hN2 : (((MAX_NODES_IN_CURVE - 1 : Nat) : Int) : α) = 32768 := by
    simp [MAX_NODES_IN_CURVE]
  have hj' : j ≤ 32768 := by
    simp only [MAX_NODES_IN_CURVE] at hj
    omega
  rcases Nat.eq_zero_or_pos j with h0 | hpos
  · subst h0
    have h : ((0 : Nat) : α) / 32768 < 9007199 / 9007199254740992 := by norm_num
    simp only [flerp, if_pos h]
    rfl
  · have h1 : ¬ ((j : α) / 32768 < 9007199 / 9007199254740992) := by
      rw [not_lt, div_le_div_iff (by norm_num) (by norm_num)]
      have : (1 : α) ≤ (j : α) := by exact_mod_cast hpos
      linarith
    rcases Nat.eq_or_lt_of_le hj' with he | hlt
    · subst he
      have h2 : ((32768 : Nat) : α) / 32768 ≥ 1 := by norm_num
      simp only [flerp, if_neg h1, if_pos h2]
      congr 1
    · have h2 : ¬ ((j : α) / 32768 ≥ 1) := by
        rw [ge_iff_le, not_le, div_lt_one (by norm_num)]
        exact_mod_cast hlt
      have e : (j : α) / 32768 * 32768 = ((j : Int) : α) := by
        rw [Int.cast_natCast]
        field_simp
      simp only [flerp, if_neg h1, if_neg h2, hN2, _cmsQuickFloor, e, Int.floor_intCast,
        Int.ceil_intCast, sub_self, mul_zero, add_zero]

/-- C10: composite curves are exact at their sample abscissas.  For every
pipeline, `nChan` in `{1, 3}`, channel `c < nChan` and `j` in `0..32768`, the
table built by `ComputeCompositeCurves` holds at node `j` the output `c` of the
pipeline on the diagonal input `j/32768`, and `flerp` on that table at
`j/32768` returns that value; so for a pipeline that acts channel by channel
`FastEvaluateFloatRGBCurves` on the composite curves agrees with the pipeline
on every pixel whose components are sample abscissas, and the composite curve
queried at `x = 0.5` (node 16384) returns the pipeline value at 0.5. -/
theorem ComputeCompositeCurves_exact_at_nodes [FloorRing α] (Src : cmsPipeline α) (nChan : Nat)
    (hn : nChan = 1 ∨ nChan = 3) (c j : Nat) (hc : c < nChan) (hj : j < MAX_NODES_IN_CURVE) :
    (ComputeCompositeCurves nChan Src).curve c (j : Int)
      = (Src.eval (List.replicate nChan ((j : α) / 32768))).getD c 0 ∧
    (flerp ((ComputeCompositeCurves nChan Src).curve c) ((j : α) / 32768)).1
      = (Src.eval (List.replicate nChan ((j : α) / 32768))).getD c 0 ∧
    (∀ g0 g1 g2 : α → α, (∀ x y z : α, Src.eval [x, y, z] = [g0 x, g1 y, g2 z]) →
      ∀ jr jg jb : Nat, jr < MAX_NODES_IN_CURVE → jg < MAX_NODES_IN_CURVE →
        jb < MAX_NODES_IN_CURVE →
        FastEvaluateFloatRGBCurves (ComputeCompositeCurves 3 Src)
            [((jr : α) / 32768, (jg : α) / 32768, (jb : α) / 32768)]
          = [Src.eval [(jr : α) / 32768, (jg : α) / 32768, (jb : α) / 32768]]) ∧
    (flerp ((ComputeCompositeCurves nChan Src).curve c) (1 / 2)).1
      = (Src.eval (List.replicate nChan (1 / 2))).getD c 0 := by
  have hcurve := fun j => ComputeCompositeCurves_curve Src nChan hn c j hc
  refine ⟨hcurve j, ?_, ?_, ?_⟩
  · rw [flerp_at_node _ j hj, hcurve j]
  · intro g0 g1 g2 hsep jr jg jb hr hg hb
    have hR := ComputeCompositeCurves_curve Src 3 (Or.inr rfl) 0 jr (by decide)
    have hG := ComputeCompositeCurves_curve Src 3 (Or.inr rfl) 1 jg (by decide)
    have hB := ComputeCompositeCurves_curve Src 3 (Or.inr rfl) 2 jb (by decide)
    simp only [CurvesFloatData.curve] at hR hG hB
    simp only [FastEvaluateFloatRGBCurves, List.map_cons, List.map_nil,
      flerp_at_node _ jr hr, flerp_at_node _ jg hg, flerp_at_node _ jb hb, hR, hG, hB]
    simp [List.replicate, hsep]
  · have e : (1 : α) / 2 = ((16384 : Nat) : α) / 32768 := by norm_num
    rw [e, flerp_at_node _ 16384 (by decide), hcurve 16384]

/-- Witness for C10: the squaring pipeline, three channels, channel 1, node
16384. -/
theorem ComputeCompositeCurves_exact_at_nodes_witness :
    ((ComputeCompositeCurves 3 squarePipeline).curve 1 ((16384 : Nat) : Int)
      = (squarePipeline.eval (List.replicate 3 (((16384 : Nat) : ℚ) / 32768))).getD 1 0 ∧
    (flerp ((ComputeCompositeCurves 3 squarePipeline).curve 1) (((16384 : Nat) : ℚ) / 32768)).1
      = (squarePipeline.eval (List.replicate 3 (((16384 : Nat) : ℚ) / 32768))).getD 1 0 ∧
    (∀ g0 g1 g2 : ℚ → ℚ, (∀ x y z : ℚ, squarePipeline.eval [x, y, z] = [g0 x, g1 y, g2 z]) →
      ∀ jr jg jb : Nat, jr < MAX_NODES_IN_CURVE → jg < MAX_NODES_IN_CURVE →
        jb < MAX_NODES_IN_CURVE →
        FastEvaluateFloatRGBCurves (ComputeCompositeCurves 3 squarePipeline)
            [((jr : ℚ) / 32768, (jg : ℚ) / 32768, (jb : ℚ) / 32768)]
          = [squarePipeline.eval [(jr : ℚ) / 32768, (jg : ℚ) / 32768, (jb : ℚ) / 32768]]) ∧
    (flerp ((ComputeCompositeCurves 3 squarePipeline).curve 1) (1 / 2)).1
      = (squarePipeline.eval (List.replicate 3 (1 / 2))).getD 1 0) ∧
    (squarePipeline.eval (List.replicate 3 (1 / 2))).getD 1 0 = 1 / 4 :=
  ⟨ComputeCompositeCurves_exact_at_nodes squarePipeline 3 (Or.inr rfl) 1 16384 (by decide)
      (by decide),
    by simp [squarePipeline, List.replicate]; norm_num⟩


/-! ## The full-CLUT optimizers -/

/-- The two ways `OptimizeCLUTRGBTransform` returns: FALSE with nothing
touched, or TRUE after every test has passed. -/
theorem OptimizeCLUTRGBTransform_some {β : Type} (env : Lcms2Calls β) (a : OptimizerArgs β)
    (o : OptimizeOutcome β) (h : OptimizeCLUTRGBTransform env a = some o) :
    (o.ret = false ∧ o.args = a ∧ o.freedOriginal = false) ∨
    (o.ret = true ∧ o.freedOriginal = true ∧
      (∃ L, a.Lut = some L ∧
        ∀ mpe ∈ L.stages, mpe ≠ cmsStageSignature.cmsSigNamedColorElemType) ∧
      a.InputFormat.T_FLOAT = true ∧ a.OutputFormat.T_FLOAT = true ∧
      a.InputFormat.T_BYTES = 4 ∧ a.OutputFormat.T_BYTES = 4 ∧
      a.InputFormat.T_COLORSPACE = PT_RGB ∧ a.OutputFormat.T_COLORSPACE = PT_RGB ∧
      o.args.dwFlags = a.dwFlags &&& (0xFFFFFFFF ^^^ cmsFLAGS_CAN_CHANGE_FORMATTER) ∧
      o.args.TransformFn = TransformFn.FloatCLUTEval ∧
      o.args.FreeUserData = FreeUserDataFn._cmsFree ∧
      o.args.InputFormat = a.InputFormat ∧ o.args.OutputFormat = a.OutputFormat) := by
  unfold OptimizeCLUTRGBTransform at h
  split at h
  · simp only [Option.some.injEq] at h
    subst h
    exact Or.inl ⟨rfl, rfl, rfl⟩
  · rename_i L hL
    split_ifs at h with h1 h2 h3 h4 h5 h6 h7 h8
    all_goals try (simp only [Option.some.injEq] at h; subst h; exact Or.inl ⟨rfl, rfl, rfl⟩)
    · dsimp only at h
      split at h
      · simp only [Option.some.injEq] at h
        subst h
        exact Or.inl ⟨rfl, rfl, rfl⟩
      · simp only [Option.some.injEq] at h
        subst h
        exact Or.inl ⟨rfl, rfl, rfl⟩
    · dsimp only at h
      split at h
      · simp only [Option.some.injEq] at h
        subst h
        exact Or.inl ⟨rfl, rfl, rfl⟩
      · simp only [Option.some.injEq] at h
        subst h
        refine Or.inr ⟨rfl, rfl, ⟨L, hL, ?_⟩, ?_, ?_, ?_, ?_, ?_, ?_, rfl, rfl, rfl, rfl, rfl⟩
        · intro mpe hm hne
          apply h5
          rw [List.any_eq_true]
          exact ⟨mpe, hm, by simp [hne]⟩
        · exact (by simpa using h1 : a.InputFormat.T_FLOAT = true ∧ a.OutputFormat.T_FLOAT = true).1
        · exact (by simpa using h1 : a.InputFormat.T_FLOAT = true ∧ a.OutputFormat.T_FLOAT = true).2
        · simp only [not_or, not_not] at h2
          exact h2.1
        · simp only [not_or, not_not] at h2
          exact h2.2
        · simpa using h3
        · simpa using h4

/-- What `OptimizeCLUTRGBTransform` does once every test on the arguments has
passed, by the outcome of the calls into lcms2. -/
theorem OptimizeCLUTRGBTransform_passed {β : Type} (env : Lcms2Calls β) (a : OptimizerArgs β)
    (L : cmsPipeline β) (hL : a.Lut = some L)
    (hf1 : a.InputFormat.T_FLOAT = true) (hf2 : a.OutputFormat.T_FLOAT = true)
    (hb1 : a.InputFormat.T_BYTES = 4) (hb2 : a.OutputFormat.T_BYTES = 4)
    (hc1 : a.InputFormat.T_COLORSPACE = PT_RGB) (hc2 : a.OutputFormat.T_COLORSPACE = PT_RGB)
    (hst : ∀ mpe ∈ L.stages, mpe ≠ cmsStageSignature.cmsSigNamedColorElemType) :
    OptimizeCLUTRGBTransform env a =
      if !env.cmsPipelineAllocOk then some ⟨false, a, false, false⟩
      else if !env.cmsStageAllocCLutFloatOk then none
      else
        match env.cmsStageSampleCLutFloat
            (env._cmsReasonableGridpointsByColorspace cmsColorSpaceSignature.cmsSigRgbData
              a.dwFlags) 3 (env.cmsPipelineOutputChannels L) L with
        | none => some ⟨false, a, false, true⟩
        | some Params =>
          if !env._cmsMallocZeroOk then some ⟨false, a, false, false⟩
          else
            some ⟨true,
              { a with
                Lut := some { stages := [cmsStageSignature.cmsSigCLutElemType]
                              eval := env.clutEval Params }
                TransformFn := TransformFn.FloatCLUTEval
                UserData := UserData.clut Params
                FreeUserData := FreeUserDataFn._cmsFree
                dwFlags := a.dwFlags &&& (0xFFFFFFFF ^^^ cmsFLAGS_CAN_CHANGE_FORMATTER) },
              true, false⟩ := by
  have hany : L.stages.any
      (fun mpe => decide (mpe = cmsStageSignature.cmsSigNamedColorElemType)) = false := by
    rw [List.any_eq_false]
    intro mpe hm
    simp [hst mpe hm]
  unfold OptimizeCLUTRGBTransform
  simp only [hL, hf1, hf2, hb1, hb2, hc1, hc2, hany]
  simp

/-- C11: `OptimizeCLUTRGBTransform` fails closed.  Whenever it returns FALSE,
the seven arguments hold what they held before the call and the original
pipeline has not been freed; and it does return FALSE, in that state, on a null
pipeline, and after the tests have passed when `cmsPipelineAlloc` fails, when
the resampling fails (the new pipeline is then freed) and when the allocation
of the private data fails. -/
theorem OptimizeCLUTRGBTransform_fails_closed {β : Type} (env : Lcms2Calls β)
    (a : OptimizerArgs β) :
    (∀ o, OptimizeCLUTRGBTransform env a = some o → o.ret = false →
      o.args = a ∧ o.freedOriginal = false) ∧
    (a.Lut = none → OptimizeCLUTRGBTransform env a = some ⟨false, a, false, false⟩) ∧
    (∀ L, a.Lut = some L →
      a.InputFormat.T_FLOAT = true → a.OutputFormat.T_FLOAT = true →
      a.InputFormat.T_BYTES = 4 → a.OutputFormat.T_BYTES = 4 →
      a.InputFormat.T_COLORSPACE = PT_RGB → a.OutputFormat.T_COLORSPACE = PT_RGB →
      (∀ mpe ∈ L.stages, mpe ≠ cmsStageSignature.cmsSigNamedColorElemType) →
      (env.cmsPipelineAllocOk = false →
        OptimizeCLUTRGBTransform env a = some ⟨false, a, false, false⟩) ∧
      (env.cmsPipelineAllocOk = true → env.cmsStageAllocCLutFloatOk = true →
        env.cmsStageSampleCLutFloat
          (env._cmsReasonableGridpointsByColorspace cmsColorSpaceSignature.cmsSigRgbData
            a.dwFlags) 3 (env.cmsPipelineOutputChannels L) L = none →
        OptimizeCLUTRGBTransform env a = some ⟨false, a, false, true⟩) ∧
      (env.cmsPipelineAllocOk = true → env.cmsStageAllocCLutFloatOk = true →
        (env.cmsStageSampleCLutFloat
          (env._cmsReasonableGridpointsByColorspace cmsColorSpaceSignature.cmsSigRgbData
            a.dwFlags) 3 (env.cmsPipelineOutputChannels L) L).isSome = true →
        env._cmsMallocZeroOk = false →
        OptimizeCLUTRGBTransform env a = some ⟨false, a, false, false⟩)) := by
  refine ⟨?_, ?_, ?_⟩
  · intro o h hret
    rcases OptimizeCLUTRGBTransform_some env a o h with h1 | h1
    · exact ⟨h1.2.1, h1.2.2⟩
    · rw [h1.1] at hret
      exact absurd hret (by decide)
  · intro hL
    simp [OptimizeCLUTRGBTransform, hL]
  · intro L hL hf1 hf2 hb1 hb2 hc1 hc2 hst
    have hp := OptimizeCLUTRGBTransform_passed env a L hL hf1 hf2 hb1 hb2 hc1 hc2 hst
    refine ⟨?_, ?_, ?_⟩
    · intro h1
      rw [hp]
      simp [h1]
    · intro h1 h2 h3
      rw [hp]
      simp [h1, h2, h3]
    · intro h1 h2 h3 h4
      rw [hp]
      obtain ⟨P, hP⟩ := Option.isSome_iff_exists.mp h3
      simp [h1, h2, hP, h4]

/-- C14: the conditions of `OptimizeCLUTRGBTransform`.  It returns TRUE only
if `*Lut` is non-null, both formats are floating point with 4-byte samples,
both colour spaces are RGB and no stage is a named-colour stage; and whenever
one of these conditions fails it returns FALSE. -/
theorem OptimizeCLUTRGBTransform_true_only_if {β : Type} (env : Lcms2Calls β)
    (a : OptimizerArgs β) :
    (∀ o, OptimizeCLUTRGBTransform env a = some o → o.ret = true →
      (∃ L, a.Lut = some L ∧
        ∀ mpe ∈ L.stages, mpe ≠ cmsStageSignature.cmsSigNamedColorElemType) ∧
      a.InputFormat.T_FLOAT = true ∧ a.OutputFormat.T_FLOAT = true ∧
      a.InputFormat.T_BYTES = 4 ∧ a.OutputFormat.T_BYTES = 4 ∧
      a.InputFormat.T_COLORSPACE = PT_RGB ∧ a.OutputFormat.T_COLORSPACE = PT_RGB) ∧
    ((a.Lut = none ∨
      a.InputFormat.T_FLOAT = false ∨ a.OutputFormat.T_FLOAT = false ∨
      a.InputFormat.T_BYTES ≠ 4 ∨ a.OutputFormat.T_BYTES ≠ 4 ∨
      a.InputFormat.T_COLORSPACE ≠ PT_RGB ∨ a.OutputFormat.T_COLORSPACE ≠ PT_RGB ∨
      (∃ L, a.Lut = some L ∧
        ∃ mpe ∈ L.stages, mpe = cmsStageSignature.cmsSigNamedColorElemType)) →
      ∃ o, OptimizeCLUTRGBTransform env a = some o ∧ o.ret = false) := by
  constructor
  · intro o h hret
    rcases OptimizeCLUTRGBTransform_some env a o h with h1 | h1
    · rw [h1.1] at hret
      exact absurd hret (by decide)
    · obtain ⟨_, _, hL, hf1, hf2, hb1, hb2, hc1, hc2, _⟩ := h1
      exact ⟨hL, hf1, hf2, hb1, hb2, hc1, hc2⟩
  · intro hfail
    refine ⟨⟨false, a, false, false⟩, ?_, rfl⟩
    unfold OptimizeCLUTRGBTransform
    cases hLut : a.Lut with
    | none => rfl
    | some L =>
      rcases hfail with h | h | h | h | h | h | h | ⟨L', hL', mpe, hm, he⟩
      · rw [hLut] at h
        exact absurd h (by simp)
      · simp [h]
      · simp [h]
      · simp [h]
      · simp only [h]
        split_ifs <;> first | rfl | tauto
      · simp only [h]
        split_ifs <;> rfl
      · simp only [h]
        split_ifs <;> rfl
      · rw [hLut] at hL'
        cases hL'
        have hany : L.stages.any
            (fun mpe => decide (mpe = cmsStageSignature.cmsSigNamedColorElemType)) = true := by
          rw [List.any_eq_true]
          exact ⟨mpe, hm, by simp [he]⟩
        simp only [hany]
        split_ifs <;> rfl

/-- When `OptimizeCLUTCMYKTransform` returns TRUE, the flags are the incoming
ones masked with the complement of `cmsFLAGS_CAN_CHANGE_FORMATTER`. -/
theorem OptimizeCLUTCMYKTransform_flags {β : Type} (env : Lcms2Calls β) (a : OptimizerArgs β)
    (o : OptimizeOutcome β) (h : OptimizeCLUTCMYKTransform env a = some o)
    (hret : o.ret = true) :
    o.args.dwFlags = a.dwFlags &&& (0xFFFFFFFF ^^^ cmsFLAGS_CAN_CHANGE_FORMATTER) := by
  unfold OptimizeCLUTCMYKTransform at h
  split at h
  · simp only [Option.some.injEq] at h
    subst h
    exact Bool.noConfusion hret
  · split_ifs at h with h1 h2 h3 h4 h5 h6 h7
    all_goals try dsimp only at h
    all_goals first
      | (simp only [Option.some.injEq] at h
         subst h
         exact Bool.noConfusion hret)
      | (split at h <;> simp only [Option.some.injEq] at h <;> subst h <;>
          first | exact Bool.noConfusion hret | rfl)

/-- Masking a 32-bit word with the complement of `cmsFLAGS_CAN_CHANGE_FORMATTER`
clears bit 25 and keeps every other bit. -/
theorem testBit_clear_CAN_CHANGE_FORMATTER (f i : Nat) (hf : f < 2 ^ 32) :
    (f &&& (0xFFFFFFFF ^^^ cmsFLAGS_CAN_CHANGE_FORMATTER)).testBit i
      = (f.testBit i && decide (i ≠ 25)) := by
  have e1 : (0xFFFFFFFF : Nat) = 2 ^ 32 - 1 := by norm_num
  have e2 : cmsFLAGS_CAN_CHANGE_FORMATTER = 2 ^ 25 := by
    unfold cmsFLAGS_CAN_CHANGE_FORMATTER
    norm_num
  rw [Nat.testBit_and, Nat.testBit_xor, e1, e2, Nat.testBit_two_pow_sub_one, Nat.testBit_two_pow]
  by_cases h32 : i < 32
  · by_cases h25 : i = 25
    · subst h25
      simp
    · have h25' : ¬ (25 = i) := fun h => h25 h.symm
      simp [h32, h25, h25']
  · have hlt : f < 2 ^ i :=
      lt_of_lt_of_le hf (Nat.pow_le_pow_right (by decide) (by omega))
    simp [Nat.testBit_lt_two_pow hlt]

/-! ## The conditions of the join-curves optimizer -/

theorem OptimizeFloatByJoiningCurves_rejects_formats {β : Type} [LinearOrderedField β]
    (mallocOk : Bool) (NOCACHE : Nat) (a : OptimizerArgs β)
    (h : a.InputFormat.T_FLOAT = false ∨ a.OutputFormat.T_FLOAT = false ∨
      a.InputFormat.T_BYTES ≠ 4 ∨ a.OutputFormat.T_BYTES ≠ 4 ∨
      a.InputFormat.T_CHANNELS ≠ a.OutputFormat.T_CHANNELS ∨
      (a.InputFormat.T_CHANNELS ≠ 1 ∧ a.InputFormat.T_CHANNELS ≠ 3)) :
    OptimizeFloatByJoiningCurves mallocOk NOCACHE a = some (false, a) := by
  unfold OptimizeFloatByJoiningCurves
  rcases h with h | h | h | h | h | h
  · simp [h]
  · simp [h]
  · simp [h]
  · simp only [h]
    split_ifs <;> first | rfl | tauto
  · simp only [h]
    split_ifs <;> rfl
  · simp only [h]
    split_ifs <;> rfl

theorem OptimizeFloatByJoiningCurves_passed {β : Type} [LinearOrderedField β]
    (mallocOk : Bool) (NOCACHE : Nat) (a : OptimizerArgs β)
    (hf1 : a.InputFormat.T_FLOAT = true) (hf2 : a.OutputFormat.T_FLOAT = true)
    (hb1 : a.InputFormat.T_BYTES = 4) (hb2 : a.OutputFormat.T_BYTES = 4)
    (hch : a.InputFormat.T_CHANNELS = a.OutputFormat.T_CHANNELS)
    (h13 : a.InputFormat.T_CHANNELS = 1 ∨ a.InputFormat.T_CHANNELS = 3) :
    OptimizeFloatByJoiningCurves mallocOk NOCACHE a =
      match a.Lut with
      | none => none
      | some Src =>
        if Src.stages.any (fun mpe => decide (mpe ≠ cmsStageSignature.cmsSigCurveSetElemType)) then
          some (false, a)
        else if !mallocOk then none
        else
          some (true,
            { a with
              dwFlags := (a.dwFlags ||| NOCACHE) &&& (0xFFFFFFFF ^^^ cmsFLAGS_CAN_CHANGE_FORMATTER)
              UserData := UserData.curves (ComputeCompositeCurves a.InputFormat.T_CHANNELS Src)
              FreeUserData := FreeUserDataFn.free_aligned
              TransformFn :=
                if a.InputFormat.T_CHANNELS = 1 then
                  (if KCurveIsLinear (ComputeCompositeCurves a.InputFormat.T_CHANNELS Src)
                   then TransformFn.FastFloatGrayIdentity
                   else TransformFn.FastEvaluateFloatGrayCurves)
                else
                  (if AllRGBCurvesAreLinear (ComputeCompositeCurves a.InputFormat.T_CHANNELS Src)
                   then TransformFn.FastFloatRGBIdentity
                   else TransformFn.FastEvaluateFloatRGBCurves) }) := by
  have h13' : ¬ (a.InputFormat.T_CHANNELS ≠ 1 ∧ a.InputFormat.T_CHANNELS ≠ 3) := by
    rcases h13 with h | h <;> simp [h]
  unfold OptimizeFloatByJoiningCurves
  simp only [hf1, hf2, hb1, hb2, h13']
  simp [hch]

/-- The two ways `OptimizeFloatByJoiningCurves` returns: FALSE with nothing
touched, or TRUE after every test has passed. -/
theorem OptimizeFloatByJoiningCurves_some {β : Type} [LinearOrderedField β]
    (mallocOk : Bool) (NOCACHE : Nat) (a : OptimizerArgs β) (r : Bool × OptimizerArgs β)
    (h : OptimizeFloatByJoiningCurves mallocOk NOCACHE a = some r) :
    r = (false, a) ∨
    (r.1 = true ∧
      a.InputFormat.T_FLOAT = true ∧ a.OutputFormat.T_FLOAT = true ∧
      a.InputFormat.T_BYTES = 4 ∧ a.OutputFormat.T_BYTES = 4 ∧
      a.InputFormat.T_CHANNELS = a.OutputFormat.T_CHANNELS ∧
      (a.InputFormat.T_CHANNELS = 1 ∨ a.InputFormat.T_CHANNELS = 3) ∧
      (∃ Src, a.Lut = some Src ∧
        ∀ mpe ∈ Src.stages, mpe = cmsStageSignature.cmsSigCurveSetElemType) ∧
      r.2.dwFlags = (a.dwFlags ||| NOCACHE) &&& (0xFFFFFFFF ^^^ cmsFLAGS_CAN_CHANGE_FORMATTER)) := by
  by_cases hrej : a.InputFormat.T_FLOAT = false ∨ a.OutputFormat.T_FLOAT = false ∨
      a.InputFormat.T_BYTES ≠ 4 ∨ a.OutputFormat.T_BYTES ≠ 4 ∨
      a.InputFormat.T_CHANNELS ≠ a.OutputFormat.T_CHANNELS ∨
      (a.InputFormat.T_CHANNELS ≠ 1 ∧ a.InputFormat.T_CHANNELS ≠ 3)
  · rw [OptimizeFloatByJoiningCurves_rejects_formats mallocOk NOCACHE a hrej] at h
    exact Or.inl (Option.some.inj h).symm
  · simp only [not_or, Bool.not_eq_false, not_not, not_and] at hrej
    obtain ⟨hf1, hf2, hb1, hb2, hch, h13⟩ := hrej
    have h13' : a.InputFormat.T_CHANNELS = 1 ∨ a.InputFormat.T_CHANNELS = 3 := by
      by_cases h1 : a.InputFormat.T_CHANNELS = 1
      · exact Or.inl h1
      · exact Or.inr (h13 h1)
    rw [OptimizeFloatByJoiningCurves_passed mallocOk NOCACHE a hf1 hf2 hb1 hb2 hch h13'] at h
    cases hL : a.Lut with
    | none =>
      rw [hL] at h
      exact absurd h (by simp)
    | some Src =>
      rw [hL] at h
      dsimp only at h
      by_cases hany : Src.stages.any
          (fun mpe => decide (mpe ≠ cmsStageSignature.cmsSigCurveSetElemType)) = true
      · rw [if_pos hany] at h
        exact Or.inl (Option.some.inj h).symm
      · rw [if_neg hany] at h
        cases hm : mallocOk with
        | false =>
          rw [hm] at h
          exact absurd h (by simp)
        | true =>
          rw [hm] at h
          simp only [Bool.not_true, Bool.false_eq_true, if_false, Option.some.injEq] at h
          subst h
          refine Or.inr ⟨rfl, hf1, hf2, hb1, hb2, hch, h13', ⟨Src, rfl, ?_⟩, rfl⟩
          intro mpe hmem
          by_contra hne
          apply hany
          rw [List.any_eq_true]
          exact ⟨mpe, hmem, by simp [hne]⟩

/-- What `OptimizeCLUTCMYKTransform` does once every test on the arguments has
passed, by the outcome of the calls into lcms2. -/
theorem OptimizeCLUTCMYKTransform_passed {β : Type} (env : Lcms2Calls β) (a : OptimizerArgs β)
    (L : cmsPipeline β) (hL : a.Lut = some L)
    (hf1 : a.InputFormat.T_FLOAT = true) (hf2 : a.OutputFormat.T_FLOAT = true)
    (hb1 : a.InputFormat.T_BYTES = 4) (hb2 : a.OutputFormat.T_BYTES = 4)
    (hc1 : a.InputFormat.T_COLORSPACE = PT_CMYK)
    (hst : ∀ mpe ∈ L.stages, mpe ≠ cmsStageSignature.cmsSigNamedColorElemType) :
    OptimizeCLUTCMYKTransform env a =
      if !env.cmsPipelineAllocOk then some ⟨false, a, false, false⟩
      else if !env.cmsStageAllocCLutFloatOk then none
      else
        match env.cmsStageSampleCLutFloat
            (env._cmsReasonableGridpointsByColorspace cmsColorSpaceSignature.cmsSigRgbData
              a.dwFlags) 4 (env.cmsPipelineOutputChannels L) L with
        | none => some ⟨false, a, false, true⟩
        | some Params =>
          if !env._cmsMallocZeroOk then some ⟨false, a, false, false⟩
          else
            some ⟨true,
              { a with
                Lut := some { stages := [cmsStageSignature.cmsSigCLutElemType]
                              eval := env.clutEval Params }
                TransformFn := TransformFn.FloatCMYKCLUTEval
                UserData := UserData.clut Params
                FreeUserData := FreeUserDataFn._cmsFree
                dwFlags := a.dwFlags &&& (0xFFFFFFFF ^^^ cmsFLAGS_CAN_CHANGE_FORMATTER) },
              true, false⟩ := by
  have hany : L.stages.any
      (fun mpe => decide (mpe = cmsStageSignature.cmsSigNamedColorElemType)) = false := by
    rw [List.any_eq_false]
    intro mpe hm
    simp [hst mpe hm]
  unfold OptimizeCLUTCMYKTransform
  simp only [hL, hf1, hf2, hb1, hb2, hc1, hany]
  simp
  try rfl

/-- C18: the flag effect of a successful match.  When `OptimizeCLUTRGBTransform`
or `OptimizeCLUTCMYKTransform` returns TRUE, bit 25 (`CAN_CHANGE_FORMATTER`,
`0x02000000`) of `*dwFlags` is cleared and every other bit is the incoming one;
when `OptimizeFloatByJoiningCurves` returns TRUE, bit 25 is cleared, the bits
of `NOCACHE` are set and every other bit is the incoming one.  And each of the
three does return TRUE, with these flags, once its tests on the arguments have
passed and the calls into lcms2 have succeeded. -/
theorem success_flag_effect {β : Type} [LinearOrderedField β] (env : Lcms2Calls β)
    (mallocOk : Bool) (NOCACHE : Nat) (a : OptimizerArgs β)
    (hflags : a.dwFlags < 2 ^ 32) (hN : NOCACHE < 2 ^ 32) (hN25 : NOCACHE.testBit 25 = false) :
    cmsFLAGS_CAN_CHANGE_FORMATTER = 0x02000000 ∧
    (∀ o, OptimizeCLUTRGBTransform env a = some o → o.ret = true →
      ∀ i, o.args.dwFlags.testBit i = if i = 25 then false else a.dwFlags.testBit i) ∧
    (∀ o, OptimizeCLUTCMYKTransform env a = some o → o.ret = true →
      ∀ i, o.args.dwFlags.testBit i = if i = 25 then false else a.dwFlags.testBit i) ∧
    (∀ a', OptimizeFloatByJoiningCurves mallocOk NOCACHE a = some (true, a') →
      (∀ i, a'.dwFlags.testBit i =
        if i = 25 then false else if NOCACHE.testBit i then true else a.dwFlags.testBit i) ∧
      a'.dwFlags &&& NOCACHE = NOCACHE) ∧
    (∀ L P, a.Lut = some L →
      a.InputFormat.T_FLOAT = true → a.OutputFormat.T_FLOAT = true →
      a.InputFormat.T_BYTES = 4 → a.OutputFormat.T_BYTES = 4 →
      a.InputFormat.T_COLORSPACE = PT_RGB → a.OutputFormat.T_COLORSPACE = PT_RGB →
      (∀ mpe ∈ L.stages, mpe ≠ cmsStageSignature.cmsSigNamedColorElemType) →
      env.cmsPipelineAllocOk = true → env.cmsStageAllocCLutFloatOk = true →
      env.cmsStageSampleCLutFloat
        (env._cmsReasonableGridpointsByColorspace cmsColorSpaceSignature.cmsSigRgbData
          a.dwFlags) 3 (env.cmsPipelineOutputChannels L) L = some P →
      env._cmsMallocZeroOk = true →
      ∃ o, OptimizeCLUTRGBTransform env a = some o ∧ o.ret = true ∧
        o.args.dwFlags = a.dwFlags &&& (0xFFFFFFFF ^^^ cmsFLAGS_CAN_CHANGE_FORMATTER)) ∧
    (∀ L P, a.Lut = some L →
      a.InputFormat.T_FLOAT = true → a.OutputFormat.T_FLOAT = true →
      a.InputFormat.T_BYTES = 4 → a.OutputFormat.T_BYTES = 4 →
      a.InputFormat.T_COLORSPACE = PT_CMYK →
      (∀ mpe ∈ L.stages, mpe ≠ cmsStageSignature.cmsSigNamedColorElemType) →
      env.cmsPipelineAllocOk = true → env.cmsStageAllocCLutFloatOk = true →
      env.cmsStageSampleCLutFloat
        (env._cmsReasonableGridpointsByColorspace cmsColorSpaceSignature.cmsSigRgbData
          a.dwFlags) 4 (env.cmsPipelineOutputChannels L) L = some P →
      env._cmsMallocZeroOk = true →
      ∃ o, OptimizeCLUTCMYKTransform env a = some o ∧ o.ret = true ∧
        o.args.dwFlags = a.dwFlags &&& (0xFFFFFFFF ^^^ cmsFLAGS_CAN_CHANGE_FORMATTER)) ∧
    (∀ Src, a.Lut = some Src →
      a.InputFormat.T_FLOAT = true → a.OutputFormat.T_FLOAT = true →
      a.InputFormat.T_BYTES = 4 → a.OutputFormat.T_BYTES = 4 →
      a.InputFormat.T_CHANNELS = a.OutputFormat.T_CHANNELS →
      (a.InputFormat.T_CHANNELS = 1 ∨ a.InputFormat.T_CHANNELS = 3) →
      (∀ mpe ∈ Src.stages, mpe = cmsStageSignature.cmsSigCurveSetElemType) →
      ∃ a', OptimizeFloatByJoiningCurves true NOCACHE a = some (true, a') ∧
        a'.dwFlags
          = (a.dwFlags ||| NOCACHE) &&& (0xFFFFFFFF ^^^ cmsFLAGS_CAN_CHANGE_FORMATTER)) := by
  refine ⟨rfl, ?_, ?_, ?_, ?_, ?_, ?_⟩
  · intro o h hret i
    rcases OptimizeCLUTRGBTransform_some env a o h with h1 | h1
    · rw [h1.1] at hret
      exact absurd hret (by decide)
    · obtain ⟨_, _, _, _, _, _, _, _, _, hfl, _⟩ := h1
      rw [hfl, testBit_clear_CAN_CHANGE_FORMATTER _ _ hflags]
      by_cases h25 : i = 25 <;> simp [h25]
  · intro o h hret i
    rw [OptimizeCLUTCMYKTransform_flags env a o h hret,
      testBit_clear_CAN_CHANGE_FORMATTER _ _ hflags]
    by_cases h25 : i = 25 <;> simp [h25]
  · intro a' h
    have hfl : a'.dwFlags
        = (a.dwFlags ||| NOCACHE) &&& (0xFFFFFFFF ^^^ cmsFLAGS_CAN_CHANGE_FORMATTER) := by
      rcases OptimizeFloatByJoiningCurves_some mallocOk NOCACHE a _ h with h1 | h1
      · exact Bool.noConfusion (congrArg Prod.fst h1)
      · exact h1.2.2.2.2.2.2.2.2
    have hor : a.dwFlags ||| NOCACHE < 2 ^ 32 := Nat.or_lt_two_pow hflags hN
    have hbit : ∀ i, a'.dwFlags.testBit i =
        if i = 25 then false else if NOCACHE.testBit i then true else a.dwFlags.testBit i := by
      intro i
      rw [hfl, testBit_clear_CAN_CHANGE_FORMATTER _ _ hor, Nat.testBit_or]
      by_cases h25 : i = 25
      · simp [h25]
      · cases hn : NOCACHE.testBit i <;> simp [h25]
    refine ⟨hbit, ?_⟩
    apply Nat.eq_of_testBit_eq
    intro i
    rw [Nat.testBit_and, hbit i]
    by_cases h25 : i = 25
    · subst h25
      simp [hN25]
    · cases hn : NOCACHE.testBit i <;> simp [h25]
  · intro L P hL hf1 hf2 hb1 hb2 hc1 hc2 hst e1 e2 e3 e4
    rw [OptimizeCLUTRGBTransform_passed env a L hL hf1 hf2 hb1 hb2 hc1 hc2 hst]
    simp only [e1, e2, e3, e4, Bool.not_true, Bool.false_eq_true, if_false]
    exact ⟨_, rfl, rfl, rfl⟩
  · intro L P hL hf1 hf2 hb1 hb2 hc1 hst e1 e2 e3 e4
    rw [OptimizeCLUTCMYKTransform_passed env a L hL hf1 hf2 hb1 hb2 hc1 hst]
    simp only [e1, e2, e3, e4, Bool.not_true, Bool.false_eq_true, if_false]
    exact ⟨_, rfl, rfl, rfl⟩
  · intro Src hL hf1 hf2 hb1 hb2 hch h13 hst
    rw [OptimizeFloatByJoiningCurves_accepts NOCACHE a Src hL hf1 hf2 hb1 hb2 hch h13 hst]
    exact ⟨_, rfl, rfl⟩

/-- Witness for C18: the three optimizers return TRUE on sample arguments with
the flags `0x02002000`, every call into lcms2 succeeding; the two CLUT
optimizers leave `0x00002000`, and `OptimizeFloatByJoiningCurves`, with
`NOCACHE = 0x0040`, leaves `0x00002040`. -/
theorem success_flag_effect_witness :
    (∃ o, OptimizeCLUTRGBTransform samplingSucceeds lockableArgs = some o ∧ o.ret = true ∧
      o.args.dwFlags = 0x00002000 ∧
      ∀ i, o.args.dwFlags.testBit i
        = if i = 25 then false else lockableArgs.dwFlags.testBit i) ∧
    (∃ o, OptimizeCLUTCMYKTransform recordingCalls lockableCmykArgs = some o ∧ o.ret = true ∧
      o.args.dwFlags = 0x00002000 ∧
      ∀ i, o.args.dwFlags.testBit i
        = if i = 25 then false else lockableCmykArgs.dwFlags.testBit i) ∧
    (∃ a', OptimizeFloatByJoiningCurves true 0x0040 lockableArgs = some (true, a') ∧
      a'.dwFlags = 0x00002040 ∧
      (∀ i, a'.dwFlags.testBit i =
        if i = 25 then false
        else if (0x0040 : Nat).testBit i then true else lockableArgs.dwFlags.testBit i) ∧
      a'.dwFlags &&& 0x0040 = 0x0040) :=
  have hR := success_flag_effect samplingSucceeds true 0x0040 lockableArgs (by decide)
    (by decide) (by decide)
  have hC := success_flag_effect recordingCalls true 0x0040 lockableCmykArgs (by decide)
    (by decide) (by decide)
  have h1 := hR.2.2.2.2.1 identityPipeline identityGrid2 rfl rfl rfl rfl rfl rfl rfl
    (by decide) rfl rfl rfl rfl
  have h2 := hC.2.2.2.2.2.1 clutPipeline _ rfl rfl rfl rfl rfl rfl (by decide) rfl rfl rfl rfl
  have h3 := hR.2.2.2.2.2.2 identityPipeline rfl rfl rfl rfl rfl rfl (Or.inr rfl) (by decide)
  ⟨h1.elim (fun o ho => ⟨o, ho.1, ho.2.1, ho.2.2.trans (by decide), hR.2.1 o ho.1 ho.2.1⟩),
   h2.elim (fun o ho => ⟨o, ho.1, ho.2.1, ho.2.2.trans (by decide), hC.2.2.1 o ho.1 ho.2.1⟩),
   h3.elim (fun a' ha => ⟨a', ha.1, ha.2.trans (by decide), (hR.2.2.2.1 a' ha.1).1,
     (hR.2.2.2.1 a' ha.1).2⟩)⟩


/-- C12 (the code at the failing input): with float RGB formats and a pipeline
of one curve-set stage, every test of `OptimizeFloatByJoiningCurves` passes;
when the allocation of the composite curves fails the call does not return
FALSE with its arguments untouched: it does not return at all (`malloc_aligned`
stores through the pointer it derived from NULL). -/
theorem OptimizeFloatByJoiningCurves_failed_allocation :
    identityArgs.InputFormat.T_FLOAT = true ∧ identityArgs.OutputFormat.T_FLOAT = true ∧
    identityArgs.InputFormat.T_BYTES = 4 ∧ identityArgs.OutputFormat.T_BYTES = 4 ∧
    identityArgs.InputFormat.T_CHANNELS = 3 ∧ identityArgs.OutputFormat.T_CHANNELS = 3 ∧
    identityArgs.Lut = some identityPipeline ∧
    identityPipeline.stages = [cmsStageSignature.cmsSigCurveSetElemType] ∧
    OptimizeFloatByJoiningCurves false 0x0040 identityArgs = none ∧
    OptimizeFloatByJoiningCurves false 0x0040 identityArgs ≠ some (false, identityArgs) := by
  have h : OptimizeFloatByJoiningCurves false 0x0040 identityArgs = none := by
    rw [OptimizeFloatByJoiningCurves_passed false 0x0040 identityArgs rfl rfl rfl rfl rfl
      (Or.inr rfl)]
    rfl
  refine ⟨rfl, rfl, rfl, rfl, rfl, rfl, rfl, rfl, h, ?_⟩
  rw [h]
  exact fun hc => Option.noConfusion hc

/-- C13 (amended): `OptimizeFloatByJoiningCurves` on a pipeline without stages.
It returns FALSE, leaving its arguments as they were, exactly when the formats
are not accepted (one of them is not floating point with 4-byte samples, or
the channel counts differ or are not 1 or 3); when the formats are accepted and
the allocation succeeds it returns TRUE. -/
theorem OptimizeFloatByJoiningCurves_no_stages {β : Type} [LinearOrderedField β]
    (mallocOk : Bool) (NOCACHE : Nat) (a : OptimizerArgs β) (Src : cmsPipeline β)
    (hL : a.Lut = some Src) (hs : Src.stages = []) :
    (OptimizeFloatByJoiningCurves mallocOk NOCACHE a = some (false, a) ↔
      (a.InputFormat.T_FLOAT = false ∨ a.OutputFormat.T_FLOAT = false ∨
       a.InputFormat.T_BYTES ≠ 4 ∨ a.OutputFormat.T_BYTES ≠ 4 ∨
       a.InputFormat.T_CHANNELS ≠ a.OutputFormat.T_CHANNELS ∨
       (a.InputFormat.T_CHANNELS ≠ 1 ∧ a.InputFormat.T_CHANNELS ≠ 3))) ∧
    (a.InputFormat.T_FLOAT = true → a.OutputFormat.T_FLOAT = true →
      a.InputFormat.T_BYTES = 4 → a.OutputFormat.T_BYTES = 4 →
      a.InputFormat.T_CHANNELS = a.OutputFormat.T_CHANNELS →
      (a.InputFormat.T_CHANNELS = 1 ∨ a.InputFormat.T_CHANNELS = 3) →
      ∃ a', OptimizeFloatByJoiningCurves true NOCACHE a = some (true, a')) := by
  have hst : ∀ mpe ∈ Src.stages, mpe = cmsStageSignature.cmsSigCurveSetElemType := by
    intro mpe hm
    rw [hs] at hm
    exact absurd hm (List.not_mem_nil mpe)
  constructor
  · constructor
    · intro h
      by_contra hrej
      simp only [not_or, Bool.not_eq_false, not_not, not_and] at hrej
      obtain ⟨hf1, hf2, hb1, hb2, hch, h13⟩ := hrej
      have h13' : a.InputFormat.T_CHANNELS = 1 ∨ a.InputFormat.T_CHANNELS = 3 := by
        by_cases h1 : a.InputFormat.T_CHANNELS = 1
        · exact Or.inl h1
        · exact Or.inr (h13 h1)
      rw [OptimizeFloatByJoiningCurves_passed mallocOk NOCACHE a hf1 hf2 hb1 hb2 hch h13', hL]
        at h
      simp only [hs, List.any_nil, Bool.false_eq_true, if_false] at h
      cases mallocOk with
      | false => exact absurd h (by simp)
      | true =>
        simp only [Bool.not_true, Bool.false_eq_true, if_false, Option.some.injEq,
          Prod.mk.injEq] at h
        exact Bool.noConfusion h.1
    · exact OptimizeFloatByJoiningCurves_rejects_formats mallocOk NOCACHE a
  · intro hf1 hf2 hb1 hb2 hch h13
    exact ⟨_, OptimizeFloatByJoiningCurves_accepts NOCACHE a Src hL hf1 hf2 hb1 hb2 hch h13 hst⟩

/-- Witness for C13: the pipeline without stages, float RGB formats. -/
theorem OptimizeFloatByJoiningCurves_no_stages_witness :
    (OptimizeFloatByJoiningCurves true 0x0040 emptyArgs = some (false, emptyArgs) ↔
      (emptyArgs.InputFormat.T_FLOAT = false ∨ emptyArgs.OutputFormat.T_FLOAT = false ∨
       emptyArgs.InputFormat.T_BYTES ≠ 4 ∨ emptyArgs.OutputFormat.T_BYTES ≠ 4 ∨
       emptyArgs.InputFormat.T_CHANNELS ≠ emptyArgs.OutputFormat.T_CHANNELS ∨
       (emptyArgs.InputFormat.T_CHANNELS ≠ 1 ∧ emptyArgs.InputFormat.T_CHANNELS ≠ 3))) ∧
    (emptyArgs.InputFormat.T_FLOAT = true → emptyArgs.OutputFormat.T_FLOAT = true →
      emptyArgs.InputFormat.T_BYTES = 4 → emptyArgs.OutputFormat.T_BYTES = 4 →
      emptyArgs.InputFormat.T_CHANNELS = emptyArgs.OutputFormat.T_CHANNELS →
      (emptyArgs.InputFormat.T_CHANNELS = 1 ∨ emptyArgs.InputFormat.T_CHANNELS = 3) →
      ∃ a', OptimizeFloatByJoiningCurves true 0x0040 emptyArgs = some (true, a')) :=
  OptimizeFloatByJoiningCurves_no_stages true 0x0040 emptyArgs emptyPipeline rfl rfl

/-- C13 (counterexample): the pipeline `emptyPipeline` has no stages; with
float RGB formats on both sides `OptimizeFloatByJoiningCurves` returns TRUE and
has changed `*dwFlags`, `*UserData`, `*FreeUserData` and `*TransformFn`. -/
theorem OptimizeFloatByJoiningCurves_accepts_no_stages :
    emptyArgs.Lut = some emptyPipeline ∧ emptyPipeline.stages = [] ∧
    ∃ a', OptimizeFloatByJoiningCurves true 0x0040 emptyArgs = some (true, a') ∧
      a'.dwFlags = 0x0040 ∧ emptyArgs.dwFlags = 0 ∧
      a'.FreeUserData = FreeUserDataFn.free_aligned ∧
      emptyArgs.FreeUserData = FreeUserDataFn.caller 0 := by
  refine ⟨rfl, rfl, _, OptimizeFloatByJoiningCurves_accepts 0x0040 emptyArgs emptyPipeline rfl
    rfl rfl rfl rfl rfl (Or.inr rfl) (by simp [emptyPipeline]), ?_, rfl, rfl, rfl⟩
  decide

/-- C15: the conditions of `OptimizeFloatByJoiningCurves`.  It returns TRUE
only if both formats are floating point with 4-byte samples, the channel counts
of the two formats agree and are 1 or 3, and every stage of the pipeline is a
curve-set stage; whenever one of these conditions fails it returns FALSE and
`*dwFlags`, `*UserData`, `*FreeUserData` and `*TransformFn` are as before. -/
theorem OptimizeFloatByJoiningCurves_true_only_if {β : Type} [LinearOrderedField β]
    (mallocOk : Bool) (NOCACHE : Nat) (a : OptimizerArgs β) :
    (∀ a', OptimizeFloatByJoiningCurves mallocOk NOCACHE a = some (true, a') →
      a.InputFormat.T_FLOAT = true ∧ a.OutputFormat.T_FLOAT = true ∧
      a.InputFormat.T_BYTES = 4 ∧ a.OutputFormat.T_BYTES = 4 ∧
      a.InputFormat.T_CHANNELS = a.OutputFormat.T_CHANNELS ∧
      (a.InputFormat.T_CHANNELS = 1 ∨ a.InputFormat.T_CHANNELS = 3) ∧
      ∃ Src, a.Lut = some Src ∧
        ∀ mpe ∈ Src.stages, mpe = cmsStageSignature.cmsSigCurveSetElemType) ∧
    ((a.InputFormat.T_FLOAT = false ∨ a.OutputFormat.T_FLOAT = false ∨
      a.InputFormat.T_BYTES ≠ 4 ∨ a.OutputFormat.T_BYTES ≠ 4 ∨
      a.InputFormat.T_CHANNELS ≠ a.OutputFormat.T_CHANNELS ∨
      (a.InputFormat.T_CHANNELS ≠ 1 ∧ a.InputFormat.T_CHANNELS ≠ 3)) →
      OptimizeFloatByJoiningCurves mallocOk NOCACHE a = some (false, a)) ∧
    (∀ Src, a.Lut = some Src →
      (∃ mpe ∈ Src.stages, mpe ≠ cmsStageSignature.cmsSigCurveSetElemType) →
      OptimizeFloatByJoiningCurves mallocOk NOCACHE a = some (false, a)) := by
  refine ⟨?_, OptimizeFloatByJoiningCurves_rejects_formats mallocOk NOCACHE a, ?_⟩
  · intro a' h
    rcases OptimizeFloatByJoiningCurves_some mallocOk NOCACHE a _ h with h1 | h1
    · exact Bool.noConfusion (congrArg Prod.fst h1)
    · obtain ⟨_, hf1, hf2, hb1, hb2, hch, h13, hL, _⟩ := h1
      exact ⟨hf1, hf2, hb1, hb2, hch, h13, hL⟩
  · intro Src hL ⟨mpe, hm, hne⟩
    by_cases hrej : a.InputFormat.T_FLOAT = false ∨ a.OutputFormat.T_FLOAT = false ∨
        a.InputFormat.T_BYTES ≠ 4 ∨ a.OutputFormat.T_BYTES ≠ 4 ∨
        a.InputFormat.T_CHANNELS ≠ a.OutputFormat.T_CHANNELS ∨
        (a.InputFormat.T_CHANNELS ≠ 1 ∧ a.InputFormat.T_CHANNELS ≠ 3)
    · exact OptimizeFloatByJoiningCurves_rejects_formats mallocOk NOCACHE a hrej
    · simp only [not_or, Bool.not_eq_false, not_not, not_and] at hrej
      obtain ⟨hf1, hf2, hb1, hb2, hch, h13⟩ := hrej
      have h13' : a.InputFormat.T_CHANNELS = 1 ∨ a.InputFormat.T_CHANNELS = 3 := by
        by_cases h1 : a.InputFormat.T_CHANNELS = 1
        · exact Or.inl h1
        · exact Or.inr (h13 h1)
      have hany : Src.stages.any
          (fun mpe => decide (mpe ≠ cmsStageSignature.cmsSigCurveSetElemType)) = true := by
        rw [List.any_eq_true]
        exact ⟨mpe, hm, by simp [hne]⟩
      rw [OptimizeFloatByJoiningCurves_passed mallocOk NOCACHE a hf1 hf2 hb1 hb2 hch h13', hL]
      simp only [hany, if_true]


/-! ## The dispatcher -/

/-- The chain of matchers: calls in list order, every call but the last
returned FALSE and handed the pointees on, a TRUE ends the chain, and a FALSE
result means the whole list was called. -/
theorem tryMatchers_trace {β : Type} (run : Matcher → OptimizerArgs β → Bool × OptimizerArgs β)
    (ms : List Matcher) (a : OptimizerArgs β) :
    ((tryMatchers run ms a).invoked.map (fun i => i.matcher)) <+: ms ∧
    (∀ i ∈ (tryMatchers run ms a).invoked, i.ret = (run i.matcher i.args).1) ∧
    (∀ i, (tryMatchers run ms a).invoked.head? = some i → i.args = a) ∧
    List.Chain' (fun i j => i.ret = false ∧ j.args = (run i.matcher i.args).2)
      (tryMatchers run ms a).invoked ∧
    ((tryMatchers run ms a).ret = true →
      ∃ pre l, (tryMatchers run ms a).invoked = pre ++ [l] ∧ l.ret = true ∧
        (tryMatchers run ms a).args = (run l.matcher l.args).2 ∧
        ∀ i ∈ pre, i.ret = false) ∧
    ((tryMatchers run ms a).ret = false →
      (tryMatchers run ms a).invoked.map (fun i => i.matcher) = ms ∧
      ∀ i ∈ (tryMatchers run ms a).invoked, i.ret = false) := by
  induction ms generalizing a with
  | nil =>
    refine ⟨?_, ?_, ?_, ?_, ?_, ?_⟩
    · simp [tryMatchers]
    · intro i hi
      simp [tryMatchers] at hi
    · intro i hi
      simp [tryMatchers] at hi
    · simp [tryMatchers]
    · intro h
      simp [tryMatchers] at h
    · intro _
      simp [tryMatchers]
  | cons m rest ih =>
    by_cases hm : (run m a).1 = true
    · have e : tryMatchers run (m :: rest) a = ⟨true, (run m a).2, [⟨m, a, true⟩]⟩ := by
        simp [tryMatchers, hm]
      rw [e]
      refine ⟨?_, ?_, ?_, ?_, ?_, ?_⟩
      · simp only [List.map_cons, List.map_nil]
        exact ⟨rest, rfl⟩
      · intro i hi
        simp only [List.mem_singleton] at hi
        subst hi
        exact hm.symm
      · intro i hi
        simp only [List.head?_cons, Option.some.injEq] at hi
        subst hi
        rfl
      · exact List.chain'_singleton _
      · intro _
        exact ⟨[], ⟨m, a, true⟩, rfl, rfl, rfl, fun i hi => absurd hi (List.not_mem_nil i)⟩
      · intro h
        exact Bool.noConfusion h
    · have hm' : (run m a).1 = false := by
        cases h : (run m a).1
        · rfl
        · exact absurd h hm
      have e : tryMatchers run (m :: rest) a
          = ⟨(tryMatchers run rest (run m a).2).ret, (tryMatchers run rest (run m a).2).args,
             ⟨m, a, false⟩ :: (tryMatchers run rest (run m a).2).invoked⟩ := by
        simp [tryMatchers, hm']
      obtain ⟨p1, p2, p3, p4, p5, p6⟩ := ih (run m a).2
      rw [e]
      refine ⟨?_, ?_, ?_, ?_, ?_, ?_⟩
      · simp only [List.map_cons]
        exact (List.prefix_cons_inj m).mpr p1
      · intro i hi
        simp only [List.mem_cons] at hi
        rcases hi with hi | hi
        · subst hi
          exact hm'.symm
        · exact p2 i hi
      · intro i hi
        simp only [List.head?_cons, Option.some.injEq] at hi
        subst hi
        rfl
      · apply List.Chain'.cons' p4
        intro y hy
        exact ⟨rfl, p3 y hy⟩
      · intro h
        obtain ⟨pre, l, h1, h2, h3, h4⟩ := p5 h
        refine ⟨⟨m, a, false⟩ :: pre, l, ?_, h2, h3, ?_⟩
        · simp only [h1, List.cons_append]
        · intro i hi
          simp only [List.mem_cons] at hi
          rcases hi with hi | hi
          · subst hi
            rfl
          · exact h4 i hi
      · intro h
        obtain ⟨h1, h2⟩ := p6 h
        refine ⟨?_, ?_⟩
        · simp only [List.map_cons, h1]
        · intro i hi
          simp only [List.mem_cons] at hi
          rcases hi with hi | hi
          · subst hi
            rfl
          · exact h2 i hi

/-- When a matcher that returns FALSE leaves the pointees as they were, every
call of the chain sees what the first one saw. -/
theorem tryMatchers_same_args {β : Type}
    (run : Matcher → OptimizerArgs β → Bool × OptimizerArgs β)
    (hrun : ∀ m s, (run m s).1 = false → (run m s).2 = s)
    (ms : List Matcher) (a : OptimizerArgs β) :
    ∀ i ∈ (tryMatchers run ms a).invoked, i.args = a := by
  induction ms generalizing a with
  | nil =>
    intro i hi
    simp [tryMatchers] at hi
  | cons m rest ih =>
    intro i hi
    by_cases hm : (run m a).1 = true
    · simp only [tryMatchers, hm, if_true, List.mem_singleton] at hi
      subst hi
      rfl
    · have hm' : (run m a).1 = false := by
        cases h : (run m a).1
        · rfl
        · exact absurd h hm
      simp only [tryMatchers, hm', Bool.false_eq_true, if_false, List.mem_cons] at hi
      rcases hi with hi | hi
      · subst hi
        rfl
      · have := ih (run m a).2 i hi
        rw [this, hrun m a hm']

/-- C16: `Floating_Point_Transforms_Dispatcher` calls its matchers one after
another in source order through the same seven pointers (the first call sees
the pointees of the caller, each later call what the call before left, which
is the same when a failing matcher changes nothing), every call before the
last returned FALSE, a call that returns TRUE is the last and makes the
dispatcher return TRUE, and the dispatcher returns FALSE exactly when every
matcher of the chain was called and returned FALSE. -/
theorem Floating_Point_Transforms_Dispatcher_first_match {β : Type} (CMS_DONT_USE_SSE2 : Bool)
    (run : Matcher → OptimizerArgs β → Bool × OptimizerArgs β) (a : OptimizerArgs β) :
    ((Floating_Point_Transforms_Dispatcher CMS_DONT_USE_SSE2 run a).invoked.map
        (fun i => i.matcher)) <+: matchersInSourceOrder CMS_DONT_USE_SSE2 ∧
    (∀ i ∈ (Floating_Point_Transforms_Dispatcher CMS_DONT_USE_SSE2 run a).invoked,
      i.ret = (run i.matcher i.args).1) ∧
    (∀ i, (Floating_Point_Transforms_Dispatcher CMS_DONT_USE_SSE2 run a).invoked.head? = some i →
      i.args = a) ∧
    List.Chain' (fun i j => i.ret = false ∧ j.args = (run i.matcher i.args).2)
      (Floating_Point_Transforms_Dispatcher CMS_DONT_USE_SSE2 run a).invoked ∧
    ((∀ m s, (run m s).1 = false → (run m s).2 = s) →
      ∀ i ∈ (Floating_Point_Transforms_Dispatcher CMS_DONT_USE_SSE2 run a).invoked, i.args = a) ∧
    ((Floating_Point_Transforms_Dispatcher CMS_DONT_USE_SSE2 run a).ret = true ↔
      ∃ pre l, (Floating_Point_Transforms_Dispatcher CMS_DONT_USE_SSE2 run a).invoked = pre ++ [l] ∧
        l.ret = true ∧ ∀ i ∈ pre, i.ret = false) ∧
    ((Floating_Point_Transforms_Dispatcher CMS_DONT_USE_SSE2 run a).ret = false ↔
      ((Floating_Point_Transforms_Dispatcher CMS_DONT_USE_SSE2 run a).invoked.map
          (fun i => i.matcher) = matchersInSourceOrder CMS_DONT_USE_SSE2 ∧
       ∀ i ∈ (Floating_Point_Transforms_Dispatcher CMS_DONT_USE_SSE2 run a).invoked,
         i.ret = false)) := by
  unfold Floating_Point_Transforms_Dispatcher
  obtain ⟨p1, p2, p3, p4, p5, p6⟩ :=
    tryMatchers_trace run (matchersInSourceOrder CMS_DONT_USE_SSE2) a
  refine ⟨p1, p2, p3, p4,
    fun hrun => tryMatchers_same_args run hrun (matchersInSourceOrder CMS_DONT_USE_SSE2) a,
    ⟨?_, ?_⟩, ⟨p6, ?_⟩⟩
  · intro h
    obtain ⟨pre, l, h1, h2, _, h4⟩ := p5 h
    exact ⟨pre, l, h1, h2, h4⟩
  · intro ⟨pre, l, h1, h2, _⟩
    by_contra hne
    have hf : (tryMatchers run (matchersInSourceOrder CMS_DONT_USE_SSE2) a).ret = false := by
      cases h : (tryMatchers run (matchersInSourceOrder CMS_DONT_USE_SSE2) a).ret
      · rfl
      · exact absurd h hne
    have := (p6 hf).2 l (by rw [h1]; simp)
    rw [h2] at this
    exact Bool.noConfusion this
  · intro ⟨_, hall⟩
    by_contra hne
    have ht : (tryMatchers run (matchersInSourceOrder CMS_DONT_USE_SSE2) a).ret = true := by
      cases h : (tryMatchers run (matchersInSourceOrder CMS_DONT_USE_SSE2) a).ret
      · exact absurd h hne
      · rfl
    obtain ⟨pre, l, h1, h2, _, _⟩ := p5 ht
    have := hall l (by rw [h1]; simp)
    rw [h2] at this
    exact Bool.noConfusion this


/-- C17, as the code has it: every matrix-shaper matcher and every join-curves
matcher of the chain is tried before every full-CLUT resampling matcher, and
`OptimizeMatrixShaper15` is tried before every join-curves matcher. -/
theorem shapers_and_joiners_before_clut (CMS_DONT_USE_SSE2 : Bool) (m1 m2 : Matcher)
    (h1 : m1 ∈ matchersInSourceOrder CMS_DONT_USE_SSE2)
    (h2 : m2 ∈ matchersInSourceOrder CMS_DONT_USE_SSE2) :
    (m1.kind ≠ MatcherKind.clutResampling → m2.kind = MatcherKind.clutResampling →
      triedBefore CMS_DONT_USE_SSE2 m1 m2) ∧
    (m2.kind = MatcherKind.joinCurves →
      triedBefore CMS_DONT_USE_SSE2 Matcher.OptimizeMatrixShaper15 m2) := by
  cases CMS_DONT_USE_SSE2 <;> cases m1 <;> cases m2 <;> revert h1 h2 <;> decide

theorem shapers_and_joiners_before_clut_witness :
    (Matcher.OptimizeFloatMatrixShaper.kind ≠ MatcherKind.clutResampling →
      Matcher.Optimize8BitRGBTransform.kind = MatcherKind.clutResampling →
      triedBefore false Matcher.OptimizeFloatMatrixShaper Matcher.Optimize8BitRGBTransform) ∧
    (Matcher.Optimize8BitRGBTransform.kind = MatcherKind.joinCurves →
      triedBefore false Matcher.OptimizeMatrixShaper15 Matcher.Optimize8BitRGBTransform) :=
  shapers_and_joiners_before_clut false Matcher.OptimizeFloatMatrixShaper
    Matcher.Optimize8BitRGBTransform (by decide) (by decide)

/-- C17 fails as stated: with or without the SSE2 call, the join-curves matcher
`Optimize8ByJoiningCurves` is tried before the matrix-shaper matchers
`Optimize8MatrixShaper` and `OptimizeFloatMatrixShaper`, and the join-curves
matcher `OptimizeFloatByJoiningCurves` before `OptimizeFloatMatrixShaper`. -/
theorem join_curves_tried_before_matrix_shaper :
    Matcher.Optimize8ByJoiningCurves.kind = MatcherKind.joinCurves ∧
    Matcher.OptimizeFloatByJoiningCurves.kind = MatcherKind.joinCurves ∧
    Matcher.Optimize8MatrixShaper.kind = MatcherKind.matrixShaper ∧
    Matcher.OptimizeFloatMatrixShaper.kind = MatcherKind.matrixShaper ∧
    (triedBefore false Matcher.Optimize8ByJoiningCurves Matcher.Optimize8MatrixShaper ∧
     triedBefore false Matcher.Optimize8ByJoiningCurves Matcher.OptimizeFloatMatrixShaper ∧
     triedBefore false Matcher.OptimizeFloatByJoiningCurves Matcher.OptimizeFloatMatrixShaper ∧
     ¬ triedBefore false Matcher.Optimize8MatrixShaper Matcher.Optimize8ByJoiningCurves ∧
     ¬ triedBefore false Matcher.OptimizeFloatMatrixShaper
         Matcher.OptimizeFloatByJoiningCurves) ∧
    (triedBefore true Matcher.Optimize8ByJoiningCurves Matcher.Optimize8MatrixShaper ∧
     triedBefore true Matcher.Optimize8ByJoiningCurves Matcher.OptimizeFloatMatrixShaper ∧
     triedBefore true Matcher.OptimizeFloatByJoiningCurves Matcher.OptimizeFloatMatrixShaper ∧
     ¬ triedBefore true Matcher.Optimize8MatrixShaper Matcher.Optimize8ByJoiningCurves ∧
     ¬ triedBefore true Matcher.OptimizeFloatMatrixShaper
         Matcher.OptimizeFloatByJoiningCurves) := by
  decide

/-! ## The extra channel -/

theorem getD_set_of_ne {β : Type} (l : List β) (i k : Nat) (v d : β) (h : i ≠ k) :
    (l.set i v).getD k d = l.getD k d := by
  simp [List.getD_eq_getElem?_getD, List.getElem?_set_ne h]

/-- Stores into other samples leave sample `k` of the pixel as it was. -/
theorem storeSamples_getD_of_ne {β : Type} (ws : List (Nat × β)) (outpx : List β) (k : Nat)
    (d : β) (h : ∀ w ∈ ws, w.1 ≠ k) :
    (storeSamples outpx ws).getD k d = outpx.getD k d := by
  induction ws generalizing outpx with
  | nil => rfl
  | cons w rest ih =>
    simp only [storeSamples]
    rw [ih (outpx.set w.1 w.2) (fun w2 hw2 => h w2 (List.mem_cons_of_mem _ hw2))]
    exact getD_set_of_ne outpx w.1 k w.2 d (h w (List.mem_cons_self _ _))

/-- The plane of sample `k` after a pixel loop that stores into other samples
only is the plane the output buffer held. -/
theorem zipWith_storeSamples_plane {β : Type} (f : List β → List (Nat × β)) (k : Nat) (d : β)
    (hf : ∀ inpx, ∀ w ∈ f inpx, w.1 ≠ k) (Input Output : List (List β))
    (hlen : Input.length = Output.length) :
    (List.zipWith (fun inpx outpx => storeSamples outpx (f inpx)) Input Output).map
        (fun px => px.getD k d)
      = Output.map (fun px => px.getD k d) := by
  induction Input generalizing Output with
  | nil =>
    cases Output with
    | nil => rfl
    | cons o os => simp at hlen
  | cons i is ih =>
    cases Output with
    | nil => simp at hlen
    | cons o os =>
      simp only [List.zipWith_cons_cons, List.map_cons]
      rw [ih os (by simpa using hlen), storeSamples_getD_of_ne (f i) o k d (hf i)]

/-- C19, as the code has it: on `TYPE_RGBA_FLT` buffers of equally many pixels
each of `FloatCLUTEval` (with at most three outputs), `FastEvaluateFloatRGBCurves`
and `FastFloatRGBIdentity` leaves the extra channel of every output pixel as
the output buffer held it, whatever the extra channel of the input holds. -/
theorem evaluators_leave_extra_channel {β : Type} [LinearOrderedField β] [FloorRing β]
    (p : cmsInterpParams β) (Data : CurvesFloatData β) (Input Output : List (List β))
    (hp : p.nOutputs ≤ 3) (hlen : Input.length = Output.length) :
    (FloatCLUTEval_formatted p TYPE_RGBA_FLT_StartingOrder TYPE_RGBA_FLT_StartingOrder
        Input Output).map (fun px => px.getD 3 0) = Output.map (fun px => px.getD 3 0) ∧
    (FastEvaluateFloatRGBCurves_formatted Data TYPE_RGBA_FLT_StartingOrder
        TYPE_RGBA_FLT_StartingOrder Input Output).map (fun px => px.getD 3 0)
      = Output.map (fun px => px.getD 3 0) ∧
    (FastFloatRGBIdentity_formatted TYPE_RGBA_FLT_StartingOrder TYPE_RGBA_FLT_StartingOrder
        Input Output).map (fun px => px.getD 3 0) = Output.map (fun px => px.getD 3 0) := by
  refine ⟨?_, ?_, ?_⟩
  · unfold FloatCLUTEval_formatted
    apply zipWith_storeSamples_plane _ 3 0 _ Input Output hlen
    intro inpx w hw
    simp only [List.mem_map, List.mem_range] at hw
    obtain ⟨c, hc, rfl⟩ := hw
    simp only [TYPE_RGBA_FLT_StartingOrder]
    omega
  · unfold FastEvaluateFloatRGBCurves_formatted
    apply zipWith_storeSamples_plane _ 3 0 _ Input Output hlen
    intro inpx w hw
    simp only [List.mem_cons, List.mem_singleton, List.not_mem_nil, or_false] at hw
    rcases hw with rfl | rfl | rfl <;> simp [TYPE_RGBA_FLT_StartingOrder]
  · unfold FastFloatRGBIdentity_formatted
    apply zipWith_storeSamples_plane _ 3 0 _ Input Output hlen
    intro inpx w hw
    simp only [List.mem_cons, List.mem_singleton, List.not_mem_nil, or_false] at hw
    rcases hw with rfl | rfl | rfl <;> simp [TYPE_RGBA_FLT_StartingOrder]

theorem evaluators_leave_extra_channel_witness :
    ([[(1 : ℚ) / 2, 1 / 2, 1 / 2, 1]].map (fun px => px.getD 3 0) = [1]) ∧
    ((FloatCLUTEval_formatted identityGrid2 TYPE_RGBA_FLT_StartingOrder
        TYPE_RGBA_FLT_StartingOrder [[(1 : ℚ) / 2, 1 / 2, 1 / 2, 1]] [[0, 0, 0, 0]]).map
        (fun px => px.getD 3 0) = [0]) ∧
    ((FastEvaluateFloatRGBCurves_formatted identityCurves TYPE_RGBA_FLT_StartingOrder
        TYPE_RGBA_FLT_StartingOrder [[(1 : ℚ) / 2, 1 / 2, 1 / 2, 1]] [[0, 0, 0, 0]]).map
        (fun px => px.getD 3 0) = [0]) ∧
    ((FastFloatRGBIdentity_formatted TYPE_RGBA_FLT_StartingOrder TYPE_RGBA_FLT_StartingOrder
        [[(1 : ℚ) / 2, 1 / 2, 1 / 2, 1]] [[0, 0, 0, 0]]).map
        (fun px => px.getD 3 0) = [0]) := by
  have h := evaluators_leave_extra_channel identityGrid2 identityCurves
    [[(1 : ℚ) / 2, 1 / 2, 1 / 2, 1]] [[0, 0, 0, 0]] (by decide) rfl
  exact ⟨rfl, h.1, h.2.1, h.2.2⟩

/-! ## The arms of the tetrahedral selection -/

theorem tetraArmTaken_ne_zero {β : Type} [LinearOrderedField β] (rx ry rz : β) :
    tetraArmTaken rx ry rz ≠ 0 := by
  unfold tetraArmTaken
  split_ifs with g1 g2 g3 g4 g5 g6
  all_goals try decide
  exfalso
  rcases order_exhaustive rx ry rz with h | h | h | h | h | h
  · exact g1 h
  · exact g2 h
  · exact g3 h
  · exact g4 h
  · exact g5 h
  · exact g6 h

theorem tetraArmTaken_test {β : Type} [LinearOrderedField β] (rx ry rz : β) :
    tetraTest (tetraArmTaken rx ry rz) rx ry rz = true := by
  have hne := tetraArmTaken_ne_zero rx ry rz
  unfold tetraArmTaken at hne ⊢
  split_ifs at hne ⊢ with g1 g2 g3 g4 g5 g6
  · simpa [tetraTest] using g1
  · simpa [tetraTest] using g2
  · simpa [tetraTest] using g3
  · simpa [tetraTest] using g4
  · simpa [tetraTest] using g5
  · simpa [tetraTest] using g6
  · exact absurd rfl hne

theorem tetraTest_cases {β : Type} [LinearOrderedField β] (n : Nat) (rx ry rz : β)
    (h : tetraTest n rx ry rz = true) :
    (n = 1 ∧ rx ≥ ry ∧ ry ≥ rz) ∨ (n = 2 ∧ rx ≥ rz ∧ rz ≥ ry) ∨ (n = 3 ∧ rz ≥ rx ∧ rx ≥ ry) ∨
    (n = 4 ∧ ry ≥ rx ∧ rx ≥ rz) ∨ (n = 5 ∧ ry ≥ rz ∧ rz ≥ rx) ∨ (n = 6 ∧ rz ≥ ry ∧ ry ≥ rx) := by
  unfold tetraTest at h
  split at h
  · exact Or.inl ⟨rfl, of_decide_eq_true h⟩
  · exact Or.inr (Or.inl ⟨rfl, of_decide_eq_true h⟩)
  · exact Or.inr (Or.inr (Or.inl ⟨rfl, of_decide_eq_true h⟩))
  · exact Or.inr (Or.inr (Or.inr (Or.inl ⟨rfl, of_decide_eq_true h⟩)))
  · exact Or.inr (Or.inr (Or.inr (Or.inr (Or.inl ⟨rfl, of_decide_eq_true h⟩))))
  · exact Or.inr (Or.inr (Or.inr (Or.inr (Or.inr ⟨rfl, of_decide_eq_true h⟩))))
  · exact Bool.noConfusion h

/-- The value `tetra` returns is the value of the arm it executes, and it loads
four samples. -/
theorem tetra_eq_arm {β : Type} [LinearOrderedField β] (T : Int → β)
    (base X0 Y0 Z0 X1 Y1 Z1 : Int) (rx ry rz : β) (c : Nat) :
    (tetra T base X0 Y0 Z0 X1 Y1 Z1 rx ry rz c).1
      = tetraArm (tetraArmTaken rx ry rz)
          (T (base + (X0 + Y0 + Z0 + (c : Int)))) (T (base + (X1 + Y0 + Z0 + (c : Int))))
          (T (base + (X0 + Y1 + Z0 + (c : Int)))) (T (base + (X1 + Y1 + Z0 + (c : Int))))
          (T (base + (X0 + Y0 + Z1 + (c : Int)))) (T (base + (X1 + Y0 + Z1 + (c : Int))))
          (T (base + (X0 + Y1 + Z1 + (c : Int)))) (T (base + (X1 + Y1 + Z1 + (c : Int))))
          rx ry rz ∧
    (tetra T base X0 Y0 Z0 X1 Y1 Z1 rx ry rz c).2.length = 4 := by
  have hne := tetraArmTaken_ne_zero rx ry rz
  unfold tetraArmTaken at hne ⊢
  unfold tetra
  split_ifs at hne ⊢ with g1 g2 g3 g4 g5 g6
  · exact ⟨rfl, rfl⟩
  · exact ⟨rfl, rfl⟩
  · exact ⟨rfl, rfl⟩
  · exact ⟨rfl, rfl⟩
  · exact ⟨rfl, rfl⟩
  · exact ⟨rfl, rfl⟩
  · exact absurd rfl hne

/-- Two arms whose tests both hold compute the same value. -/
theorem tetraArm_agree {β : Type} [LinearOrderedField β] (n m : Nat)
    (d000 d100 d010 d110 d001 d101 d011 d111 rx ry rz : β)
    (hn : tetraTest n rx ry rz = true) (hm : tetraTest m rx ry rz = true) :
    tetraArm n d000 d100 d010 d110 d001 d101 d011 d111 rx ry rz
      = tetraArm m d000 d100 d010 d110 d001 d101 d011 d111 rx ry rz := by
  rcases tetraTest_cases n rx ry rz hn with ⟨rfl, a1, a2⟩ | ⟨rfl, a1, a2⟩ | ⟨rfl, a1, a2⟩ |
      ⟨rfl, a1, a2⟩ | ⟨rfl, a1, a2⟩ | ⟨rfl, a1, a2⟩ <;>
    rcases tetraTest_cases m rx ry rz hm with ⟨rfl, b1, b2⟩ | ⟨rfl, b1, b2⟩ | ⟨rfl, b1, b2⟩ |
      ⟨rfl, b1, b2⟩ | ⟨rfl, b1, b2⟩ | ⟨rfl, b1, b2⟩ <;>
    simp only [tetraArm, ge_iff_le] at * <;>
    first
      | rfl
      | (have e1 : rx = ry := le_antisymm (by linarith) (by linarith)
         have e2 : ry = rz := le_antisymm (by linarith) (by linarith)
         subst e1 e2
         ring)
      | (have e1 : rx = ry := le_antisymm (by linarith) (by linarith)
         subst e1
         ring)
      | (have e1 : ry = rz := le_antisymm (by linarith) (by linarith)
         subst e1
         ring)
      | (have e1 : rx = rz := le_antisymm (by linarith) (by linarith)
         subst e1
         ring)

/-- An arm whose test holds, on fractions in `[0, 1]`, stays between any two
bounds of the eight corner samples. -/
theorem tetraArm_between {β : Type} [LinearOrderedField β] (n : Nat)
    (d000 d100 d010 d110 d001 d101 d011 d111 rx ry rz lo hi : β)
    (hn : tetraTest n rx ry rz = true)
    (hx0 : 0 ≤ rx) (hx1 : rx ≤ 1) (hy0 : 0 ≤ ry) (hy1 : ry ≤ 1) (hz0 : 0 ≤ rz) (hz1 : rz ≤ 1)
    (h000 : lo ≤ d000 ∧ d000 ≤ hi) (h100 : lo ≤ d100 ∧ d100 ≤ hi)
    (h010 : lo ≤ d010 ∧ d010 ≤ hi) (h110 : lo ≤ d110 ∧ d110 ≤ hi)
    (h001 : lo ≤ d001 ∧ d001 ≤ hi) (h101 : lo ≤ d101 ∧ d101 ≤ hi)
    (h011 : lo ≤ d011 ∧ d011 ≤ hi) (h111 : lo ≤ d111 ∧ d111 ≤ hi) :
    lo ≤ tetraArm n d000 d100 d010 d110 d001 d101 d011 d111 rx ry rz ∧
    tetraArm n d000 d100 d010 d110 d001 d101 d011 d111 rx ry rz ≤ hi := by
  have conv : ∀ a b c d w1 w2 w3 w4 : β, 0 ≤ w1 → 0 ≤ w2 → 0 ≤ w3 → 0 ≤ w4 →
      w1 + w2 + w3 + w4 = 1 → (lo ≤ a ∧ a ≤ hi) → (lo ≤ b ∧ b ≤ hi) → (lo ≤ c ∧ c ≤ hi) →
      (lo ≤ d ∧ d ≤ hi) →
      lo ≤ w1 * a + w2 * b + w3 * c + w4 * d ∧ w1 * a + w2 * b + w3 * c + w4 * d ≤ hi := by
    intro a b c d w1 w2 w3 w4 p1 p2 p3 p4 hs ha hb hc hd
    constructor
    · have q1 := mul_nonneg p1 (sub_nonneg.mpr ha.1)
      have q2 := mul_nonneg p2 (sub_nonneg.mpr hb.1)
      have q3 := mul_nonneg p3 (sub_nonneg.mpr hc.1)
      have q4 := mul_nonneg p4 (sub_nonneg.mpr hd.1)
      have key : w1 * a + w2 * b + w3 * c + w4 * d - lo
          = w1 * (a - lo) + w2 * (b - lo) + w3 * (c - lo) + w4 * (d - lo) := by
        linear_combination lo * hs
      linarith
    · have q1 := mul_nonneg p1 (sub_nonneg.mpr ha.2)
      have q2 := mul_nonneg p2 (sub_nonneg.mpr hb.2)
      have q3 := mul_nonneg p3 (sub_nonneg.mpr hc.2)
      have q4 := mul_nonneg p4 (sub_nonneg.mpr hd.2)
      have key : hi - (w1 * a + w2 * b + w3 * c + w4 * d)
          = w1 * (hi - a) + w2 * (hi - b) + w3 * (hi - c) + w4 * (hi - d) := by
        linear_combination (-hi) * hs
      linarith
  rcases tetraTest_cases n rx ry rz hn with ⟨rfl, a1, a2⟩ | ⟨rfl, a1, a2⟩ | ⟨rfl, a1, a2⟩ |
      ⟨rfl, a1, a2⟩ | ⟨rfl, a1, a2⟩ | ⟨rfl, a1, a2⟩ <;>
    simp only [tetraArm, ge_iff_le] at *
  · have h := conv d000 d100 d110 d111 (1 - rx) (rx - ry) (ry - rz) rz (by linarith)
      (by linarith) (by linarith) hz0 (by ring) h000 h100 h110 h111
    constructor <;> [refine le_of_le_of_eq h.1 ?_; refine le_of_eq_of_le ?_ h.2] <;> ring
  · have h := conv d000 d100 d101 d111 (1 - rx) (rx - rz) (rz - ry) ry (by linarith)
      (by linarith) (by linarith) hy0 (by ring) h000 h100 h101 h111
    constructor <;> [refine le_of_le_of_eq h.1 ?_; refine le_of_eq_of_le ?_ h.2] <;> ring
  · have h := conv d000 d001 d101 d111 (1 - rz) (rz - rx) (rx - ry) ry (by linarith)
      (by linarith) (by linarith) hy0 (by ring) h000 h001 h101 h111
    constructor <;> [refine le_of_le_of_eq h.1 ?_; refine le_of_eq_of_le ?_ h.2] <;> ring
  · have h := conv d000 d010 d110 d111 (1 - ry) (ry - rx) (rx - rz) rz (by linarith)
      (by linarith) (by linarith) hz0 (by ring) h000 h010 h110 h111
    constructor <;> [refine le_of_le_of_eq h.1 ?_; refine le_of_eq_of_le ?_ h.2] <;> ring
  · have h := conv d000 d010 d011 d111 (1 - ry) (ry - rz) (rz - rx) rx (by linarith)
      (by linarith) (by linarith) hx0 (by ring) h000 h010 h011 h111
    constructor <;> [refine le_of_le_of_eq h.1 ?_; refine le_of_eq_of_le ?_ h.2] <;> ring
  · have h := conv d000 d001 d011 d111 (1 - rz) (rz - ry) (ry - rx) rx (by linarith)
      (by linarith) (by linarith) hx0 (by ring) h000 h001 h011 h111
    constructor <;> [refine le_of_le_of_eq h.1 ?_; refine le_of_eq_of_le ?_ h.2] <;> ring

theorem FloatCLUTEval_chan_eq_tetra {β : Type} [LinearOrderedField β] [FloorRing β]
    (p : cmsInterpParams β) (rin gin bin : β) (c : Nat) :
    FloatCLUTEval_chan p rin gin bin c
      = tetra p.Table 0 (FloatCLUTEval_cell p rin gin bin).X0 (FloatCLUTEval_cell p rin gin bin).Y0
          (FloatCLUTEval_cell p rin gin bin).Z0 (FloatCLUTEval_cell p rin gin bin).X1
          (FloatCLUTEval_cell p rin gin bin).Y1 (FloatCLUTEval_cell p rin gin bin).Z1
          (FloatCLUTEval_cell p rin gin bin).rx (FloatCLUTEval_cell p rin gin bin).ry
          (FloatCLUTEval_cell p rin gin bin).rz c := rfl

/-- The fractions of a cell of `FloatCLUTEval` lie in `[0, 1)`. -/
theorem FloatCLUTEval_cell_fractions {β : Type} [LinearOrderedField β] [FloorRing β]
    (p : cmsInterpParams β) (rin gin bin : β) :
    (0 ≤ (FloatCLUTEval_cell p rin gin bin).rx ∧ (FloatCLUTEval_cell p rin gin bin).rx < 1) ∧
    (0 ≤ (FloatCLUTEval_cell p rin gin bin).ry ∧ (FloatCLUTEval_cell p rin gin bin).ry < 1) ∧
    (0 ≤ (FloatCLUTEval_cell p rin gin bin).rz ∧ (FloatCLUTEval_cell p rin gin bin).rz < 1) := by
  simp only [FloatCLUTEval_cell, _cmsQuickFloor]
  refine ⟨⟨?_, ?_⟩, ⟨?_, ?_⟩, ⟨?_, ?_⟩⟩
  all_goals first
    | exact sub_nonneg.mpr (Int.floor_le _)
    | linarith [Int.lt_floor_add_one (fclamp rin * (p.Domain 0 : β))]
    | linarith [Int.lt_floor_add_one (fclamp gin * (p.Domain 1 : β))]
    | linarith [Int.lt_floor_add_one (fclamp bin * (p.Domain 2 : β))]

theorem WithNaN_tetraArmTaken_num {β : Type} [LinearOrderedField β] (rx ry rz : β) :
    WithNaN.tetraArmTaken (Float32OrNaN.num rx) (Float32OrNaN.num ry) (Float32OrNaN.num rz)
      = tetraArmTaken rx ry rz := by
  simp only [WithNaN.tetraArmTaken, tetraArmTaken, WithNaN.ge, Bool.and_eq_true,
    decide_eq_true_eq]

theorem tetraArmTaken_range {β : Type} [LinearOrderedField β] (rx ry rz : β) :
    1 ≤ tetraArmTaken rx ry rz ∧ tetraArmTaken rx ry rz ≤ 6 := by
  refine ⟨Nat.one_le_iff_ne_zero.mpr (tetraArmTaken_ne_zero rx ry rz), ?_⟩
  unfold tetraArmTaken
  split_ifs <;> decide

/-- As soon as one of the three fractions is NaN, every test of the if-chain
fails and the final `else` is executed. -/
theorem WithNaN_tetraArmTaken_NaN {β : Type} [LinearOrderedField β] (rx ry rz : Float32OrNaN β)
    (h : rx = Float32OrNaN.NaN ∨ ry = Float32OrNaN.NaN ∨ rz = Float32OrNaN.NaN) :
    WithNaN.tetraArmTaken rx ry rz = 0 := by
  rcases h with h | h | h
  · subst h
    cases ry <;> cases rz <;> simp [WithNaN.tetraArmTaken, WithNaN.ge]
  · subst h
    cases rx <;> cases rz <;> simp [WithNaN.tetraArmTaken, WithNaN.ge]
  · subst h
    cases rx <;> cases ry <;> simp [WithNaN.tetraArmTaken, WithNaN.ge]

theorem WithNaN_fclamp_num {β : Type} [LinearOrderedField β] (v : Float32OrNaN β) :
    ∃ x : β, WithNaN.fclamp v = Float32OrNaN.num x := by
  cases v with
  | NaN => exact ⟨0, by simp [WithNaN.fclamp, WithNaN.lt, WithNaN.isnan]⟩
  | num x =>
    unfold WithNaN.fclamp
    simp only [WithNaN.lt, WithNaN.gt, WithNaN.isnan, Bool.or_false, decide_eq_true_eq]
    split_ifs
    · exact ⟨0, rfl⟩
    · exact ⟨1, rfl⟩
    · exact ⟨x, rfl⟩

theorem WithNaN_fclamp_of_num {β : Type} [LinearOrderedField β] (v : β) :
    WithNaN.fclamp (Float32OrNaN.num v) = Float32OrNaN.num (fclamp v) := by
  unfold WithNaN.fclamp fclamp
  simp only [WithNaN.lt, WithNaN.gt, WithNaN.isnan, Bool.or_false, decide_eq_true_eq]
  by_cases h1 : v < 9007199 / 9007199254740992
  · rw [if_pos h1, if_pos h1]
  · rw [if_neg h1, if_neg h1]
    by_cases h2 : v > 1
    · rw [if_pos h2, if_pos h2]
    · rw [if_neg h2, if_neg h2]

theorem WithNaN_fclamp100_of_num {β : Type} [LinearOrderedField β] (v : β) :
    WithNaN.fclamp100 (Float32OrNaN.num v) = Float32OrNaN.num (fclamp100 v) := by
  unfold WithNaN.fclamp100 fclamp100
  by_cases h1 : v < 0
  · simp [WithNaN.lt, h1]
  · by_cases h2 : v > 100
    · simp [WithNaN.lt, WithNaN.gt, h1, h2]
    · simp [WithNaN.lt, WithNaN.gt, h1, h2]

theorem WithNaN_fraction_NaN {β : Type} [LinearOrderedField β] [FloorRing β] (nanFloor : Int)
    (D : β) :
    WithNaN.sub (WithNaN.mul (WithNaN.div (WithNaN.fclamp100 (Float32OrNaN.NaN : Float32OrNaN β))
        100) (Float32OrNaN.num D))
      (WithNaN.floorToFloat nanFloor
        (WithNaN.mul (WithNaN.div (WithNaN.fclamp100 (Float32OrNaN.NaN : Float32OrNaN β)) 100)
          (Float32OrNaN.num D))) = Float32OrNaN.NaN := by
  simp [WithNaN.fclamp100, WithNaN.lt, WithNaN.gt, WithNaN.div, WithNaN.mul, WithNaN.sub]

/-- On a pixel of numbers the fractions of the model with NaN are those of
`FloatCLUTEval_cell`. -/
theorem WithNaN_FloatCLUTEval_fractions_num {β : Type} [LinearOrderedField β] [FloorRing β]
    (nanFloor : Int) (p : cmsInterpParams β) (rin gin bin : β) :
    WithNaN.FloatCLUTEval_fractions nanFloor p (Float32OrNaN.num rin) (Float32OrNaN.num gin)
        (Float32OrNaN.num bin)
      = (Float32OrNaN.num (FloatCLUTEval_cell p rin gin bin).rx,
         Float32OrNaN.num (FloatCLUTEval_cell p rin gin bin).ry,
         Float32OrNaN.num (FloatCLUTEval_cell p rin gin bin).rz) := by
  simp only [WithNaN.FloatCLUTEval_fractions, WithNaN_fclamp_of_num, WithNaN.mul, WithNaN.sub,
    WithNaN.floorToFloat, FloatCLUTEval_cell]

/-- On a pixel of numbers the fractions of the model with NaN are those of
`FloatCMYKCLUTEval_cell`. -/
theorem WithNaN_FloatCMYKCLUTEval_fractions_num {β : Type} [LinearOrderedField β] [FloorRing β]
    (nanFloor : Int) (p : cmsInterpParams β) (cin min yin kin : β) :
    WithNaN.FloatCMYKCLUTEval_fractions nanFloor p (Float32OrNaN.num min) (Float32OrNaN.num yin)
        (Float32OrNaN.num kin)
      = (Float32OrNaN.num (FloatCMYKCLUTEval_cell p cin min yin kin).rx,
         Float32OrNaN.num (FloatCMYKCLUTEval_cell p cin min yin kin).ry,
         Float32OrNaN.num (FloatCMYKCLUTEval_cell p cin min yin kin).rz) := by
  simp only [WithNaN.FloatCMYKCLUTEval_fractions, WithNaN_fclamp100_of_num, WithNaN.div,
    WithNaN.mul, WithNaN.sub, WithNaN.floorToFloat, FloatCMYKCLUTEval_cell]

/-- With NaN in M, Y or K one of the fractions of `FloatCMYKCLUTEval` is NaN. -/
theorem WithNaN_FloatCMYKCLUTEval_fractions_NaN {β : Type} [LinearOrderedField β] [FloorRing β]
    (nanFloor : Int) (p : cmsInterpParams β) (min yin kin : Float32OrNaN β)
    (h : min = Float32OrNaN.NaN ∨ yin = Float32OrNaN.NaN ∨ kin = Float32OrNaN.NaN) :
    (WithNaN.FloatCMYKCLUTEval_fractions nanFloor p min yin kin).1 = Float32OrNaN.NaN ∨
    (WithNaN.FloatCMYKCLUTEval_fractions nanFloor p min yin kin).2.1 = Float32OrNaN.NaN ∨
    (WithNaN.FloatCMYKCLUTEval_fractions nanFloor p min yin kin).2.2 = Float32OrNaN.NaN := by
  rcases h with h | h | h
  · subst h
    exact Or.inl (WithNaN_fraction_NaN nanFloor (p.Domain 1 : β))
  · subst h
    exact Or.inr (Or.inl (WithNaN_fraction_NaN nanFloor (p.Domain 2 : β)))
  · subst h
    exact Or.inr (Or.inr (WithNaN_fraction_NaN nanFloor (p.Domain 3 : β)))

/-- C25 (as the code has it): the six ordering tests are exhaustive on numbers,
not on NaN.  For all `rx`, `ry`, `rz` of an ordered field one of the six tests
holds, and on numbers the if-chain executes one of the arms 1 to 6.
`FloatCLUTEval` never executes the final `else`, whatever the pixel, NaN
included, because `fclamp` turns NaN into 0.  `FloatCMYKCLUTEval` executes one
of the arms 1 to 6 on a pixel of numbers, but `fclamp100` returns NaN as it is,
so with NaN in M, Y or K every comparison is false and both passes execute the
final `else` (`c1 = c2 = c3 = 0`), for instance on the pixel `(0, 0, 0, NaN)`. -/
theorem tetra_final_else_reached_on_NaN {β : Type} [LinearOrderedField β] [FloorRing β] :
    (∀ rx ry rz : β,
      (rx ≥ ry ∧ ry ≥ rz) ∨ (rx ≥ rz ∧ rz ≥ ry) ∨ (rz ≥ rx ∧ rx ≥ ry) ∨
      (ry ≥ rx ∧ rx ≥ rz) ∨ (ry ≥ rz ∧ rz ≥ rx) ∨ (rz ≥ ry ∧ ry ≥ rx)) ∧
    (∀ rx ry rz : β,
      WithNaN.tetraArmTaken (Float32OrNaN.num rx) (Float32OrNaN.num ry) (Float32OrNaN.num rz)
        = tetraArmTaken rx ry rz ∧
      1 ≤ tetraArmTaken rx ry rz ∧ tetraArmTaken rx ry rz ≤ 6 ∧
      tetraTest (tetraArmTaken rx ry rz) rx ry rz = true) ∧
    (∀ (nanFloor : Int) (p : cmsInterpParams β) (rin gin bin : Float32OrNaN β),
      1 ≤ WithNaN.FloatCLUTEval_armTaken nanFloor p rin gin bin ∧
      WithNaN.FloatCLUTEval_armTaken nanFloor p rin gin bin ≤ 6) ∧
    (∀ (nanFloor : Int) (p : cmsInterpParams β) (min yin kin : β),
      1 ≤ (WithNaN.FloatCMYKCLUTEval_armsTaken nanFloor p (Float32OrNaN.num min)
        (Float32OrNaN.num yin) (Float32OrNaN.num kin)).1 ∧
      (WithNaN.FloatCMYKCLUTEval_armsTaken nanFloor p (Float32OrNaN.num min)
        (Float32OrNaN.num yin) (Float32OrNaN.num kin)).1 ≤ 6 ∧
      1 ≤ (WithNaN.FloatCMYKCLUTEval_armsTaken nanFloor p (Float32OrNaN.num min)
        (Float32OrNaN.num yin) (Float32OrNaN.num kin)).2 ∧
      (WithNaN.FloatCMYKCLUTEval_armsTaken nanFloor p (Float32OrNaN.num min)
        (Float32OrNaN.num yin) (Float32OrNaN.num kin)).2 ≤ 6) ∧
    (∀ (nanFloor : Int) (p : cmsInterpParams β) (min yin kin : Float32OrNaN β),
      (min = Float32OrNaN.NaN ∨ yin = Float32OrNaN.NaN ∨ kin = Float32OrNaN.NaN) →
      WithNaN.FloatCMYKCLUTEval_armsTaken nanFloor p min yin kin = (0, 0)) ∧
    (∀ (nanFloor : Int) (p : cmsInterpParams β),
      WithNaN.FloatCMYKCLUTEval_armsTaken nanFloor p (Float32OrNaN.num 0) (Float32OrNaN.num 0)
        Float32OrNaN.NaN = (0, 0)) := by
  have hnan : ∀ (nanFloor : Int) (p : cmsInterpParams β) (min yin kin : Float32OrNaN β),
      (min = Float32OrNaN.NaN ∨ yin = Float32OrNaN.NaN ∨ kin = Float32OrNaN.NaN) →
      WithNaN.FloatCMYKCLUTEval_armsTaken nanFloor p min yin kin = (0, 0) := by
    intro nanFloor p min yin kin h
    have h0 := WithNaN_tetraArmTaken_NaN _ _ _
      (WithNaN_FloatCMYKCLUTEval_fractions_NaN nanFloor p min yin kin h)
    unfold WithNaN.FloatCMYKCLUTEval_armsTaken
    rw [h0]
  refine ⟨order_exhaustive, ?_, ?_, ?_, hnan, ?_⟩
  · intro rx ry rz
    exact ⟨WithNaN_tetraArmTaken_num rx ry rz, (tetraArmTaken_range rx ry rz).1,
      (tetraArmTaken_range rx ry rz).2, tetraArmTaken_test rx ry rz⟩
  · intro nanFloor p rin gin bin
    obtain ⟨r, hr⟩ := WithNaN_fclamp_num rin
    obtain ⟨g, hg⟩ := WithNaN_fclamp_num gin
    obtain ⟨b, hb⟩ := WithNaN_fclamp_num bin
    simp only [WithNaN.FloatCLUTEval_armTaken, WithNaN.FloatCLUTEval_fractions, hr, hg, hb,
      WithNaN.mul, WithNaN.sub, WithNaN.floorToFloat, WithNaN_tetraArmTaken_num]
    exact tetraArmTaken_range _ _ _
  · intro nanFloor p min yin kin
    simp only [WithNaN.FloatCMYKCLUTEval_armsTaken,
      WithNaN_FloatCMYKCLUTEval_fractions_num nanFloor p 0 min yin kin,
      WithNaN_tetraArmTaken_num]
    exact ⟨(tetraArmTaken_range _ _ _).1, (tetraArmTaken_range _ _ _).2,
      (tetraArmTaken_range _ _ _).1, (tetraArmTaken_range _ _ _).2⟩
  · intro nanFloor p
    exact hnan nanFloor p _ _ _ (Or.inr (Or.inr rfl))

/-- C26: the tetrahedral interpolant does not depend on the order of the
if-chain.  Whenever the tests of two arms `n` and `m` hold together, the two
arms compute the same `c0 + c1*rx + c2*ry + c3*rz` on any eight corner samples,
and the value `tetra` returns is the value of every arm whose test holds. -/
theorem tetra_order_independent {β : Type} [LinearOrderedField β] (n m : Nat)
    (d000 d100 d010 d110 d001 d101 d011 d111 rx ry rz : β)
    (T : Int → β) (base X0 Y0 Z0 X1 Y1 Z1 : Int) (c : Nat)
    (hn : tetraTest n rx ry rz = true) (hm : tetraTest m rx ry rz = true) :
    tetraArm n d000 d100 d010 d110 d001 d101 d011 d111 rx ry rz
      = tetraArm m d000 d100 d010 d110 d001 d101 d011 d111 rx ry rz ∧
    (tetra T base X0 Y0 Z0 X1 Y1 Z1 rx ry rz c).1
      = tetraArm n
          (T (base + (X0 + Y0 + Z0 + (c : Int)))) (T (base + (X1 + Y0 + Z0 + (c : Int))))
          (T (base + (X0 + Y1 + Z0 + (c : Int)))) (T (base + (X1 + Y1 + Z0 + (c : Int))))
          (T (base + (X0 + Y0 + Z1 + (c : Int)))) (T (base + (X1 + Y0 + Z1 + (c : Int))))
          (T (base + (X0 + Y1 + Z1 + (c : Int)))) (T (base + (X1 + Y1 + Z1 + (c : Int))))
          rx ry rz := by
  refine ⟨tetraArm_agree n m _ _ _ _ _ _ _ _ rx ry rz hn hm, ?_⟩
  rw [(tetra_eq_arm T base X0 Y0 Z0 X1 Y1 Z1 rx ry rz c).1]
  exact tetraArm_agree _ n _ _ _ _ _ _ _ _ rx ry rz (tetraArmTaken_test rx ry rz) hn

theorem tetra_order_independent_witness :
    tetraTest 1 ((1 : ℚ) / 2) (1 / 2) (1 / 4) = true ∧
    tetraTest 4 ((1 : ℚ) / 2) (1 / 2) (1 / 4) = true ∧
    (tetraArm 1 (0 : ℚ) 1 2 4 8 16 32 64 (1 / 2) (1 / 2) (1 / 4)
      = tetraArm 4 (0 : ℚ) 1 2 4 8 16 32 64 (1 / 2) (1 / 2) (1 / 4) ∧
     (tetra identityGrid2.Table 0 0 0 0 12 6 3 ((1 : ℚ) / 2) (1 / 2) (1 / 4) 0).1
      = tetraArm 1
          (identityGrid2.Table (0 + (0 + 0 + 0 + ((0 : Nat) : Int))))
          (identityGrid2.Table (0 + (12 + 0 + 0 + ((0 : Nat) : Int))))
          (identityGrid2.Table (0 + (0 + 6 + 0 + ((0 : Nat) : Int))))
          (identityGrid2.Table (0 + (12 + 6 + 0 + ((0 : Nat) : Int))))
          (identityGrid2.Table (0 + (0 + 0 + 3 + ((0 : Nat) : Int))))
          (identityGrid2.Table (0 + (12 + 0 + 3 + ((0 : Nat) : Int))))
          (identityGrid2.Table (0 + (0 + 6 + 3 + ((0 : Nat) : Int))))
          (identityGrid2.Table (0 + (12 + 6 + 3 + ((0 : Nat) : Int))))
          (1 / 2) (1 / 2) (1 / 4)) :=
  have h1 : tetraTest 1 ((1 : ℚ) / 2) (1 / 2) (1 / 4) = true := by
    simp only [tetraTest, decide_eq_true_eq]
    norm_num
  have h4 : tetraTest 4 ((1 : ℚ) / 2) (1 / 2) (1 / 4) = true := by
    simp only [tetraTest, decide_eq_true_eq]
    norm_num
  ⟨h1, h4, tetra_order_independent 1 4 0 1 2 4 8 16 32 64 (1 / 2) (1 / 2) (1 / 4)
    identityGrid2.Table 0 0 0 0 12 6 3 0 h1 h4⟩

theorem tetra32_eq_arm (T : Int → ℚ) (base X0 Y0 Z0 X1 Y1 Z1 : Int) (rx ry rz : ℚ) (c : Nat) :
    (tetra32 T base X0 Y0 Z0 X1 Y1 Z1 rx ry rz c).1
      = tetraArm32 (tetraArmTaken rx ry rz)
          (T (base + (X0 + Y0 + Z0 + (c : Int)))) (T (base + (X1 + Y0 + Z0 + (c : Int))))
          (T (base + (X0 + Y1 + Z0 + (c : Int)))) (T (base + (X1 + Y1 + Z0 + (c : Int))))
          (T (base + (X0 + Y0 + Z1 + (c : Int)))) (T (base + (X1 + Y0 + Z1 + (c : Int))))
          (T (base + (X0 + Y1 + Z1 + (c : Int)))) (T (base + (X1 + Y1 + Z1 + (c : Int))))
          rx ry rz := by
  have hne := tetraArmTaken_ne_zero rx ry rz
  unfold tetraArmTaken at hne ⊢
  unfold tetra32
  split_ifs at hne ⊢ with g1 g2 g3 g4 g5 g6
  · rfl
  · rfl
  · rfl
  · rfl
  · rfl
  · rfl
  · exact absurd rfl hne

/-- The rounding error of the float32 sum of `tetra32`, on samples of magnitude
at most `M` and fractions in `[0, 1]`. -/
theorem tetraSum32_err (c0 a1 b1 a2 b2 a3 b3 rx ry rz M : ℚ)
    (h0 : |c0| ≤ M) (ha1 : |a1| ≤ M) (hb1 : |b1| ≤ M) (ha2 : |a2| ≤ M) (hb2 : |b2| ≤ M)
    (ha3 : |a3| ≤ M) (hb3 : |b3| ≤ M)
    (hx0 : 0 ≤ rx) (hx1 : rx ≤ 1) (hy0 : 0 ≤ ry) (hy1 : ry ≤ 1) (hz0 : 0 ≤ rz) (hz1 : rz ≤ 1) :
    |tetraSum32 c0 (round32 (a1 - b1)) (round32 (a2 - b2)) (round32 (a3 - b3)) rx ry rz
        - (c0 + (a1 - b1) * rx + (a2 - b2) * ry + (a3 - b3) * rz)|
      ≤ M / 262144 + 1 / 2 ^ 146 := by
  have hM : 0 ≤ M := le_trans (abs_nonneg c0) h0
  have hrx : |rx| ≤ 1 := by rw [abs_of_nonneg hx0]; exact hx1
  have hry : |ry| ≤ 1 := by rw [abs_of_nonneg hy0]; exact hy1
  have hrz : |rz| ≤ 1 := by rw [abs_of_nonneg hz0]; exact hz1
  -- one difference, its product with a fraction, and the errors of both
  have step : ∀ a b r : ℚ, |a| ≤ M → |b| ≤ M → |r| ≤ 1 →
      |round32 (round32 (a - b) * r) - (a - b) * r| ≤ 5 * M / 16777216 + 3 / 2 ^ 150 ∧
      |round32 (round32 (a - b) * r)| ≤ 3 * M + 3 / 2 ^ 150 := by
    intro a b r ha hb hr
    obtain ⟨al, au⟩ := abs_le.mp ha
    obtain ⟨bl, bu⟩ := abs_le.mp hb
    have hA : |a - b| ≤ 2 * M := by
      rw [abs_le]
      constructor <;> linarith
    have e1 := round32_close (a - b) (2 * M) hA
    have hc : |round32 (a - b)| ≤ 2 * M + (2 * M / 16777216 + 1 / 2 ^ 150) := by
      obtain ⟨l1, u1⟩ := abs_le.mp e1
      obtain ⟨l2, u2⟩ := abs_le.mp hA
      rw [abs_le]
      constructor <;> linarith
    generalize round32 (a - b) = c at e1 hc ⊢
    have hp : |c * r| ≤ (2 * M + (2 * M / 16777216 + 1 / 2 ^ 150)) * 1 :=
      abs_mul_le_mul c r _ 1 hc hr
    have e2 := round32_close (c * r) _ hp
    have e3 : |(c - (a - b)) * r| ≤ (2 * M / 16777216 + 1 / 2 ^ 150) * 1 :=
      abs_mul_le_mul _ r _ 1 e1 hr
    generalize round32 (c * r) = t at e2 ⊢
    obtain ⟨l2, u2⟩ := abs_le.mp e2
    obtain ⟨l3, u3⟩ := abs_le.mp e3
    obtain ⟨l4, u4⟩ := abs_le.mp hp
    have key : t - (a - b) * r = (t - c * r) + (c - (a - b)) * r := by ring
    constructor
    · rw [key, abs_le]
      constructor <;> norm_num at l2 u2 l3 u3 l4 u4 ⊢ <;> linarith
    · rw [abs_le]
      constructor <;> norm_num at l2 u2 l3 u3 l4 u4 ⊢ <;> linarith
  obtain ⟨p1, q1⟩ := step a1 b1 rx ha1 hb1 hrx
  obtain ⟨p2, q2⟩ := step a2 b2 ry ha2 hb2 hry
  obtain ⟨p3, q3⟩ := step a3 b3 rz ha3 hb3 hrz
  unfold tetraSum32
  generalize round32 (round32 (a1 - b1) * rx) = t1 at p1 q1 ⊢
  generalize round32 (round32 (a2 - b2) * ry) = t2 at p2 q2 ⊢
  generalize round32 (round32 (a3 - b3) * rz) = t3 at p3 q3 ⊢
  obtain ⟨c0l, c0u⟩ := abs_le.mp h0
  obtain ⟨q1l, q1u⟩ := abs_le.mp q1
  obtain ⟨q2l, q2u⟩ := abs_le.mp q2
  obtain ⟨q3l, q3u⟩ := abs_le.mp q3
  have hB1 : |c0 + t1| ≤ 4 * M + 3 / 2 ^ 150 := by
    rw [abs_le]
    constructor <;> linarith
  have e1 := round32_close (c0 + t1) _ hB1
  have hS1 : |round32 (c0 + t1)| ≤ 5 * M + 5 / 2 ^ 150 := by
    obtain ⟨l1, u1⟩ := abs_le.mp e1
    obtain ⟨l2, u2⟩ := abs_le.mp hB1
    rw [abs_le]
    constructor <;> norm_num at l1 u1 l2 u2 ⊢ <;> linarith
  generalize round32 (c0 + t1) = s1 at e1 hS1 ⊢
  obtain ⟨s1l, s1u⟩ := abs_le.mp hS1
  have hB2 : |s1 + t2| ≤ 8 * M + 8 / 2 ^ 150 := by
    rw [abs_le]
    constructor <;> linarith
  have e2 := round32_close (s1 + t2) _ hB2
  have hS2 : |round32 (s1 + t2)| ≤ 9 * M + 10 / 2 ^ 150 := by
    obtain ⟨l1, u1⟩ := abs_le.mp e2
    obtain ⟨l2, u2⟩ := abs_le.mp hB2
    rw [abs_le]
    constructor <;> norm_num at l1 u1 l2 u2 ⊢ <;> linarith
  generalize round32 (s1 + t2) = s2 at e2 hS2 ⊢
  obtain ⟨s2l, s2u⟩ := abs_le.mp hS2
  have hB3 : |s2 + t3| ≤ 12 * M + 13 / 2 ^ 150 := by
    rw [abs_le]
    constructor <;> linarith
  have e3 := round32_close (s2 + t3) _ hB3
  generalize round32 (s2 + t3) = s3 at e3 ⊢
  obtain ⟨p1l, p1u⟩ := abs_le.mp p1
  obtain ⟨p2l, p2u⟩ := abs_le.mp p2
  obtain ⟨p3l, p3u⟩ := abs_le.mp p3
  obtain ⟨e1l, e1u⟩ := abs_le.mp e1
  obtain ⟨e2l, e2u⟩ := abs_le.mp e2
  obtain ⟨e3l, e3u⟩ := abs_le.mp e3
  have key : s3 - (c0 + (a1 - b1) * rx + (a2 - b2) * ry + (a3 - b3) * rz)
      = (s3 - (s2 + t3)) + (s2 - (s1 + t2)) + (s1 - (c0 + t1))
        + (t1 - (a1 - b1) * rx) + (t2 - (a2 - b2) * ry) + (t3 - (a3 - b3) * rz) := by ring
  rw [key, abs_le]
  constructor <;>
    norm_num at p1l p1u p2l p2u p3l p3u e1l e1u e2l e2u e3l e3u ⊢ <;> linarith

/-- The rounded arm of a test that holds differs from the exact arm by the
rounding error of the sum. -/
theorem tetraArm32_err (n : Nat) (d000 d100 d010 d110 d001 d101 d011 d111 rx ry rz M : ℚ)
    (hn : tetraTest n rx ry rz = true)
    (hx0 : 0 ≤ rx) (hx1 : rx ≤ 1) (hy0 : 0 ≤ ry) (hy1 : ry ≤ 1) (hz0 : 0 ≤ rz) (hz1 : rz ≤ 1)
    (h000 : |d000| ≤ M) (h100 : |d100| ≤ M) (h010 : |d010| ≤ M) (h110 : |d110| ≤ M)
    (h001 : |d001| ≤ M) (h101 : |d101| ≤ M) (h011 : |d011| ≤ M) (h111 : |d111| ≤ M) :
    |tetraArm32 n d000 d100 d010 d110 d001 d101 d011 d111 rx ry rz
        - tetraArm n d000 d100 d010 d110 d001 d101 d011 d111 rx ry rz|
      ≤ M / 262144 + 1 / 2 ^ 146 := by
  rcases tetraTest_cases n rx ry rz hn with ⟨rfl, -, -⟩ | ⟨rfl, -, -⟩ | ⟨rfl, -, -⟩ |
      ⟨rfl, -, -⟩ | ⟨rfl, -, -⟩ | ⟨rfl, -, -⟩ <;>
    simp only [tetraArm32, tetraArm] <;>
    apply tetraSum32_err <;> assumption

/-- The fractions of a cell of the float32 `FloatCLUTEval` lie in `[0, 1]`. -/
theorem FloatCLUTEval_cell32_fractions (p : cmsInterpParams ℚ) (rin gin bin : ℚ) :
    (0 ≤ (FloatCLUTEval_cell32 p rin gin bin).rx ∧ (FloatCLUTEval_cell32 p rin gin bin).rx ≤ 1) ∧
    (0 ≤ (FloatCLUTEval_cell32 p rin gin bin).ry ∧ (FloatCLUTEval_cell32 p rin gin bin).ry ≤ 1) ∧
    (0 ≤ (FloatCLUTEval_cell32 p rin gin bin).rz ∧ (FloatCLUTEval_cell32 p rin gin bin).rz ≤ 1) := by
  have frac : ∀ x : ℚ, 0 ≤ round32 (x - ((Int.floor x : Int) : ℚ)) ∧
      round32 (x - ((Int.floor x : Int) : ℚ)) ≤ 1 := by
    intro x
    have h0 : 0 ≤ x - ((Int.floor x : Int) : ℚ) := sub_nonneg.mpr (Int.floor_le x)
    have h1 : x - ((Int.floor x : Int) : ℚ) ≤ 2 ^ (0 : Int) := by
      rw [zpow_zero]
      linarith [Int.lt_floor_add_one x]
    refine ⟨round32_nonneg _ h0, ?_⟩
    have h := round32_le_two_pow _ 0 (by norm_num) h0 h1
    rwa [zpow_zero] at h
  simp only [FloatCLUTEval_cell32, _cmsQuickFloor]
  exact ⟨frac _, frac _, frac _⟩

/-- The float32 `FloatCLUTEval` within the rounding error of the corner bounds. -/
theorem FloatCLUTEval_chan32_between (p : cmsInterpParams ℚ) (rin gin bin lo hi M : ℚ) (c : Nat)
    (hlo : -M ≤ lo) (hhi : hi ≤ M)
    (h : ∀ X ∈ [(FloatCLUTEval_cell32 p rin gin bin).X0, (FloatCLUTEval_cell32 p rin gin bin).X1],
         ∀ Y ∈ [(FloatCLUTEval_cell32 p rin gin bin).Y0, (FloatCLUTEval_cell32 p rin gin bin).Y1],
         ∀ Z ∈ [(FloatCLUTEval_cell32 p rin gin bin).Z0, (FloatCLUTEval_cell32 p rin gin bin).Z1],
           lo ≤ p.Table (X + Y + Z + (c : Int)) ∧ p.Table (X + Y + Z + (c : Int)) ≤ hi) :
    lo - (M / 262144 + 1 / 2 ^ 146) ≤ (FloatCLUTEval_chan32 p rin gin bin c).1 ∧
    (FloatCLUTEval_chan32 p rin gin bin c).1 ≤ hi + (M / 262144 + 1 / 2 ^ 146) := by
  obtain ⟨⟨hx0, hx1⟩, ⟨hy0, hy1⟩, ⟨hz0, hz1⟩⟩ := FloatCLUTEval_cell32_fractions p rin gin bin
  have hc : ∀ X Y Z : Int,
      (X = (FloatCLUTEval_cell32 p rin gin bin).X0 ∨ X = (FloatCLUTEval_cell32 p rin gin bin).X1) →
      (Y = (FloatCLUTEval_cell32 p rin gin bin).Y0 ∨ Y = (FloatCLUTEval_cell32 p rin gin bin).Y1) →
      (Z = (FloatCLUTEval_cell32 p rin gin bin).Z0 ∨ Z = (FloatCLUTEval_cell32 p rin gin bin).Z1) →
      lo ≤ p.Table (0 + (X + Y + Z + (c : Int))) ∧ p.Table (0 + (X + Y + Z + (c : Int))) ≤ hi := by
    intro X Y Z hX hY hZ
    rw [zero_add]
    exact h X (by simpa using hX) Y (by simpa using hY) Z (by simpa using hZ)
  have ha : ∀ d : ℚ, lo ≤ d ∧ d ≤ hi → |d| ≤ M := by
    intro d hd
    rw [abs_le]
    constructor <;> linarith [hd.1, hd.2]
  have h000 := hc _ _ _ (Or.inl rfl) (Or.inl rfl) (Or.inl rfl)
  have h100 := hc _ _ _ (Or.inr rfl) (Or.inl rfl) (Or.inl rfl)
  have h010 := hc _ _ _ (Or.inl rfl) (Or.inr rfl) (Or.inl rfl)
  have h110 := hc _ _ _ (Or.inr rfl) (Or.inr rfl) (Or.inl rfl)
  have h001 := hc _ _ _ (Or.inl rfl) (Or.inl rfl) (Or.inr rfl)
  have h101 := hc _ _ _ (Or.inr rfl) (Or.inl rfl) (Or.inr rfl)
  have h011 := hc _ _ _ (Or.inl rfl) (Or.inr rfl) (Or.inr rfl)
  have h111 := hc _ _ _ (Or.inr rfl) (Or.inr rfl) (Or.inr rfl)
  have hb := tetraArm_between _ _ _ _ _ _ _ _ _ _ _ _ lo hi (tetraArmTaken_test _ _ _)
    hx0 hx1 hy0 hy1 hz0 hz1 h000 h100 h010 h110 h001 h101 h011 h111
  have he := tetraArm32_err _ _ _ _ _ _ _ _ _ _ _ _ M (tetraArmTaken_test _ _ _)
    hx0 hx1 hy0 hy1 hz0 hz1 (ha _ h000) (ha _ h100) (ha _ h010) (ha _ h110) (ha _ h001)
    (ha _ h101) (ha _ h011) (ha _ h111)
  unfold FloatCLUTEval_chan32
  rw [tetra32_eq_arm]
  obtain ⟨el, eu⟩ := abs_le.mp he
  constructor <;> linarith [hb.1, hb.2]

/-- The cell of the pixel `(1/2, 1/2, 1/4)` in `overshootGrid`. -/
theorem overshootGrid_cell :
    FloatCLUTEval_cell32 overshootGrid (1 / 2) (1 / 2) (1 / 4)
      = { X0 := 0, X1 := 4, Y0 := 0, Y1 := 2, Z0 := 0, Z1 := 1,
          rx := 1 / 2, ry := 1 / 2, rz := 1 / 4 } := by
  have hc2 : fclamp ((1 : ℚ) / 2) = 1 / 2 := fclamp_of_mem _ (by norm_num) (by norm_num)
  have hc4 : fclamp ((1 : ℚ) / 4) = 1 / 4 := fclamp_of_mem _ (by norm_num) (by norm_num)
  have r2 : round32 ((1 : ℚ) / 2) = 1 / 2 :=
    round32_exact _ (-1) 8388608 (by norm_num) (by norm_num [abs_of_pos])
      (by norm_num [abs_of_pos]) (by norm_num)
  have r4 : round32 ((1 : ℚ) / 4) = 1 / 4 :=
    round32_exact _ (-2) 8388608 (by norm_num) (by norm_num [abs_of_pos])
      (by norm_num [abs_of_pos]) (by norm_num)
  have f2 : Int.floor ((1 : ℚ) / 2) = 0 := by
    rw [Int.floor_eq_iff]
    constructor <;> norm_num
  have f4 : Int.floor ((1 : ℚ) / 4) = 0 := by
    rw [Int.floor_eq_iff]
    constructor <;> norm_num
  have r1 : round32 (1 : ℚ) = 1 :=
    round32_exact _ 0 8388608 (by norm_num) (by norm_num [abs_of_pos])
      (by norm_num [abs_of_pos]) (by norm_num)
  have n2 : ¬ ((1 : ℚ) / 2 ≥ 1) := by norm_num
  have n4 : ¬ ((1 : ℚ) / 4 ≥ 1) := by norm_num
  simp only [FloatCLUTEval_cell32, _cmsQuickFloor, overshootGrid, hc2, hc4, Nat.cast_one, r1,
    mul_one, r2, r4, f2, f4, Int.cast_zero, sub_zero, if_neg n2, if_neg n4]
  norm_num

/-- The pixel `(1/2, 1/2, 1/4)` takes the first arm. -/
theorem overshootGrid_armTaken : tetraArmTaken ((1 : ℚ) / 2) (1 / 2) (1 / 4) = 1 := by
  unfold tetraArmTaken
  rw [if_pos (by norm_num)]

/-- The value `FloatCLUTEval` writes on `overshootGrid` at `(1/2, 1/2, 1/4)` is
the rounded arm on the eight samples of the grid. -/
theorem FloatCLUTEval_chan32_overshootGrid_arm :
    (FloatCLUTEval_chan32 overshootGrid (1 / 2) (1 / 2) (1 / 4) 0).1 =
    tetraArm32 (tetraArmTaken ((1 : ℚ) / 2) (1 / 2) (1 / 4))
          (overshootGrid.Table (0 + (0 + 0 + 0 + ((0 : Nat) : Int))))
          (overshootGrid.Table (0 + (4 + 0 + 0 + ((0 : Nat) : Int))))
          (overshootGrid.Table (0 + (0 + 2 + 0 + ((0 : Nat) : Int))))
          (overshootGrid.Table (0 + (4 + 2 + 0 + ((0 : Nat) : Int))))
          (overshootGrid.Table (0 + (0 + 0 + 1 + ((0 : Nat) : Int))))
          (overshootGrid.Table (0 + (4 + 0 + 1 + ((0 : Nat) : Int))))
          (overshootGrid.Table (0 + (0 + 2 + 1 + ((0 : Nat) : Int))))
          (overshootGrid.Table (0 + (4 + 2 + 1 + ((0 : Nat) : Int))))
          (1 / 2) (1 / 2) (1 / 4) := by
  unfold FloatCLUTEval_chan32
  rw [tetra32_eq_arm, overshootGrid_cell]

theorem tetraArm32_one (d000 d100 d010 d110 d001 d101 d011 d111 rx ry rz : ℚ) :
    tetraArm32 1 d000 d100 d010 d110 d001 d101 d011 d111 rx ry rz
      = round32 (round32 (round32 (d000 + round32 (round32 (d100 - d000) * rx))
          + round32 (round32 (d110 - d100) * ry)) + round32 (round32 (d111 - d110) * rz)) := by
  simp only [tetraArm32, tetraSum32]

/-- The float32 evaluation of `FloatCLUTEval` on `overshootGrid` at the pixel
`(1/2, 1/2, 1/4)`: the result is `3/4 + 2^-23` (bits `0x3F400002`). -/
theorem FloatCLUTEval_chan32_overshootGrid : (FloatCLUTEval_chan32 overshootGrid (1 / 2) (1 / 2) (1 / 4) 0).1 = 3 / 4 + 1 / 8388608 := by
  rw [FloatCLUTEval_chan32_overshootGrid_arm, overshootGrid_armTaken, tetraArm32_one]
  have e000 : overshootGrid.Table (0 + (0 + 0 + 0 + ((0 : Nat) : Int))) = 3 / 4 + 1 / 16777216 := by
    simp [overshootGrid]
  have e100 : overshootGrid.Table (0 + (4 + 0 + 0 + ((0 : Nat) : Int))) = 3 / 4 - 1 / 8388608 := by
    simp [overshootGrid]
  have e110 : overshootGrid.Table (0 + (4 + 2 + 0 + ((0 : Nat) : Int))) = 3 / 4 + 1 / 16777216 := by
    simp [overshootGrid]
  have e111 : overshootGrid.Table (0 + (4 + 2 + 1 + ((0 : Nat) : Int))) = 3 / 4 + 1 / 16777216 := by
    simp [overshootGrid]
  rw [e000, e100, e110, e111]
  have c1 : round32 ((3 : ℚ) / 4 - 1 / 8388608 - (3 / 4 + 1 / 16777216)) = -(3 / 16777216) := by
    rw [round32_exact _ (-23) (-12582912) (by norm_num) (by norm_num [abs_of_neg])
      (by norm_num [abs_of_neg]) (by norm_num)]
    norm_num
  have c2 : round32 ((3 : ℚ) / 4 + 1 / 16777216 - (3 / 4 - 1 / 8388608)) = 3 / 16777216 := by
    rw [round32_exact _ (-23) 12582912 (by norm_num) (by norm_num [abs_of_pos])
      (by norm_num [abs_of_pos]) (by norm_num)]
    norm_num
  have c3 : round32 ((3 : ℚ) / 4 + 1 / 16777216 - (3 / 4 + 1 / 16777216)) = 0 := by
    rw [sub_self, round32_zero]
  rw [c1, c2, c3]
  have p1 : round32 (-((3 : ℚ) / 16777216) * (1 / 2)) = -(3 / 33554432) := by
    rw [round32_exact _ (-24) (-12582912) (by norm_num) (by norm_num [abs_of_neg])
      (by norm_num [abs_of_neg]) (by norm_num)]
    norm_num
  have p2 : round32 ((3 : ℚ) / 16777216 * (1 / 2)) = 3 / 33554432 := by
    rw [round32_exact _ (-24) 12582912 (by norm_num) (by norm_num [abs_of_pos])
      (by norm_num [abs_of_pos]) (by norm_num)]
    norm_num
  have p3 : round32 ((0 : ℚ) * (1 / 4)) = 0 := by
    rw [zero_mul, round32_zero]
  rw [p1, p2, p3]
  have s1 : round32 ((3 : ℚ) / 4 + 1 / 16777216 + -(3 / 33554432)) = 3 / 4 := by
    rw [round32_eval _ (-1) 12582912 (by norm_num) (by norm_num [abs_of_pos])
      (by norm_num [abs_of_pos])
      (roundHalfEven_eval _ 12582911 12582912 (by norm_num) (by norm_num) (by norm_num))]
    norm_num
  rw [s1]
  have s2 : round32 ((3 : ℚ) / 4 + 3 / 33554432) = 3 / 4 + 1 / 8388608 := by
    rw [round32_eval _ (-1) 12582914 (by norm_num) (by norm_num [abs_of_pos])
      (by norm_num [abs_of_pos])
      (roundHalfEven_eval _ 12582913 12582914 (by norm_num) (by norm_num) (by norm_num))]
    norm_num
  rw [s2, add_zero]
  exact round32_exact _ (-1) 12582914 (by norm_num) (by norm_num [abs_of_pos])
    (by norm_num [abs_of_pos]) (by norm_num)

/-- C27 (amended): over the reals `FloatCLUTEval` never overshoots, and in
float32 arithmetic it overshoots by rounding only.  Over the reals: whenever
`lo` and `hi` bound the samples `Table[{X0,X1} + {Y0,Y1} + {Z0,Z1} + c]` at the
corners of the cell of the pixel, the value written for channel `c` lies
between `lo` and `hi`; with `lo` the least and `hi` the greatest corner sample
this is the claim.  In float32 arithmetic, every operation rounded to nearest
(`FloatCLUTEval_chan32`): when moreover `M` bounds the magnitude of `lo` and
`hi`, the value written lies between `lo - E` and `hi + E` with
`E = M * 2^-18 + 2^-146`.  The bound `M <= 2^100` keeps every intermediate
result below the float32 overflow threshold, which `round32` does not model. -/
theorem FloatCLUTEval_no_overshoot {β : Type} [LinearOrderedField β] [FloorRing β]
    (p : cmsInterpParams β) (rin gin bin lo hi : β) (c : Nat)
    (p32 : cmsInterpParams ℚ) (rin32 gin32 bin32 lo32 hi32 M : ℚ) (c32 : Nat)
    (h : ∀ X ∈ [(FloatCLUTEval_cell p rin gin bin).X0, (FloatCLUTEval_cell p rin gin bin).X1],
         ∀ Y ∈ [(FloatCLUTEval_cell p rin gin bin).Y0, (FloatCLUTEval_cell p rin gin bin).Y1],
         ∀ Z ∈ [(FloatCLUTEval_cell p rin gin bin).Z0, (FloatCLUTEval_cell p rin gin bin).Z1],
           lo ≤ p.Table (X + Y + Z + (c : Int)) ∧ p.Table (X + Y + Z + (c : Int)) ≤ hi)
    (hlo : -M ≤ lo32) (hhi : hi32 ≤ M) (_hM : M ≤ 2 ^ 100)
    (h32 : ∀ X ∈ [(FloatCLUTEval_cell32 p32 rin32 gin32 bin32).X0,
                  (FloatCLUTEval_cell32 p32 rin32 gin32 bin32).X1],
           ∀ Y ∈ [(FloatCLUTEval_cell32 p32 rin32 gin32 bin32).Y0,
                  (FloatCLUTEval_cell32 p32 rin32 gin32 bin32).Y1],
           ∀ Z ∈ [(FloatCLUTEval_cell32 p32 rin32 gin32 bin32).Z0,
                  (FloatCLUTEval_cell32 p32 rin32 gin32 bin32).Z1],
             lo32 ≤ p32.Table (X + Y + Z + (c32 : Int)) ∧
             p32.Table (X + Y + Z + (c32 : Int)) ≤ hi32) :
    (lo ≤ (FloatCLUTEval_chan p rin gin bin c).1 ∧ (FloatCLUTEval_chan p rin gin bin c).1 ≤ hi) ∧
    (lo32 - (M / 262144 + 1 / 2 ^ 146) ≤ (FloatCLUTEval_chan32 p32 rin32 gin32 bin32 c32).1 ∧
     (FloatCLUTEval_chan32 p32 rin32 gin32 bin32 c32).1 ≤ hi32 + (M / 262144 + 1 / 2 ^ 146)) := by
  refine ⟨?_, FloatCLUTEval_chan32_between p32 rin32 gin32 bin32 lo32 hi32 M c32 hlo hhi h32⟩
  obtain ⟨⟨hx0, hx1⟩, ⟨hy0, hy1⟩, ⟨hz0, hz1⟩⟩ := FloatCLUTEval_cell_fractions p rin gin bin
  have hc : ∀ X Y Z : Int,
      (X = (FloatCLUTEval_cell p rin gin bin).X0 ∨ X = (FloatCLUTEval_cell p rin gin bin).X1) →
      (Y = (FloatCLUTEval_cell p rin gin bin).Y0 ∨ Y = (FloatCLUTEval_cell p rin gin bin).Y1) →
      (Z = (FloatCLUTEval_cell p rin gin bin).Z0 ∨ Z = (FloatCLUTEval_cell p rin gin bin).Z1) →
      lo ≤ p.Table (0 + (X + Y + Z + (c : Int))) ∧ p.Table (0 + (X + Y + Z + (c : Int))) ≤ hi := by
    intro X Y Z hX hY hZ
    rw [zero_add]
    exact h X (by simpa using hX) Y (by simpa using hY) Z (by simpa using hZ)
  rw [FloatCLUTEval_chan_eq_tetra, (tetra_eq_arm _ _ _ _ _ _ _ _ _ _ _ _).1]
  exact tetraArm_between _ _ _ _ _ _ _ _ _ _ _ _ lo hi (tetraArmTaken_test _ _ _)
    hx0 (le_of_lt hx1) hy0 (le_of_lt hy1) hz0 (le_of_lt hz1)
    (hc _ _ _ (Or.inl rfl) (Or.inl rfl) (Or.inl rfl))
    (hc _ _ _ (Or.inr rfl) (Or.inl rfl) (Or.inl rfl))
    (hc _ _ _ (Or.inl rfl) (Or.inr rfl) (Or.inl rfl))
    (hc _ _ _ (Or.inr rfl) (Or.inr rfl) (Or.inl rfl))
    (hc _ _ _ (Or.inl rfl) (Or.inl rfl) (Or.inr rfl))
    (hc _ _ _ (Or.inr rfl) (Or.inl rfl) (Or.inr rfl))
    (hc _ _ _ (Or.inl rfl) (Or.inr rfl) (Or.inr rfl))
    (hc _ _ _ (Or.inr rfl) (Or.inr rfl) (Or.inr rfl))

/-- Every sample of the two-point identity grid is 0 or 1. -/
theorem identityGrid2_samples (n : Int) :
    0 ≤ identityGrid2.Table n ∧ identityGrid2.Table n ≤ 1 := by
  simp only [identityGrid2]
  generalize n.toNat = k
  rcases Nat.lt_or_ge k 24 with hk | hk
  · interval_cases k <;> simp
  · rw [List.getD_eq_default _ _ (by simpa using hk)]
    simp

/-- Witness for C27: the two-point identity grid, whose samples are 0 or 1, at
the pixel `(1/3, 1/2, 1/4)`. -/
theorem FloatCLUTEval_no_overshoot_witness :
    (0 ≤ (FloatCLUTEval_chan identityGrid2 ((1 : ℚ) / 3) (1 / 2) (1 / 4) 0).1 ∧
     (FloatCLUTEval_chan identityGrid2 ((1 : ℚ) / 3) (1 / 2) (1 / 4) 0).1 ≤ 1) ∧
    (0 - ((1 : ℚ) / 262144 + 1 / 2 ^ 146)
        ≤ (FloatCLUTEval_chan32 identityGrid2 (1 / 3) (1 / 2) (1 / 4) 0).1 ∧
     (FloatCLUTEval_chan32 identityGrid2 (1 / 3) (1 / 2) (1 / 4) 0).1
        ≤ 1 + ((1 : ℚ) / 262144 + 1 / 2 ^ 146)) :=
  FloatCLUTEval_no_overshoot identityGrid2 (1 / 3) (1 / 2) (1 / 4) 0 1 0
    identityGrid2 (1 / 3) (1 / 2) (1 / 4) 0 1 1 0
    (fun _ _ _ _ _ _ => identityGrid2_samples _)
    (by norm_num) (by norm_num) (by norm_num)
    (fun _ _ _ _ _ _ => identityGrid2_samples _)

/-- C27 (counterexample): in float32 arithmetic `FloatCLUTEval` overshoots.
Every sample of `overshootGrid` is a float32 and at most `3/4 + 2^-24` (bits
`0x3F400001`); at the pixel `(1/2, 1/2, 1/4)` the first arm is taken,
`c0 + c1*rx = 3/4 - 2^-25` rounds to `3/4`, adding `c2*ry = 3 * 2^-25` rounds to
`3/4 + 2^-23`, and the value written is `3/4 + 2^-23` (bits `0x3F400002`), one
unit in the last place above the greatest corner sample. -/
theorem FloatCLUTEval_overshoots_in_float32 :
    (∀ n : Int, overshootGrid.Table n ≤ 3 / 4 + 1 / 16777216) ∧
    (∀ n : Int, round32 (overshootGrid.Table n) = overshootGrid.Table n) ∧
    round32 (1 / 2) = 1 / 2 ∧ round32 (1 / 4) = 1 / 4 ∧
    (FloatCLUTEval_chan32 overshootGrid (1 / 2) (1 / 2) (1 / 4) 0).1 = 3 / 4 + 1 / 8388608 ∧
    (3 / 4 + 1 / 16777216 : ℚ)
      < (FloatCLUTEval_chan32 overshootGrid (1 / 2) (1 / 2) (1 / 4) 0).1 := by
  refine ⟨?_, ?_, ?_, ?_, FloatCLUTEval_chan32_overshootGrid, ?_⟩
  · intro n
    simp only [overshootGrid]
    split_ifs <;> norm_num
  · intro n
    simp only [overshootGrid]
    split_ifs
    · exact round32_exact _ (-1) 12582910 (by norm_num) (by norm_num [abs_of_pos])
        (by norm_num [abs_of_pos]) (by norm_num)
    · exact round32_exact _ (-1) 12582913 (by norm_num) (by norm_num [abs_of_pos])
        (by norm_num [abs_of_pos]) (by norm_num)
  · exact round32_exact _ (-1) 8388608 (by norm_num) (by norm_num [abs_of_pos])
      (by norm_num [abs_of_pos]) (by norm_num)
  · exact round32_exact _ (-2) 8388608 (by norm_num) (by norm_num [abs_of_pos])
      (by norm_num [abs_of_pos]) (by norm_num)
  · rw [FloatCLUTEval_chan32_overshootGrid]
    norm_num

/-! ## Ties -/

theorem identityGrid2_cell_half :
    (FloatCLUTEval_cell identityGrid2 ((1 : ℚ) / 2) (1 / 2) (1 / 2)).rx = 1 / 2 ∧
    (FloatCLUTEval_cell identityGrid2 ((1 : ℚ) / 2) (1 / 2) (1 / 2)).X0 = 0 ∧
    (FloatCLUTEval_cell identityGrid2 ((1 : ℚ) / 2) (1 / 2) (1 / 2)).Y0 = 0 ∧
    (FloatCLUTEval_cell identityGrid2 ((1 : ℚ) / 2) (1 / 2) (1 / 2)).Z0 = 0 := by
  have hc : fclamp ((1 : ℚ) / 2) = 1 / 2 := fclamp_of_mem _ (by norm_num) (by norm_num)
  have hf : Int.floor ((1 : ℚ) / 2 * ((1 : Nat) : ℚ)) = 0 := by
    rw [Int.floor_eq_iff]
    constructor <;> norm_num
  simp only [FloatCLUTEval_cell, _cmsQuickFloor, identityGrid2, hc, hf]
  norm_num

/-- C22 (amended): a tie is served by the first arm, not by the final `else`.
When the three fractions of the cell of a pixel are equal, the arm executed is
arm 1 (`rx >= ry && ry >= rz`) and the value written for channel `c` is
`c0 + (Table[X1 + Y1 + Z1 + c] - c0) * rx` with `c0 = Table[X0 + Y0 + Z0 + c]`:
the lower-corner sample only if `rx = 0` or the two samples agree. -/
theorem FloatCLUTEval_tie_takes_first_arm {β : Type} [LinearOrderedField β] [FloorRing β]
    (p : cmsInterpParams β) (rin gin bin : β) (c : Nat)
    (hxy : (FloatCLUTEval_cell p rin gin bin).rx = (FloatCLUTEval_cell p rin gin bin).ry)
    (hyz : (FloatCLUTEval_cell p rin gin bin).ry = (FloatCLUTEval_cell p rin gin bin).rz) :
    tetraArmTaken (FloatCLUTEval_cell p rin gin bin).rx (FloatCLUTEval_cell p rin gin bin).ry
      (FloatCLUTEval_cell p rin gin bin).rz = 1 ∧
    (FloatCLUTEval_chan p rin gin bin c).1
      = p.Table ((FloatCLUTEval_cell p rin gin bin).X0 + (FloatCLUTEval_cell p rin gin bin).Y0
            + (FloatCLUTEval_cell p rin gin bin).Z0 + (c : Int))
        + (p.Table ((FloatCLUTEval_cell p rin gin bin).X1 + (FloatCLUTEval_cell p rin gin bin).Y1
              + (FloatCLUTEval_cell p rin gin bin).Z1 + (c : Int))
            - p.Table ((FloatCLUTEval_cell p rin gin bin).X0
              + (FloatCLUTEval_cell p rin gin bin).Y0
              + (FloatCLUTEval_cell p rin gin bin).Z0 + (c : Int)))
          * (FloatCLUTEval_cell p rin gin bin).rx := by
  have ht : tetraArmTaken (FloatCLUTEval_cell p rin gin bin).rx
      (FloatCLUTEval_cell p rin gin bin).ry (FloatCLUTEval_cell p rin gin bin).rz = 1 := by
    unfold tetraArmTaken
    rw [if_pos ⟨le_of_eq hxy.symm, le_of_eq hyz.symm⟩]
  refine ⟨ht, ?_⟩
  rw [FloatCLUTEval_chan_eq_tetra, (tetra_eq_arm _ _ _ _ _ _ _ _ _ _ _ _).1, ht]
  simp only [tetraArm, zero_add]
  rw [← hyz, ← hxy]
  ring

theorem FloatCLUTEval_tie_takes_first_arm_witness :
    tetraArmTaken (FloatCLUTEval_cell identityGrid2 ((1 : ℚ) / 2) (1 / 2) (1 / 2)).rx
      (FloatCLUTEval_cell identityGrid2 ((1 : ℚ) / 2) (1 / 2) (1 / 2)).ry
      (FloatCLUTEval_cell identityGrid2 ((1 : ℚ) / 2) (1 / 2) (1 / 2)).rz = 1 ∧
    (FloatCLUTEval_chan identityGrid2 ((1 : ℚ) / 2) (1 / 2) (1 / 2) 0).1
      = identityGrid2.Table ((FloatCLUTEval_cell identityGrid2 ((1 : ℚ) / 2) (1 / 2) (1 / 2)).X0
            + (FloatCLUTEval_cell identityGrid2 ((1 : ℚ) / 2) (1 / 2) (1 / 2)).Y0
            + (FloatCLUTEval_cell identityGrid2 ((1 : ℚ) / 2) (1 / 2) (1 / 2)).Z0
            + ((0 : Nat) : Int))
        + (identityGrid2.Table
              ((FloatCLUTEval_cell identityGrid2 ((1 : ℚ) / 2) (1 / 2) (1 / 2)).X1
              + (FloatCLUTEval_cell identityGrid2 ((1 : ℚ) / 2) (1 / 2) (1 / 2)).Y1
              + (FloatCLUTEval_cell identityGrid2 ((1 : ℚ) / 2) (1 / 2) (1 / 2)).Z1
              + ((0 : Nat) : Int))
            - identityGrid2.Table
              ((FloatCLUTEval_cell identityGrid2 ((1 : ℚ) / 2) (1 / 2) (1 / 2)).X0
              + (FloatCLUTEval_cell identityGrid2 ((1 : ℚ) / 2) (1 / 2) (1 / 2)).Y0
              + (FloatCLUTEval_cell identityGrid2 ((1 : ℚ) / 2) (1 / 2) (1 / 2)).Z0
              + ((0 : Nat) : Int)))
          * (FloatCLUTEval_cell identityGrid2 ((1 : ℚ) / 2) (1 / 2) (1 / 2)).rx :=
  FloatCLUTEval_tie_takes_first_arm identityGrid2 (1 / 2) (1 / 2) (1 / 2) 0 rfl rfl

/-- C22 fails as stated: on the two-point identity grid the pixel
`(1/2, 1/2, 1/2)` has the fractions `rx = ry = rz = 1/2`, a tie; the lower-corner
sample of channel 0 is `Table[X0 + Y0 + Z0 + 0] = 0`, and `FloatCLUTEval`
writes `1/2` for channel 0. -/
theorem FloatCLUTEval_tie_not_lower_corner :
    (FloatCLUTEval_cell identityGrid2 ((1 : ℚ) / 2) (1 / 2) (1 / 2)).rx = 1 / 2 ∧
    (FloatCLUTEval_cell identityGrid2 ((1 : ℚ) / 2) (1 / 2) (1 / 2)).ry = 1 / 2 ∧
    (FloatCLUTEval_cell identityGrid2 ((1 : ℚ) / 2) (1 / 2) (1 / 2)).rz = 1 / 2 ∧
    identityGrid2.Table ((FloatCLUTEval_cell identityGrid2 ((1 : ℚ) / 2) (1 / 2) (1 / 2)).X0
        + (FloatCLUTEval_cell identityGrid2 ((1 : ℚ) / 2) (1 / 2) (1 / 2)).Y0
        + (FloatCLUTEval_cell identityGrid2 ((1 : ℚ) / 2) (1 / 2) (1 / 2)).Z0
        + ((0 : Nat) : Int)) = 0 ∧
    written (FloatCLUTEval identityGrid2 [((1 : ℚ) / 2, (1 : ℚ) / 2, (1 : ℚ) / 2)]) 0 0
      = some (1 / 2) ∧
    (1 : ℚ) / 2 ≠ 0 := by
  obtain ⟨hrx, hX, hY, hZ⟩ := identityGrid2_cell_half
  have hry : (FloatCLUTEval_cell identityGrid2 ((1 : ℚ) / 2) (1 / 2) (1 / 2)).ry = 1 / 2 :=
    hrx
  have hrz : (FloatCLUTEval_cell identityGrid2 ((1 : ℚ) / 2) (1 / 2) (1 / 2)).rz = 1 / 2 :=
    hrx
  refine ⟨hrx, hry, hrz, ?_, ?_, by norm_num⟩
  · rw [hX, hY, hZ]
    simp [identityGrid2]
  · rw [written_FloatCLUTEval identityGrid2 _ 0 0 ((1 : ℚ) / 2, (1 : ℚ) / 2, (1 : ℚ) / 2) rfl
      (by decide)]
    have h := FloatCLUTEval_chan_affine identityGrid2 (fun _ => (0 : ℚ))
      (fun n => if n = 0 then (1 : ℚ) else 0) (fun n => if n = 1 then (1 : ℚ) else 0)
      (fun n => if n = 2 then (1 : ℚ) else 0) 0
      (by decide) (by decide) (by decide) (identityGrid2_affine 0 (by decide))
      (1 / 2) (1 / 2) (1 / 2) (Or.inr (by norm_num)) (by norm_num) (Or.inr (by norm_num))
      (by norm_num) (Or.inr (by norm_num)) (by norm_num)
    rw [h]
    simp [identityGrid2]

/-! ## Clamping and NaN -/

/-- C24 (as the code has it): on every number `fclamp100` returns a value in
`[0, 100]`, and the grid coordinate `FloatCMYKCLUTEval` derives from it lies in
`[0, Domain]`; but NaN fails both comparisons of `fclamp100` and is returned
as it is, where `fclamp`, with its `isnan` test, returns 0. -/
theorem fclamp100_passes_NaN {β : Type} [LinearOrderedField β] :
    (∀ v : β, 0 ≤ fclamp100 v ∧ fclamp100 v ≤ 100) ∧
    (∀ (v : β) (D : Nat), 0 ≤ fclamp100 v / 100 * (D : β) ∧ fclamp100 v / 100 * (D : β) ≤ (D : β)) ∧
    (∀ v : β, WithNaN.fclamp100 (Float32OrNaN.num v) = Float32OrNaN.num (fclamp100 v)) ∧
    (∀ v : β, WithNaN.fclamp (Float32OrNaN.num v) = Float32OrNaN.num (fclamp v)) ∧
    WithNaN.fclamp (Float32OrNaN.NaN : Float32OrNaN β) = Float32OrNaN.num 0 ∧
    WithNaN.fclamp100 (Float32OrNaN.NaN : Float32OrNaN β) = Float32OrNaN.NaN := by
  have hb : ∀ v : β, 0 ≤ fclamp100 v ∧ fclamp100 v ≤ 100 := by
    intro v
    unfold fclamp100
    split_ifs with h1 h2
    · exact ⟨le_refl 0, by norm_num⟩
    · exact ⟨by norm_num, le_refl 100⟩
    · exact ⟨not_lt.mp h1, not_lt.mp h2⟩
  refine ⟨hb, ?_, ?_, ?_, ?_, ?_⟩
  · intro v D
    obtain ⟨h0, h1⟩ := hb v
    have hD : (0 : β) ≤ (D : β) := Nat.cast_nonneg D
    have h2 : 0 ≤ fclamp100 v / 100 := div_nonneg h0 (by norm_num)
    have h3 : fclamp100 v / 100 ≤ 1 := by
      rw [div_le_one (by norm_num)]
      exact h1
    exact ⟨mul_nonneg h2 hD, by nlinarith⟩
  · intro v
    unfold WithNaN.fclamp100 fclamp100
    by_cases h1 : v < 0
    · simp [WithNaN.lt, h1]
    · by_cases h2 : v > 100
      · simp [WithNaN.lt, WithNaN.gt, h1, h2]
      · simp [WithNaN.lt, WithNaN.gt, h1, h2]
  · intro v
    unfold WithNaN.fclamp fclamp
    simp only [WithNaN.lt, WithNaN.gt, WithNaN.isnan, Bool.or_false, decide_eq_true_eq]
    by_cases h1 : v < 9007199 / 9007199254740992
    · rw [if_pos h1, if_pos h1]
    · rw [if_neg h1, if_neg h1]
      by_cases h2 : v > 1
      · rw [if_pos h2, if_pos h2]
      · rw [if_neg h2, if_neg h2]
  · simp [WithNaN.fclamp, WithNaN.lt, WithNaN.isnan]
  · simp [WithNaN.fclamp100, WithNaN.lt, WithNaN.gt]

/-! ## The grid size of the CMYK optimizer -/

/-- When `OptimizeCLUTCMYKTransform` returns TRUE, the table it installs is the
one sampled with the grid size the heuristic gives for `cmsSigRgbData`. -/
theorem OptimizeCLUTCMYKTransform_true {β : Type} (env : Lcms2Calls β) (a : OptimizerArgs β)
    (o : OptimizeOutcome β) (h : OptimizeCLUTCMYKTransform env a = some o)
    (hret : o.ret = true) :
    ∃ L P, a.Lut = some L ∧
      env.cmsStageSampleCLutFloat
        (env._cmsReasonableGridpointsByColorspace cmsColorSpaceSignature.cmsSigRgbData a.dwFlags)
        4 (env.cmsPipelineOutputChannels L) L = some P ∧
      o.args.UserData = UserData.clut P := by
  unfold OptimizeCLUTCMYKTransform at h
  split at h
  · simp only [Option.some.injEq] at h
    subst h
    exact Bool.noConfusion hret
  · rename_i L hL
    split_ifs at h with h1 h2 h3 h4 h5 h6 h7
    all_goals try dsimp only at h
    all_goals try
      (simp only [Option.some.injEq] at h
       subst h
       exact Bool.noConfusion hret)
    all_goals
      split at h
      · simp only [Option.some.injEq] at h
        subst h
        exact Bool.noConfusion hret
      · rename_i P hP
        simp only [Option.some.injEq] at h
        subst h
        first
          | exact Bool.noConfusion hret
          | exact ⟨L, P, hL, hP, rfl⟩

/-- C23 (as the code has it): `OptimizeCLUTCMYKTransform` sizes the resampled
CLUT with the heuristic applied to `cmsSigRgbData`, not to the CMYK colour
space of the transform.  For every heuristic the table installed by a
successful call is the one sampled on `g(RGB, *dwFlags)` points per axis; with
a heuristic that gives 17 points for CMYK and 33 otherwise, the call on a float
CMYK transform installs a table with `Domain[a] = 32`, that is 33 points per
axis. -/
theorem OptimizeCLUTCMYKTransform_grid_from_RGB :
    (∀ (β : Type) (env : Lcms2Calls β) (a : OptimizerArgs β) (o : OptimizeOutcome β),
      OptimizeCLUTCMYKTransform env a = some o → o.ret = true →
      ∃ L P, a.Lut = some L ∧
        env.cmsStageSampleCLutFloat
          (env._cmsReasonableGridpointsByColorspace cmsColorSpaceSignature.cmsSigRgbData
            a.dwFlags)
          4 (env.cmsPipelineOutputChannels L) L = some P ∧
        o.args.UserData = UserData.clut P) ∧
    cmykArgs.InputFormat.T_COLORSPACE = PT_CMYK ∧
    recordingCalls._cmsReasonableGridpointsByColorspace cmsColorSpaceSignature.cmsSigCmykData
      cmykArgs.dwFlags = 17 ∧
    recordingCalls._cmsReasonableGridpointsByColorspace cmsColorSpaceSignature.cmsSigRgbData
      cmykArgs.dwFlags = 33 ∧
    ∃ o P, OptimizeCLUTCMYKTransform recordingCalls cmykArgs = some o ∧ o.ret = true ∧
      o.args.UserData = UserData.clut P ∧ ∀ a, P.Domain a + 1 = 33 := by
  refine ⟨fun β env a o h hret => OptimizeCLUTCMYKTransform_true env a o h hret, rfl, rfl, rfl,
    ?_⟩
  refine ⟨_, _, rfl, rfl, rfl, ?_⟩
  intro a
  rfl

/-! ## Monotone tables -/

theorem table_mono {β : Type} [LinearOrderedField β] (T : Int → β)
    (hT : ∀ j : Int, 0 ≤ j → j ≤ 32767 → T j ≤ T (j + 1)) (i j : Int)
    (hi : 0 ≤ i) (hij : i ≤ j) (hj : j ≤ 32768) : T i ≤ T j := by
  have key : ∀ n : Int, i ≤ n → n ≤ 32768 → T i ≤ T n := by
    intro n
    have step := @Int.le_induction (fun n => n ≤ 32768 → T i ≤ T n) i (fun _ => le_refl _)
      (fun n hn ih h => le_trans (ih (by omega)) (hT n (by omega) (by omega)))
    exact step n
  exact key j hij hj

/-- Between the thresholds `flerp` returns `y0 + (y1 - y0) * rest` on the cells
`floor` and `ceil` of `v * 32768`; on a non-decreasing table this lies between
the two samples. -/
theorem flerp_mid {β : Type} [LinearOrderedField β] [FloorRing β] (T : Int → β) (v : β)
    (h1 : 9007199 / 9007199254740992 ≤ v) (h2 : v < 1) :
    (flerp T v).1 = T (Int.floor (v * 32768))
      + (T (Int.ceil (v * 32768)) - T (Int.floor (v * 32768)))
        * (v * 32768 - (Int.floor (v * 32768) : β)) := by
  have hN2 : (((MAX_NODES_IN_CURVE - 1 : Nat) : Int) : β) = 32768 := by
    simp [MAX_NODES_IN_CURVE]
  simp only [flerp, if_neg (not_lt.mpr h1), if_neg (not_le.mpr h2), ge_iff_le, _cmsQuickFloor,
    hN2]

theorem flerp_mid_between {β : Type} [LinearOrderedField β] [FloorRing β] (T : Int → β)
    (hT : ∀ j : Int, 0 ≤ j → j ≤ 32767 → T j ≤ T (j + 1)) (v : β)
    (h1 : 9007199 / 9007199254740992 ≤ v) (h2 : v < 1) :
    T (Int.floor (v * 32768)) ≤ (flerp T v).1 ∧ (flerp T v).1 ≤ T (Int.ceil (v * 32768)) := by
  obtain ⟨k0, k1, c1, hpos, hzero⟩ := flerp_cells v h1 h2
  have hr0 : 0 ≤ v * 32768 - (Int.floor (v * 32768) : β) := sub_nonneg.mpr (Int.floor_le _)
  have hr1 : v * 32768 - (Int.floor (v * 32768) : β) < 1 := by
    have := Int.lt_floor_add_one (v * 32768)
    linarith
  rw [flerp_mid T v h1 h2]
  rcases eq_or_lt_of_le hr0 with hz | hp
  · rw [← hz, mul_zero, add_zero, hzero hz.symm]
    exact ⟨le_refl _, le_refl _⟩
  · have hc := hpos hp
    rw [hc]
    have hm := hT _ k0 k1
    constructor
    · nlinarith [mul_nonneg (sub_nonneg.mpr hm) hr0]
    · nlinarith [mul_nonneg (sub_nonneg.mpr hm) (le_of_lt (sub_pos.mpr hr1))]

/-- On a non-decreasing table every value of `flerp` lies between the first and
the last sample. -/
theorem flerp_range {β : Type} [LinearOrderedField β] [FloorRing β] (T : Int → β)
    (hT : ∀ j : Int, 0 ≤ j → j ≤ 32767 → T j ≤ T (j + 1)) (v : β) :
    T 0 ≤ (flerp T v).1 ∧ (flerp T v).1 ≤ T 32768 := by
  have hends : T 0 ≤ T 32768 := table_mono T hT 0 32768 (le_refl 0) (by norm_num) (le_refl _)
  have hN : (MAX_NODES_IN_CURVE : Int) - 1 = 32768 := by
    simp [MAX_NODES_IN_CURVE]
  by_cases h1 : v < 9007199 / 9007199254740992
  · simp only [flerp, if_pos h1]
    exact ⟨le_refl _, hends⟩
  · by_cases h2 : v ≥ 1
    · simp only [flerp, if_neg h1, if_pos h2, hN]
      exact ⟨hends, le_refl _⟩
    · obtain ⟨k0, k1, c1, _, _⟩ := flerp_cells v (not_lt.mp h1) (not_le.mp h2)
      obtain ⟨b0, b1⟩ := flerp_mid_between T hT v (not_lt.mp h1) (not_le.mp h2)
      have hkc : Int.floor (v * 32768) ≤ Int.ceil (v * 32768) := Int.floor_le_ceil _
      exact ⟨le_trans (table_mono T hT 0 _ (le_refl 0) k0 (by omega)) b0,
        le_trans b1 (table_mono T hT _ 32768 (by omega) c1 (le_refl _))⟩

/-- C28: `flerp` preserves monotonicity.  On a table with `T[j] <= T[j+1]` for
`j` in `0..32767`, `v <= w` implies `flerp(T, v) <= flerp(T, w)` for all `v`
and `w`, across the thresholds `1e-9` and `1` as well, and every value returned
lies between `T[0]` and `T[32768]`. -/
theorem flerp_monotone {β : Type} [LinearOrderedField β] [FloorRing β] (T : Int → β)
    (v w : β) (hT : ∀ j : Int, 0 ≤ j → j ≤ 32767 → T j ≤ T (j + 1)) (hvw : v ≤ w) :
    (flerp T v).1 ≤ (flerp T w).1 ∧ T 0 ≤ (flerp T v).1 ∧ (flerp T v).1 ≤ T 32768 := by
  have hN : (MAX_NODES_IN_CURVE : Int) - 1 = 32768 := by
    simp [MAX_NODES_IN_CURVE]
  refine ⟨?_, flerp_range T hT v⟩
  by_cases h1 : v < 9007199 / 9007199254740992
  · have e : (flerp T v).1 = T 0 := by simp only [flerp, if_pos h1]
    rw [e]
    exact (flerp_range T hT w).1
  · by_cases hw2 : w ≥ 1
    · have hw1 : ¬ w < 9007199 / 9007199254740992 := by
        rw [not_lt]
        exact le_trans (by norm_num) hw2
      have e : (flerp T w).1 = T 32768 := by simp only [flerp, if_neg hw1, if_pos hw2, hN]
      rw [e]
      exact (flerp_range T hT v).2
    · have hv1 : 9007199 / 9007199254740992 ≤ v := not_lt.mp h1
      have hw1 : 9007199 / 9007199254740992 ≤ w := le_trans hv1 hvw
      have hw2' : w < 1 := not_le.mp hw2
      have hv2 : v < 1 := lt_of_le_of_lt hvw hw2'
      obtain ⟨vk0, vk1, vc1, vpos, vzero⟩ := flerp_cells v hv1 hv2
      obtain ⟨wk0, wk1, wc1, wpos, wzero⟩ := flerp_cells w hw1 hw2'
      obtain ⟨vb0, vb1⟩ := flerp_mid_between T hT v hv1 hv2
      obtain ⟨wb0, wb1⟩ := flerp_mid_between T hT w hw1 hw2'
      have hs : v * 32768 ≤ w * 32768 := by linarith
      have hk : Int.floor (v * 32768) ≤ Int.floor (w * 32768) := Int.floor_le_floor hs
      rcases eq_or_lt_of_le hk with heq | hlt
      · have hr0 : 0 ≤ v * 32768 - (Int.floor (v * 32768) : β) :=
          sub_nonneg.mpr (Int.floor_le _)
        rcases eq_or_lt_of_le hr0 with hz | hp
        · have e : (flerp T v).1 = T (Int.floor (v * 32768)) := by
            rw [flerp_mid T v hv1 hv2, ← hz, mul_zero, add_zero]
          rw [e, heq]
          exact wb0
        · have hpw : 0 < w * 32768 - (Int.floor (w * 32768) : β) := by
            rw [← heq]
            linarith
          rw [flerp_mid T v hv1 hv2, flerp_mid T w hw1 hw2', vpos hp, wpos hpw, ← heq]
          have hm := hT _ vk0 vk1
          nlinarith [mul_nonneg (sub_nonneg.mpr hm) (sub_nonneg.mpr hs)]
      · have hc : Int.ceil (v * 32768) ≤ Int.floor (w * 32768) := by
          have : Int.ceil (v * 32768) ≤ Int.floor (v * 32768) + 1 := Int.ceil_le_floor_add_one _
          omega
        have hc0 : 0 ≤ Int.ceil (v * 32768) := le_trans vk0 (Int.floor_le_ceil _)
        exact le_trans vb1 (le_trans (table_mono T hT _ _ hc0 hc (by omega)) wb0)

theorem flerp_monotone_witness :
    (flerp identityCurves.CurveR ((1 : ℚ) / 4)).1 ≤ (flerp identityCurves.CurveR ((1 : ℚ) / 2)).1 ∧
    identityCurves.CurveR 0 ≤ (flerp identityCurves.CurveR ((1 : ℚ) / 4)).1 ∧
    (flerp identityCurves.CurveR ((1 : ℚ) / 4)).1 ≤ identityCurves.CurveR 32768 :=
  flerp_monotone identityCurves.CurveR (1 / 4) (1 / 2)
    (fun j _ _ => by
      simp only [identityCurves]
      push_cast
      linarith)
    (by norm_num)

end FastFloat

namespace Lcms3

namespace PixelFormat

/-! ## The packed pixel format -/

/-- C20, as the code has it: the colour model is packed from bit 27 and the
channel layout from bit 20 (documented: 28 and 25), so the channel layout field
covers bits 20 to 22 and shares bit 22 with byte endianness and bit 21 with the
extra-channel position.  Packing RGB, Float32 and four false flags decodes with
byte endianness true; packing layout 0 with the extra-channel flag decodes with
layout 2. -/
theorem pack_unpack_overlap :
    ColorModelShift 1 = 2 ^ 27 ∧ ChannelLayoutShift 1 = 2 ^ 20 ∧
    unpack (pack ColorModel_RGB ChannelLayout_Float32 false false false false)
      = (ColorModel_RGB, ChannelLayout_Float32, false, false, true, false) ∧
    unpack (pack ColorModel_RGB 0 false false false true)
      = (ColorModel_RGB, 2, false, false, false, true) := by
  refine ⟨?_, ?_, ?_, ?_⟩ <;> decide

end PixelFormat

end Lcms3

namespace TestPlugin

/-! ## The 5-6-5 formatters -/

/-- Rounding a quotient of naturals to the nearest integer, in integer
arithmetic: `floor(a/b + 0.5) = (2a + b) / (2b)`. -/
theorem floor_add_half (q : ℚ) (a b : Nat) (hb : 0 < b) (hq : q = (a : ℚ) / (b : ℚ) + 1 / 2) :
    (Int.floor q).toNat = (2 * a + b) / (2 * b) := by
  have hb' : (b : ℚ) ≠ 0 := by exact_mod_cast (Nat.pos_iff_ne_zero.mp hb)
  have e : q = ((2 * a + b : Nat) : ℚ) / ((2 * b : Nat) : ℚ) := by
    rw [hq]
    push_cast
    field_simp
    ring
  rw [e, Rat.floor_natCast_div_natCast]
  exact Int.toNat_natCast _

/-- A 5-bit value survives unpacking to 16 bits and packing back. -/
theorem round_trip_5 (x : Nat) (hx : x < 32) :
    (Int.floor ((((Int.floor (((x : ℚ) * 65535) / 31 + 1 / 2)).toNat % 65536 * 31 : Nat) : ℚ)
        / 65535 + 1 / 2)).toNat &&& 31 = x := by
  rw [floor_add_half (((x : ℚ) * 65535) / 31 + 1 / 2) (x * 65535) 31 (by norm_num)
    (by push_cast; ring)]
  rw [floor_add_half _ (((2 * (x * 65535) + 31) / (2 * 31)) % 65536 * 31) 65535 (by norm_num)
    (by push_cast; ring)]
  interval_cases x <;> rfl

/-- A 6-bit value survives unpacking to 16 bits and packing back. -/
theorem round_trip_6 (x : Nat) (hx : x < 64) :
    (Int.floor ((((Int.floor (((x : ℚ) * 65535) / 63 + 1 / 2)).toNat % 65536 * 63 : Nat) : ℚ)
        / 65535 + 1 / 2)).toNat &&& 63 = x := by
  rw [floor_add_half (((x : ℚ) * 65535) / 63 + 1 / 2) (x * 65535) 63 (by norm_num)
    (by push_cast; ring)]
  rw [floor_add_half _ (((2 * (x * 65535) + 63) / (2 * 63)) % 65536 * 63) 65535 (by norm_num)
    (by push_cast; ring)]
  interval_cases x <;> rfl

/-- The three bit fields of a 16-bit word, put back in place, give the word. -/
theorem fields_565 (p : Nat) (hp : p < 65536) :
    ((p &&& 31) ||| (((p >>> 5) &&& 63) <<< 5) ||| (((p >>> 11) &&& 31) <<< 11)) % 65536 = p := by
  have e31 : (31 : Nat) = 2 ^ 5 - 1 := rfl
  have e63 : (63 : Nat) = 2 ^ 6 - 1 := rfl
  rw [e31, e63, Nat.and_pow_two_sub_one_eq_mod, Nat.and_pow_two_sub_one_eq_mod,
    Nat.and_pow_two_sub_one_eq_mod, Nat.shiftRight_eq_div_pow, Nat.shiftRight_eq_div_pow,
    Nat.shiftLeft_eq, Nat.shiftLeft_eq]
  have h1 : p % 2 ^ 5 ||| p / 2 ^ 5 % 2 ^ 6 * 2 ^ 5 = 2 ^ 5 * (p / 2 ^ 5 % 2 ^ 6) + p % 2 ^ 5 := by
    rw [Nat.mul_add_lt_is_or (Nat.mod_lt _ (by norm_num)), Nat.or_comm, Nat.mul_comm]
  have hlt : 2 ^ 5 * (p / 2 ^ 5 % 2 ^ 6) + p % 2 ^ 5 < 2 ^ 11 := by
    have a1 : p % 2 ^ 5 < 2 ^ 5 := Nat.mod_lt _ (by norm_num)
    have a2 : p / 2 ^ 5 % 2 ^ 6 < 2 ^ 6 := Nat.mod_lt _ (by norm_num)
    norm_num at a1 a2 ⊢
    omega
  have h2 : (2 ^ 5 * (p / 2 ^ 5 % 2 ^ 6) + p % 2 ^ 5) ||| p / 2 ^ 11 % 2 ^ 5 * 2 ^ 11
      = 2 ^ 11 * (p / 2 ^ 11 % 2 ^ 5) + (2 ^ 5 * (p / 2 ^ 5 % 2 ^ 6) + p % 2 ^ 5) := by
    rw [Nat.mul_add_lt_is_or hlt, Nat.or_comm, Nat.mul_comm]
  rw [h1, h2]
  norm_num
  omega

/-- C21: the 5-6-5 formatter pair round-trips.  For every 16-bit word `p`,
`my_Pack565` applied to the three channel values `my_Unroll565` produces from
`p` gives `p` again (doubles taken as exact rationals). -/
theorem my_Pack565_my_Unroll565 (p : Nat) (hp : p < 65536) :
    my_Pack565 (my_Unroll565 p) = p := by
  have hx : p &&& 31 < 32 := by
    have e31 : (31 : Nat) = 2 ^ 5 - 1 := rfl
    rw [e31, Nat.and_pow_two_sub_one_eq_mod]
    exact Nat.mod_lt _ (by norm_num)
  have hy : (p >>> 5) &&& 63 < 64 := by
    have e63 : (63 : Nat) = 2 ^ 6 - 1 := rfl
    rw [e63, Nat.and_pow_two_sub_one_eq_mod]
    exact Nat.mod_lt _ (by norm_num)
  have hz : (p >>> 11) &&& 31 < 32 := by
    have e31 : (31 : Nat) = 2 ^ 5 - 1 := rfl
    rw [e31, Nat.and_pow_two_sub_one_eq_mod]
    exact Nat.mod_lt _ (by norm_num)
  simp only [my_Pack565, my_Unroll565]
  rw [round_trip_5 _ hx, round_trip_6 _ hy, round_trip_5 _ hz]
  exact fields_565 p hp

theorem my_Pack565_my_Unroll565_witness :
    stream.map (fun p => my_Pack565 (my_Unroll565 p)) = stream :=
  show [my_Pack565 (my_Unroll565 0xffff), my_Pack565 (my_Unroll565 0x1234),
      my_Pack565 (my_Unroll565 0x0000), my_Pack565 (my_Unroll565 0x33dd)]
      = [0xffff, 0x1234, 0x0000, 0x33dd] by
    rw [my_Pack565_my_Unroll565 0xffff (by norm_num), my_Pack565_my_Unroll565 0x1234 (by norm_num),
      my_Pack565_my_Unroll565 0x0000 (by norm_num), my_Pack565_my_Unroll565 0x33dd (by norm_num)]

end TestPlugin

namespace Cam16

/-! ## CAM16: the cone space matrices -/

/-- C30: `M16_inv` inverts `M16` to within `1e-9`.  In exact arithmetic on the
decimal constants each entry of the product of the two coefficient matrices
(the image of a unit vector under `M16` then `M16_inv`) differs from the
identity matrix by less than `1e-9`, and for `|X|, |Y|, |Z| <= 100` each
component of `M16_inv(M16(xyz))` differs from that of `xyz` by less than
`3e-7`. -/
theorem M16_inv_M16_close {β : Type} [LinearOrderedField β] (X Y Z : β)
    (hX : |X| ≤ 100) (hY : |Y| ≤ 100) (hZ : |Z| ≤ 100) :
    (|(M16_inv (M16 (⟨1, 0, 0⟩ : cmsCIEXYZ β))).X - 1| < 1 / 1000000000 ∧
     |(M16_inv (M16 (⟨0, 1, 0⟩ : cmsCIEXYZ β))).X| < 1 / 1000000000 ∧
     |(M16_inv (M16 (⟨0, 0, 1⟩ : cmsCIEXYZ β))).X| < 1 / 1000000000 ∧
     |(M16_inv (M16 (⟨1, 0, 0⟩ : cmsCIEXYZ β))).Y| < 1 / 1000000000 ∧
     |(M16_inv (M16 (⟨0, 1, 0⟩ : cmsCIEXYZ β))).Y - 1| < 1 / 1000000000 ∧
     |(M16_inv (M16 (⟨0, 0, 1⟩ : cmsCIEXYZ β))).Y| < 1 / 1000000000 ∧
     |(M16_inv (M16 (⟨1, 0, 0⟩ : cmsCIEXYZ β))).Z| < 1 / 1000000000 ∧
     |(M16_inv (M16 (⟨0, 1, 0⟩ : cmsCIEXYZ β))).Z| < 1 / 1000000000 ∧
     |(M16_inv (M16 (⟨0, 0, 1⟩ : cmsCIEXYZ β))).Z - 1| < 1 / 1000000000) ∧
    |(M16_inv (M16 (⟨X, Y, Z⟩ : cmsCIEXYZ β))).X - X| < 3 / 10000000 ∧
    |(M16_inv (M16 (⟨X, Y, Z⟩ : cmsCIEXYZ β))).Y - Y| < 3 / 10000000 ∧
    |(M16_inv (M16 (⟨X, Y, Z⟩ : cmsCIEXYZ β))).Z - Z| < 3 / 10000000 := by
  obtain ⟨x0, x1⟩ := abs_le.mp hX
  obtain ⟨y0, y1⟩ := abs_le.mp hY
  obtain ⟨z0, z1⟩ := abs_le.mp hZ
  refine ⟨⟨?_, ?_, ?_, ?_, ?_, ?_, ?_, ?_, ?_⟩, ?_, ?_, ?_⟩
  all_goals simp only [M16, M16_inv]
  all_goals rw [abs_lt]
  all_goals constructor
  all_goals linarith

theorem M16_inv_M16_close_witness :
    |(M16_inv (M16 (⟨50, 60, 70⟩ : cmsCIEXYZ ℚ))).X - 50| < 3 / 10000000 ∧
    |(M16_inv (M16 (⟨50, 60, 70⟩ : cmsCIEXYZ ℚ))).Y - 60| < 3 / 10000000 ∧
    |(M16_inv (M16 (⟨50, 60, 70⟩ : cmsCIEXYZ ℚ))).Z - 70| < 3 / 10000000 :=
  (M16_inv_M16_close (50 : ℚ) 60 70 (by rw [abs_le]; constructor <;> norm_num)
    (by rw [abs_le]; constructor <;> norm_num) (by rw [abs_le]; constructor <;> norm_num)).2

end Cam16

namespace Cam16

/-! ## CAM16: the post-adaptation compression -/

theorem sgn_neg {β : Type} [LinearOrderedField β] (s : β) : sgn (-s) = -sgn s := by
  unfold sgn
  rcases lt_trichotomy s 0 with h | h | h
  · have h1 : ¬ (-s < 0) := by linarith
    have h2 : -s > 0 := by linarith
    rw [if_neg h1, if_pos h2, if_pos h]
    norm_num
  · subst h
    simp
  · have h1 : -s < 0 := by linarith
    have h2 : ¬ (s < 0) := by linarith
    rw [if_pos h1, if_neg h2, if_pos h]

theorem sgn_of_pos {β : Type} [LinearOrderedField β] (s : β) (h : 0 < s) : sgn s = 1 := by
  unfold sgn
  rw [if_neg (not_lt.mpr (le_of_lt h)), if_pos h]

theorem adapt_neg {β : Type} [LinearOrderedField β] (pow : β → β → β) (F_L c : β) :
    adapt pow F_L (-c) = -adapt pow F_L c := by
  simp only [adapt, sgn_neg, abs_neg]
  ring

theorem unadapt_neg {β : Type} [LinearOrderedField β] (pow : β → β → β) (F_L c : β) :
    unadapt pow F_L (-c) = -unadapt pow F_L c := by
  simp only [unadapt, sgn_neg, abs_neg]
  ring

/-- On a positive component `unadapt` undoes `adapt`, with the real power
function. -/
theorem unadapt_adapt_of_pos (F_L c : ℝ) (hF : 0 < F_L) (hc : 0 < c) :
    unadapt Real.rpow F_L (adapt Real.rpow F_L c) = c := by
  have hb : 0 < F_L * c * (1 / 100) := by positivity
  have hx : 0 < Real.rpow (F_L * |c| * (1 / 100)) (42 / 100) := by
    rw [abs_of_pos hc]
    exact Real.rpow_pos_of_pos hb _
  have hK : 0 < Real.rpow (2713 / 100) (1 / (42 / 100)) :=
    Real.rpow_pos_of_pos (by norm_num) _
  have hden : 0 < Real.rpow (F_L * |c| * (1 / 100)) (42 / 100) + 2713 / 100 := by linarith
  have ha : adapt Real.rpow F_L c
      = 400 * Real.rpow (F_L * |c| * (1 / 100)) (42 / 100)
          / (Real.rpow (F_L * |c| * (1 / 100)) (42 / 100) + 2713 / 100) := by
    simp only [adapt, sgn_of_pos c hc, one_mul]
  have hapos : 0 < adapt Real.rpow F_L c := by
    rw [ha]
    exact div_pos (by linarith) hden
  have hquot : adapt Real.rpow F_L c / (400 - adapt Real.rpow F_L c)
      = Real.rpow (F_L * |c| * (1 / 100)) (42 / 100) / (2713 / 100) := by
    rw [ha]
    have h400 : 400 - 400 * Real.rpow (F_L * |c| * (1 / 100)) (42 / 100)
          / (Real.rpow (F_L * |c| * (1 / 100)) (42 / 100) + 2713 / 100)
        = 400 * (2713 / 100)
          / (Real.rpow (F_L * |c| * (1 / 100)) (42 / 100) + 2713 / 100) := by
      field_simp
      ring
    rw [h400]
    field_simp
    ring
  have hpow : Real.rpow (Real.rpow (F_L * |c| * (1 / 100)) (42 / 100)) (1 / (42 / 100))
      = F_L * c * (1 / 100) := by
    rw [abs_of_pos hc]
    simp only [Real.rpow_eq_pow]
    rw [← Real.rpow_mul (le_of_lt hb)]
    norm_num
  simp only [unadapt, sgn_of_pos _ hapos, abs_of_pos hapos, one_mul, hquot]
  have hdiv : Real.rpow (Real.rpow (F_L * |c| * (1 / 100)) (42 / 100) / (2713 / 100))
        (1 / (42 / 100))
      = Real.rpow (Real.rpow (F_L * |c| * (1 / 100)) (42 / 100)) (1 / (42 / 100))
          / Real.rpow (2713 / 100) (1 / (42 / 100)) := by
    simp only [Real.rpow_eq_pow]
    exact Real.div_rpow (le_of_lt (by simpa [Real.rpow_eq_pow] using hx)) (by norm_num) _
  rw [hdiv, hpow]
  field_simp
  ring

/-- C29: `unadapt` inverts `adapt` exactly over the real numbers, with `pow` the
real power function: for every `F_L > 0` and every component `c`, positive,
zero or negative, `unadapt(F_L, adapt(F_L, c)) = c`. -/
theorem unadapt_adapt (F_L c : ℝ) (hF : 0 < F_L) :
    unadapt Real.rpow F_L (adapt Real.rpow F_L c) = c := by
  rcases lt_trichotomy c 0 with h | h | h
  · have hn : 0 < -c := by linarith
    have e := unadapt_adapt_of_pos F_L (-c) hF hn
    rw [adapt_neg, unadapt_neg] at e
    linarith
  · subst h
    simp [adapt, unadapt, sgn]
  · exact unadapt_adapt_of_pos F_L c hF h

theorem unadapt_adapt_witness :
    unadapt Real.rpow 1 (adapt Real.rpow 1 50) = 50 ∧
    unadapt Real.rpow 1 (adapt Real.rpow 1 (-50)) = -50 ∧
    unadapt Real.rpow 1 (adapt Real.rpow 1 0) = 0 :=
  ⟨unadapt_adapt 1 50 one_pos, unadapt_adapt 1 (-50) one_pos, unadapt_adapt 1 0 one_pos⟩

end Cam16
